import Mathlib

/-!
# Verification of the `encode` package (order-preserving varints, bit packing, tuples)

This file is a shallow embedding, in Lean 4, of the Go package `encode`
(`src/encode.go` and the tuple / bitpacked files), together with proofs and
refutations of the frozen claims about it.

Modelling conventions:

* Go `uint64` values are `Nat` values `< 2^64`; Go `int64` values are `Int`
  values in `[-2^63, 2^63)`.  Bytes are `Nat` values `< 256`; byte buffers are
  `List Nat`.
* `byte(x)` (truncation of a 64-bit value to 8 bits) is `x % 256`; `x >> k`
  (logical) is `x >>> k` i.e. `x / 2^k`; `x << k` on `uint64` is
  `(x <<< k) % 2^64`.  Arithmetic right shift of an `int64` followed by
  truncation to a byte is modelled through the two's-complement image
  `toUint64` (see `int64Byte`), which agrees with Go for all shifts that are
  multiples of 8 up to 56, the only shifts the source uses.
* `Encode(buf)` methods write into a zero-initialized buffer of length
  `Size()` (that is what `Encoding.Encode` passes them, `make([]byte, n)`
  zeroing in Go), so they are modelled as functions producing the byte list
  they leave in that buffer.  A `buf[i] = e` / `buf[i] |= e` pair on a zeroed
  buffer yields the byte `e₀ ||| e₁` at index `i`.
* Fallible decoders return `Except GoErr`; a Go `panic` is modelled as
  `Option.none`.
* Go `for` loops whose index variable strictly decreases are embedded as
  recursions with an explicit fuel argument equal to a bound on the number of
  iterations (each iteration consumes at least one unit), so that all
  definitions reduce by `rfl`/`decide` in the kernel.
-/

/-- The error values of the package: `io.ErrUnexpectedEOF`,
`ErrOverflowVarint`, `ErrInvalidVarint`, `ErrInvalidBool`, and the bitpacked
"unconsumed bytes" error. -/
inductive GoErr where
  | unexpectedEOF
  | overflowVarint
  | invalidVarint
  | invalidBool
  | unconsumed
  deriving DecidableEq, Repr

/-- Big-endian value of a byte list: `beVal [b0, b1, ..., bk] = b0*256^k + ... + bk`.
This is the number whose base-256 big-endian digits are the list; two equal
length lists of bytes compare lexicographically exactly as their `beVal`s. -/
def beVal (l : List Nat) : Nat := l.foldl (fun acc d => acc * 256 + d) 0

/-- The `k` big-endian bytes of `v` (low `8k` bits), most significant first.
Models `binary.BigEndian.PutUint64` (with `k = 8`) and the byte rows of the
encoders. -/
def beBytes : Nat → Nat → List Nat
  | 0, _ => []
  | k + 1, v => (v >>> (k * 8)) % 256 :: beBytes k v

/-- Model of `bits.Len64` from Go's `math/bits`: the number of bits required to
represent `v`; 0 for `v = 0`.  Embedded with fuel 64, enough for any
`uint64` value. -/
def bitsLen64 (v : Nat) : Nat := bitsLenAux 64 v
where
  bitsLenAux : Nat → Nat → Nat
    | 0, _ => 0
    | f + 1, v => if v = 0 then 0 else bitsLenAux f (v / 2) + 1

/-- Model of `bits.LeadingZeros8` from Go's `math/bits` (argument is a byte). -/
def leadingZeros8 (x : Nat) : Nat := 8 - bitsLen64 (x % 256)

/-- Two's-complement image of an `int64` value as a `uint64`:
`toUint64 v = v mod 2^64`. -/
def toUint64 (v : Int) : Nat := (v % (2 ^ 64 : Int)).toNat

/-- Conversion `int64(u)` for a `uint64` value `u`: reinterpret the two's-complement
bit pattern as a signed value. -/
def ofUint64 (u : Nat) : Int := if u < 2 ^ 63 then (u : Int) else (u : Int) - 2 ^ 64

/-- Go's `byte(v >> (8*k))` for an `int64` value `v` (arithmetic shift then
truncation): byte `k` of the two's-complement representation. -/
def int64Byte (v : Int) (k : Nat) : Nat := toUint64 v / 2 ^ (8 * k) % 256

/-- Lexicographic strict order on byte strings, as computed by Go's
`bytes.Compare` returning a negative value: a proper prefix is smaller, and
otherwise the first differing byte decides. -/
def bytesLt (a b : List Nat) : Prop := List.Lex (· < ·) a b

section BitLemmas

/-- Disjoint `or` is addition: if `b` has fewer than `n` bits then
`(a <<< n) ||| b = a * 2^n + b`. -/
theorem shiftLeft_lor_eq_add (a b n : Nat) (hb : b < 2 ^ n) :
    (a <<< n) ||| b = a * 2 ^ n + b := by
  apply Nat.eq_of_testBit_eq
  intro i
  rw [Nat.testBit_lor, Nat.testBit_shiftLeft, mul_comm a (2 ^ n),
    Nat.testBit_mul_pow_two_add a hb i]
  by_cases h : i < n
  · simp [h, Nat.not_le.mpr h]
  · have hbi : b.testBit i = false :=
      Nat.testBit_lt_two_pow
        (Nat.lt_of_lt_of_le hb (Nat.pow_le_pow_right (by norm_num) (Nat.not_lt.mp h)))
    simp [h, Nat.not_lt.mp h, hbi]

/-- Disjoint `or` is addition, general form: if `a` vanishes below bit `n`
and `b` lives below bit `n` then `a ||| b = a + b`. -/
theorem lor_eq_add (a b n : Nat) (ha : a % 2 ^ n = 0) (hb : b < 2 ^ n) :
    a ||| b = a + b := by
  have h := shiftLeft_lor_eq_add (a / 2 ^ n) b n hb
  rw [Nat.shiftLeft_eq] at h
  have ha2 : a / 2 ^ n * 2 ^ n = a :=
    Nat.div_mul_cancel (Nat.dvd_of_mod_eq_zero ha)
  rw [ha2] at h
  exact h

/-- Masking with `2^n - 1` is reduction mod `2^n`. -/
theorem land_two_pow_sub_one (x n : Nat) : x &&& (2 ^ n - 1) = x % 2 ^ n := by
  apply Nat.eq_of_testBit_eq
  intro i
  rw [Nat.testBit_and, Nat.testBit_mod_two_pow, Nat.testBit_two_pow_sub_one]
  rw [Bool.and_comm]

theorem shiftRight_eq_div (x n : Nat) : x >>> n = x / 2 ^ n :=
  Nat.shiftRight_eq_div_pow x n

/-- Characterization of `bitsLen64` by powers of two (for 64-bit inputs). -/
theorem bitsLen64_le_iff (v k : Nat) (hv : v < 2 ^ 64) :
    bitsLen64 v ≤ k ↔ v < 2 ^ k := by
  have main : ∀ f v, v < 2 ^ f → ∀ k, (bitsLen64.bitsLenAux f v ≤ k ↔ v < 2 ^ k) := by
    intro f
    induction f with
    | zero =>
      intro v hv k
      simp only [pow_zero] at hv
      interval_cases v
      simp only [bitsLen64.bitsLenAux, Nat.zero_le, true_iff]
      exact Nat.pos_pow_of_pos k (by norm_num)
    | succ f ih =>
      intro v hv k
      by_cases h0 : v = 0
      · subst h0
        rw [show bitsLen64.bitsLenAux (f + 1) 0 = 0 from rfl]
        simp only [Nat.zero_le, true_iff]
        exact Nat.pos_pow_of_pos k (by norm_num)
      · have hv2 : v / 2 < 2 ^ f := by
          have : 2 ^ (f + 1) = 2 ^ f * 2 := by ring
          omega
        cases k with
        | zero =>
          simp only [bitsLen64.bitsLenAux, h0, if_false, pow_zero]
          omega
        | succ k =>
          have := ih (v / 2) hv2 k
          simp only [bitsLen64.bitsLenAux, h0, if_false]
          have hp : 2 ^ (k + 1) = 2 ^ k * 2 := by ring
          omega
  exact main 64 v hv k

end BitLemmas

section BeValLemmas

theorem beVal_append_aux (acc : Nat) (l : List Nat) :
    l.foldl (fun acc d => acc * 256 + d) acc =
      acc * 256 ^ l.length + l.foldl (fun acc d => acc * 256 + d) 0 := by
  induction l generalizing acc with
  | nil => simp
  | cons x xs ih =>
    simp only [List.foldl_cons, List.length_cons]
    rw [ih (acc * 256 + x), ih (0 * 256 + x)]
    ring

theorem beVal_cons (x : Nat) (l : List Nat) :
    beVal (x :: l) = x * 256 ^ l.length + beVal l := by
  simp only [beVal, List.foldl_cons]
  have := beVal_append_aux (0 * 256 + x) l
  simpa using this

theorem beVal_lt (l : List Nat) (h : ∀ x ∈ l, x < 256) :
    beVal l < 256 ^ l.length := by
  induction l with
  | nil => simp [beVal]
  | cons x xs ih =>
    rw [beVal_cons]
    have hx : x < 256 := h x (by simp)
    have hxs := ih (fun y hy => h y (by simp [hy]))
    have : x * 256 ^ xs.length ≤ 255 * 256 ^ xs.length :=
      Nat.mul_le_mul_right _ (by omega)
    calc x * 256 ^ xs.length + beVal xs
        < x * 256 ^ xs.length + 256 ^ xs.length := by omega
      _ ≤ 255 * 256 ^ xs.length + 256 ^ xs.length := by omega
      _ = 256 ^ (xs.length + 1) := by ring
      _ = 256 ^ (x :: xs).length := by simp

/-- Equal-length byte strings compare lexicographically as their big-endian
values. -/
theorem bytesLt_of_beVal_lt (a b : List Nat) (hlen : a.length = b.length)
    (ha : ∀ x ∈ a, x < 256) (hb : ∀ x ∈ b, x < 256)
    (hv : beVal a < beVal b) : bytesLt a b := by
  induction a generalizing b with
  | nil =>
    cases b with
    | nil => simp [beVal] at hv
    | cons y ys => simp at hlen
  | cons x xs ih =>
    cases b with
    | nil => simp at hlen
    | cons y ys =>
      simp only [List.length_cons, Nat.succ_inj] at hlen
      rw [beVal_cons, beVal_cons, hlen] at hv
      have hxsv := beVal_lt xs (fun z hz => ha z (by simp [hz]))
      have hysv := beVal_lt ys (fun z hz => hb z (by simp [hz]))
      rw [hlen] at hxsv
      rcases Nat.lt_trichotomy x y with h | h | h
      · exact List.Lex.rel h
      · subst h
        have : beVal xs < beVal ys := by omega
        exact List.Lex.cons (ih ys hlen (fun z hz => ha z (by simp [hz]))
          (fun z hz => hb z (by simp [hz])) this)
      · exfalso
        have : (y + 1) * 256 ^ ys.length ≤ x * 256 ^ ys.length :=
          Nat.mul_le_mul_right _ (by omega)
        nlinarith

theorem beBytes_length (k v : Nat) : (beBytes k v).length = k := by
  induction k generalizing v with
  | zero => simp [beBytes]
  | succ k ih => simp [beBytes, ih]

theorem beVal_beBytes (k v : Nat) : beVal (beBytes k v) = v % 2 ^ (8 * k) := by
  induction k generalizing v with
  | zero => simp [beBytes, beVal, Nat.mod_one]
  | succ k ih =>
    rw [beBytes, beVal_cons, beBytes_length, ih, shiftRight_eq_div]
    have h1 : (2 : Nat) ^ (8 * (k + 1)) = 2 ^ (8 * k) * 256 := by ring
    have h2 : (256 : Nat) ^ k = 2 ^ (8 * k) := by
      rw [show (256 : Nat) = 2 ^ 8 by norm_num, ← pow_mul]
    have h3 : v / 2 ^ (k * 8) = v / 2 ^ (8 * k) := by rw [mul_comm]
    rw [h1, h2, h3, Nat.mod_mul]
    ring

theorem beBytes_bytes_lt (k v : Nat) : ∀ x ∈ beBytes k v, x < 256 := by
  induction k generalizing v with
  | zero => simp [beBytes]
  | succ k ih =>
    intro x hx
    simp only [beBytes, List.mem_cons] at hx
    rcases hx with h | h
    · subst h; exact Nat.mod_lt _ (by norm_num)
    · exact ih v x h

end BeValLemmas

section OrChains

/-!  The decoders accumulate `result |= buf[i] << shift` over disjoint shifts;
these lemmas turn each such or-chain into the corresponding sum. -/

theorem orChain2 (b0 b1 : Nat) (h1 : b1 < 256) :
    ((0 ||| (b0 <<< 8)) ||| b1) = b0 * 2 ^ 8 + b1 := by
  simp only [Nat.shiftLeft_eq, Nat.zero_or]
  rw [lor_eq_add (b0 * 2 ^ 8) b1 8 (by omega) (by omega)]

theorem orChain3 (b0 b1 b2 : Nat) (h1 : b1 < 256) (h2 : b2 < 256) :
    (((0 ||| (b0 <<< 16)) ||| (b1 <<< 8)) ||| b2) = b0 * 2 ^ 16 + b1 * 2 ^ 8 + b2 := by
  simp only [Nat.shiftLeft_eq, Nat.zero_or]
  rw [lor_eq_add (b0 * 2 ^ 16) (b1 * 2 ^ 8) 16 (by omega) (by omega),
    lor_eq_add (b0 * 2 ^ 16 + b1 * 2 ^ 8) b2 8 (by omega) (by omega)]

theorem orChain4 (b0 b1 b2 b3 : Nat) (h1 : b1 < 256) (h2 : b2 < 256) (h3 : b3 < 256) :
    ((((0 ||| (b0 <<< 24)) ||| (b1 <<< 16)) ||| (b2 <<< 8)) ||| b3) = b0 * 2 ^ 24 + b1 * 2 ^ 16 + b2 * 2 ^ 8 + b3 := by
  simp only [Nat.shiftLeft_eq, Nat.zero_or]
  rw [lor_eq_add (b0 * 2 ^ 24) (b1 * 2 ^ 16) 24 (by omega) (by omega),
    lor_eq_add (b0 * 2 ^ 24 + b1 * 2 ^ 16) (b2 * 2 ^ 8) 16 (by omega) (by omega),
    lor_eq_add (b0 * 2 ^ 24 + b1 * 2 ^ 16 + b2 * 2 ^ 8) b3 8 (by omega) (by omega)]

theorem orChain5 (b0 b1 b2 b3 b4 : Nat) (h1 : b1 < 256) (h2 : b2 < 256) (h3 : b3 < 256) (h4 : b4 < 256) :
    (((((0 ||| (b0 <<< 32)) ||| (b1 <<< 24)) ||| (b2 <<< 16)) ||| (b3 <<< 8)) ||| b4) = b0 * 2 ^ 32 + b1 * 2 ^ 24 + b2 * 2 ^ 16 + b3 * 2 ^ 8 + b4 := by
  simp only [Nat.shiftLeft_eq, Nat.zero_or]
  rw [lor_eq_add (b0 * 2 ^ 32) (b1 * 2 ^ 24) 32 (by omega) (by omega),
    lor_eq_add (b0 * 2 ^ 32 + b1 * 2 ^ 24) (b2 * 2 ^ 16) 24 (by omega) (by omega),
    lor_eq_add (b0 * 2 ^ 32 + b1 * 2 ^ 24 + b2 * 2 ^ 16) (b3 * 2 ^ 8) 16 (by omega) (by omega),
    lor_eq_add (b0 * 2 ^ 32 + b1 * 2 ^ 24 + b2 * 2 ^ 16 + b3 * 2 ^ 8) b4 8 (by omega) (by omega)]

theorem orChain6 (b0 b1 b2 b3 b4 b5 : Nat) (h1 : b1 < 256) (h2 : b2 < 256) (h3 : b3 < 256) (h4 : b4 < 256) (h5 : b5 < 256) :
    ((((((0 ||| (b0 <<< 40)) ||| (b1 <<< 32)) ||| (b2 <<< 24)) ||| (b3 <<< 16)) ||| (b4 <<< 8)) ||| b5) = b0 * 2 ^ 40 + b1 * 2 ^ 32 + b2 * 2 ^ 24 + b3 * 2 ^ 16 + b4 * 2 ^ 8 + b5 := by
  simp only [Nat.shiftLeft_eq, Nat.zero_or]
  rw [lor_eq_add (b0 * 2 ^ 40) (b1 * 2 ^ 32) 40 (by omega) (by omega),
    lor_eq_add (b0 * 2 ^ 40 + b1 * 2 ^ 32) (b2 * 2 ^ 24) 32 (by omega) (by omega),
    lor_eq_add (b0 * 2 ^ 40 + b1 * 2 ^ 32 + b2 * 2 ^ 24) (b3 * 2 ^ 16) 24 (by omega) (by omega),
    lor_eq_add (b0 * 2 ^ 40 + b1 * 2 ^ 32 + b2 * 2 ^ 24 + b3 * 2 ^ 16) (b4 * 2 ^ 8) 16 (by omega) (by omega),
    lor_eq_add (b0 * 2 ^ 40 + b1 * 2 ^ 32 + b2 * 2 ^ 24 + b3 * 2 ^ 16 + b4 * 2 ^ 8) b5 8 (by omega) (by omega)]

theorem orChain7 (b0 b1 b2 b3 b4 b5 b6 : Nat) (h1 : b1 < 256) (h2 : b2 < 256) (h3 : b3 < 256) (h4 : b4 < 256) (h5 : b5 < 256) (h6 : b6 < 256) :
    (((((((0 ||| (b0 <<< 48)) ||| (b1 <<< 40)) ||| (b2 <<< 32)) ||| (b3 <<< 24)) ||| (b4 <<< 16)) ||| (b5 <<< 8)) ||| b6) = b0 * 2 ^ 48 + b1 * 2 ^ 40 + b2 * 2 ^ 32 + b3 * 2 ^ 24 + b4 * 2 ^ 16 + b5 * 2 ^ 8 + b6 := by
  simp only [Nat.shiftLeft_eq, Nat.zero_or]
  rw [lor_eq_add (b0 * 2 ^ 48) (b1 * 2 ^ 40) 48 (by omega) (by omega),
    lor_eq_add (b0 * 2 ^ 48 + b1 * 2 ^ 40) (b2 * 2 ^ 32) 40 (by omega) (by omega),
    lor_eq_add (b0 * 2 ^ 48 + b1 * 2 ^ 40 + b2 * 2 ^ 32) (b3 * 2 ^ 24) 32 (by omega) (by omega),
    lor_eq_add (b0 * 2 ^ 48 + b1 * 2 ^ 40 + b2 * 2 ^ 32 + b3 * 2 ^ 24) (b4 * 2 ^ 16) 24 (by omega) (by omega),
    lor_eq_add (b0 * 2 ^ 48 + b1 * 2 ^ 40 + b2 * 2 ^ 32 + b3 * 2 ^ 24 + b4 * 2 ^ 16) (b5 * 2 ^ 8) 16 (by omega) (by omega),
    lor_eq_add (b0 * 2 ^ 48 + b1 * 2 ^ 40 + b2 * 2 ^ 32 + b3 * 2 ^ 24 + b4 * 2 ^ 16 + b5 * 2 ^ 8) b6 8 (by omega) (by omega)]

theorem orChain8 (b0 b1 b2 b3 b4 b5 b6 b7 : Nat) (h1 : b1 < 256) (h2 : b2 < 256) (h3 : b3 < 256) (h4 : b4 < 256) (h5 : b5 < 256) (h6 : b6 < 256) (h7 : b7 < 256) :
    ((((((((0 ||| (b0 <<< 56)) ||| (b1 <<< 48)) ||| (b2 <<< 40)) ||| (b3 <<< 32)) ||| (b4 <<< 24)) ||| (b5 <<< 16)) ||| (b6 <<< 8)) ||| b7) = b0 * 2 ^ 56 + b1 * 2 ^ 48 + b2 * 2 ^ 40 + b3 * 2 ^ 32 + b4 * 2 ^ 24 + b5 * 2 ^ 16 + b6 * 2 ^ 8 + b7 := by
  simp only [Nat.shiftLeft_eq, Nat.zero_or]
  rw [lor_eq_add (b0 * 2 ^ 56) (b1 * 2 ^ 48) 56 (by omega) (by omega),
    lor_eq_add (b0 * 2 ^ 56 + b1 * 2 ^ 48) (b2 * 2 ^ 40) 48 (by omega) (by omega),
    lor_eq_add (b0 * 2 ^ 56 + b1 * 2 ^ 48 + b2 * 2 ^ 40) (b3 * 2 ^ 32) 40 (by omega) (by omega),
    lor_eq_add (b0 * 2 ^ 56 + b1 * 2 ^ 48 + b2 * 2 ^ 40 + b3 * 2 ^ 32) (b4 * 2 ^ 24) 32 (by omega) (by omega),
    lor_eq_add (b0 * 2 ^ 56 + b1 * 2 ^ 48 + b2 * 2 ^ 40 + b3 * 2 ^ 32 + b4 * 2 ^ 24) (b5 * 2 ^ 16) 24 (by omega) (by omega),
    lor_eq_add (b0 * 2 ^ 56 + b1 * 2 ^ 48 + b2 * 2 ^ 40 + b3 * 2 ^ 32 + b4 * 2 ^ 24 + b5 * 2 ^ 16) (b6 * 2 ^ 8) 16 (by omega) (by omega),
    lor_eq_add (b0 * 2 ^ 56 + b1 * 2 ^ 48 + b2 * 2 ^ 40 + b3 * 2 ^ 32 + b4 * 2 ^ 24 + b5 * 2 ^ 16 + b6 * 2 ^ 8) b7 8 (by omega) (by omega)]

theorem orChain9 (b0 b1 b2 b3 b4 b5 b6 b7 b8 : Nat) (h1 : b1 < 256) (h2 : b2 < 256) (h3 : b3 < 256) (h4 : b4 < 256) (h5 : b5 < 256) (h6 : b6 < 256) (h7 : b7 < 256) (h8 : b8 < 256) :
    (((((((((0 ||| (b0 <<< 64)) ||| (b1 <<< 56)) ||| (b2 <<< 48)) ||| (b3 <<< 40)) ||| (b4 <<< 32)) ||| (b5 <<< 24)) ||| (b6 <<< 16)) ||| (b7 <<< 8)) ||| b8) = b0 * 2 ^ 64 + b1 * 2 ^ 56 + b2 * 2 ^ 48 + b3 * 2 ^ 40 + b4 * 2 ^ 32 + b5 * 2 ^ 24 + b6 * 2 ^ 16 + b7 * 2 ^ 8 + b8 := by
  simp only [Nat.shiftLeft_eq, Nat.zero_or]
  rw [lor_eq_add (b0 * 2 ^ 64) (b1 * 2 ^ 56) 64 (by omega) (by omega),
    lor_eq_add (b0 * 2 ^ 64 + b1 * 2 ^ 56) (b2 * 2 ^ 48) 56 (by omega) (by omega),
    lor_eq_add (b0 * 2 ^ 64 + b1 * 2 ^ 56 + b2 * 2 ^ 48) (b3 * 2 ^ 40) 48 (by omega) (by omega),
    lor_eq_add (b0 * 2 ^ 64 + b1 * 2 ^ 56 + b2 * 2 ^ 48 + b3 * 2 ^ 40) (b4 * 2 ^ 32) 40 (by omega) (by omega),
    lor_eq_add (b0 * 2 ^ 64 + b1 * 2 ^ 56 + b2 * 2 ^ 48 + b3 * 2 ^ 40 + b4 * 2 ^ 32) (b5 * 2 ^ 24) 32 (by omega) (by omega),
    lor_eq_add (b0 * 2 ^ 64 + b1 * 2 ^ 56 + b2 * 2 ^ 48 + b3 * 2 ^ 40 + b4 * 2 ^ 32 + b5 * 2 ^ 24) (b6 * 2 ^ 16) 24 (by omega) (by omega),
    lor_eq_add (b0 * 2 ^ 64 + b1 * 2 ^ 56 + b2 * 2 ^ 48 + b3 * 2 ^ 40 + b4 * 2 ^ 32 + b5 * 2 ^ 24 + b6 * 2 ^ 16) (b7 * 2 ^ 8) 16 (by omega) (by omega),
    lor_eq_add (b0 * 2 ^ 64 + b1 * 2 ^ 56 + b2 * 2 ^ 48 + b3 * 2 ^ 40 + b4 * 2 ^ 32 + b5 * 2 ^ 24 + b6 * 2 ^ 16 + b7 * 2 ^ 8) b8 8 (by omega) (by omega)]

end OrChains

namespace ordUvarint64

/-- Model of `ordUvarint64.Encode` (src/encode.go lines 324-338), giving the
contents it leaves in the zero-initialized buffer of length `Size`:

    l := bits.Len64(v)
    if l > 56 { buf[0] = 0xFF; binary.BigEndian.PutUint64(buf[1:], v); return }
    nBytes := (l + 6) / 7
    nLeadingOnes := nBytes - 1
    buf[0] = ((1 << nLeadingOnes) - 1) << (8 - nLeadingOnes)   // byte arithmetic
    for i := 0; i < nBytes; i++ { buf[i] |= byte(v >> ((nBytes-i-1)*8)) }

The buffer has length `Size v`; byte 0 is assigned the unary prefix, and the
loop ors `byte(v >> ((nBytes-i-1)*8))` into bytes `i < nBytes` of the zeroed
buffer (`nBytes = Size v` except for `v = 0`, where `nBytes = 0` and only the
`buf[0] = 0` assignment runs; Go's `nLeadingOnes = -1` there makes the prefix
expression shift everything out, producing 0, as does the `Nat` version). -/
def Size (v : Nat) : Nat :=
  if bitsLen64 v > 56 then 9 else 1 + (bitsLen64 v - 1) / 7

/-- Model of `ordUvarint64.Encode`, see the comment above `Size`. -/
def Encode (v : Nat) : List Nat :=
  if bitsLen64 v > 56 then
    0xFF :: beBytes 8 v
  else
    (List.range (Size v)).map (fun i =>
      (if i = 0 then
        (((1 <<< ((bitsLen64 v + 6) / 7 - 1)) - 1) <<< (8 - ((bitsLen64 v + 6) / 7 - 1))) % 256
       else 0) |||
      (if i < (bitsLen64 v + 6) / 7 then
        (v >>> (((bitsLen64 v + 6) / 7 - i - 1) * 8)) % 256
       else 0))

/-- Model of `ordUvarint64.Decode` (src/encode.go lines 346-374).  `^buf[0]` is
`buf[0] ^^^ 0xFF`; the loop or-ing `buf[i] << ((rBytes*8)-(i*8)-8)` into
`result` is the fold. -/
def Decode (buf : List Nat) : Except GoErr Nat :=
  if buf.length < 1 then .error .unexpectedEOF else
  let nLeadingOnes := leadingZeros8 ((buf.getD 0 0) ^^^ 0xFF)
  let nBytes := nLeadingOnes + 1
  let rBits := nBytes * 7
  let rBytes := (rBits + 8) / 8
  if rBits = 63 then
    if buf.length < 9 then .error .unexpectedEOF
    else .ok (beVal ((buf.drop 1).take 8))
  else
    if buf.length < nBytes then .error .unexpectedEOF
    else
      .ok ((List.range nBytes).foldl
        (fun acc i => acc ||| ((buf.getD i 0) <<< (rBytes * 8 - i * 8 - 8))) 0 &&&
        ((1 <<< rBits) - 1))

/-- Lower end of the `s`-byte band of `ordUvarint64` (`s ∈ [1,9]`). -/
def bandLo (s : Nat) : Nat := if s = 1 then 0 else 2 ^ (7 * (s - 1))

/-- One past the upper end of the `s`-byte band of `ordUvarint64`. -/
def bandHi (s : Nat) : Nat := if s = 9 then 2 ^ 64 else 2 ^ (7 * s)

/-- Smallest possible first byte of an `s`-byte encoding: the unary prefix
of `s - 1` ones. -/
def fbLo (s : Nat) : Nat := 256 - 2 ^ (9 - s)

/-- One past the largest possible first byte of an `s`-byte encoding. -/
def fbHi (s : Nat) : Nat := if s = 9 then 256 else 256 - 2 ^ (8 - s)

/-- The constant offset between a value and the big-endian weight of its
encoding: `beVal (Encode v) = fbLo s * 256^(s-1) + v` on the `s`-byte band. -/
def bandC (s : Nat) : Nat := fbLo s * 256 ^ (s - 1)

end ordUvarint64

namespace ordUvarint64

/-! Band-by-band closed forms of `Encode` and `Size`.  Band `s` is the set
of values taking `s` encoded bytes. -/

theorem encode_frame1 (v : Nat) (h2 : v < 2 ^ 7) :
    Encode v = [v] ∧ Size v = 1 := by
  by_cases h0 : v = 0
  · subst h0; exact ⟨rfl, rfl⟩
  · have hv64 : v < 2 ^ 64 := lt_trans h2 (by norm_num)
    have hl_le : bitsLen64 v ≤ 7 := (bitsLen64_le_iff v 7 hv64).mpr h2
    have hl_ge : ¬ bitsLen64 v ≤ 0 := fun h =>
      absurd ((bitsLen64_le_iff v 0 hv64).mp h) (by omega)
    have h56 : ¬ bitsLen64 v > 56 := by omega
    have hs : Size v = 1 := by rw [Size, if_neg h56]; omega
    have hn : (bitsLen64 v + 6) / 7 = 1 := by omega
    refine ⟨?_, hs⟩
    rw [Encode, if_neg h56, hs, hn]
    rw [show List.range 1 = [0] from rfl]
    simp only [List.map_cons, List.map_nil, shiftRight_eq_div]
    norm_num
    omega

theorem encode_frame2 (v : Nat) (h1 : 2 ^ 7 ≤ v) (h2 : v < 2 ^ 14) :
    Encode v = [128 + v / 256, v % 256] ∧ Size v = 2 := by
  have hv64 : v < 2 ^ 64 := lt_trans h2 (by norm_num)
  have hl_le : bitsLen64 v ≤ 14 := (bitsLen64_le_iff v 14 hv64).mpr h2
  have hl_ge : ¬ bitsLen64 v ≤ 7 := fun h =>
    absurd ((bitsLen64_le_iff v 7 hv64).mp h) (by omega)
  have h56 : ¬ bitsLen64 v > 56 := by omega
  have hs : Size v = 2 := by rw [Size, if_neg h56]; omega
  have hn : (bitsLen64 v + 6) / 7 = 2 := by omega
  refine ⟨?_, hs⟩
  rw [Encode, if_neg h56, hs, hn]
  rw [show List.range 2 = [0, 1] from rfl]
  simp only [List.map_cons, List.map_nil, shiftRight_eq_div]
  norm_num
  rw [show ((1 <<< 1 - 1) <<< 7 % 256 : Nat) = 128 from rfl]
  rw [Nat.mod_eq_of_lt (show v / 256 < 256 by omega)]
  rw [lor_eq_add 128 (v / 256) 7 (by norm_num) (by omega)]

theorem encode_frame3 (v : Nat) (h1 : 2 ^ 14 ≤ v) (h2 : v < 2 ^ 21) :
    Encode v = [192 + v / 65536, v / 256 % 256, v % 256] ∧ Size v = 3 := by
  have hv64 : v < 2 ^ 64 := lt_trans h2 (by norm_num)
  have hl_le : bitsLen64 v ≤ 21 := (bitsLen64_le_iff v 21 hv64).mpr h2
  have hl_ge : ¬ bitsLen64 v ≤ 14 := fun h =>
    absurd ((bitsLen64_le_iff v 14 hv64).mp h) (by omega)
  have h56 : ¬ bitsLen64 v > 56 := by omega
  have hs : Size v = 3 := by rw [Size, if_neg h56]; omega
  have hn : (bitsLen64 v + 6) / 7 = 3 := by omega
  refine ⟨?_, hs⟩
  rw [Encode, if_neg h56, hs, hn]
  rw [show List.range 3 = [0, 1, 2] from rfl]
  simp only [List.map_cons, List.map_nil, shiftRight_eq_div]
  norm_num
  rw [show ((1 <<< 2 - 1) <<< 6 % 256 : Nat) = 192 from rfl]
  rw [Nat.mod_eq_of_lt (show v / 65536 < 256 by omega)]
  rw [lor_eq_add 192 (v / 65536) 6 (by norm_num) (by omega)]

theorem encode_frame4 (v : Nat) (h1 : 2 ^ 21 ≤ v) (h2 : v < 2 ^ 28) :
    Encode v = [224 + v / 16777216, v / 65536 % 256, v / 256 % 256, v % 256] ∧ Size v = 4 := by
  have hv64 : v < 2 ^ 64 := lt_trans h2 (by norm_num)
  have hl_le : bitsLen64 v ≤ 28 := (bitsLen64_le_iff v 28 hv64).mpr h2
  have hl_ge : ¬ bitsLen64 v ≤ 21 := fun h =>
    absurd ((bitsLen64_le_iff v 21 hv64).mp h) (by omega)
  have h56 : ¬ bitsLen64 v > 56 := by omega
  have hs : Size v = 4 := by rw [Size, if_neg h56]; omega
  have hn : (bitsLen64 v + 6) / 7 = 4 := by omega
  refine ⟨?_, hs⟩
  rw [Encode, if_neg h56, hs, hn]
  rw [show List.range 4 = [0, 1, 2, 3] from rfl]
  simp only [List.map_cons, List.map_nil, shiftRight_eq_div]
  norm_num
  rw [show ((1 <<< 3 - 1) <<< 5 % 256 : Nat) = 224 from rfl]
  rw [Nat.mod_eq_of_lt (show v / 16777216 < 256 by omega)]
  rw [lor_eq_add 224 (v / 16777216) 5 (by norm_num) (by omega)]

theorem encode_frame5 (v : Nat) (h1 : 2 ^ 28 ≤ v) (h2 : v < 2 ^ 35) :
    Encode v = [240 + v / 4294967296, v / 16777216 % 256, v / 65536 % 256, v / 256 % 256, v % 256] ∧ Size v = 5 := by
  have hv64 : v < 2 ^ 64 := lt_trans h2 (by norm_num)
  have hl_le : bitsLen64 v ≤ 35 := (bitsLen64_le_iff v 35 hv64).mpr h2
  have hl_ge : ¬ bitsLen64 v ≤ 28 := fun h =>
    absurd ((bitsLen64_le_iff v 28 hv64).mp h) (by omega)
  have h56 : ¬ bitsLen64 v > 56 := by omega
  have hs : Size v = 5 := by rw [Size, if_neg h56]; omega
  have hn : (bitsLen64 v + 6) / 7 = 5 := by omega
  refine ⟨?_, hs⟩
  rw [Encode, if_neg h56, hs, hn]
  rw [show List.range 5 = [0, 1, 2, 3, 4] from rfl]
  simp only [List.map_cons, List.map_nil, shiftRight_eq_div]
  norm_num
  rw [show ((1 <<< 4 - 1) <<< 4 % 256 : Nat) = 240 from rfl]
  rw [Nat.mod_eq_of_lt (show v / 4294967296 < 256 by omega)]
  rw [lor_eq_add 240 (v / 4294967296) 4 (by norm_num) (by omega)]

theorem encode_frame6 (v : Nat) (h1 : 2 ^ 35 ≤ v) (h2 : v < 2 ^ 42) :
    Encode v = [248 + v / 1099511627776, v / 4294967296 % 256, v / 16777216 % 256, v / 65536 % 256, v / 256 % 256, v % 256] ∧ Size v = 6 := by
  have hv64 : v < 2 ^ 64 := lt_trans h2 (by norm_num)
  have hl_le : bitsLen64 v ≤ 42 := (bitsLen64_le_iff v 42 hv64).mpr h2
  have hl_ge : ¬ bitsLen64 v ≤ 35 := fun h =>
    absurd ((bitsLen64_le_iff v 35 hv64).mp h) (by omega)
  have h56 : ¬ bitsLen64 v > 56 := by omega
  have hs : Size v = 6 := by rw [Size, if_neg h56]; omega
  have hn : (bitsLen64 v + 6) / 7 = 6 := by omega
  refine ⟨?_, hs⟩
  rw [Encode, if_neg h56, hs, hn]
  rw [show List.range 6 = [0, 1, 2, 3, 4, 5] from rfl]
  simp only [List.map_cons, List.map_nil, shiftRight_eq_div]
  norm_num
  rw [show ((1 <<< 5 - 1) <<< 3 % 256 : Nat) = 248 from rfl]
  rw [Nat.mod_eq_of_lt (show v / 1099511627776 < 256 by omega)]
  rw [lor_eq_add 248 (v / 1099511627776) 3 (by norm_num) (by omega)]

theorem encode_frame7 (v : Nat) (h1 : 2 ^ 42 ≤ v) (h2 : v < 2 ^ 49) :
    Encode v = [252 + v / 281474976710656, v / 1099511627776 % 256, v / 4294967296 % 256, v / 16777216 % 256, v / 65536 % 256, v / 256 % 256, v % 256] ∧ Size v = 7 := by
  have hv64 : v < 2 ^ 64 := lt_trans h2 (by norm_num)
  have hl_le : bitsLen64 v ≤ 49 := (bitsLen64_le_iff v 49 hv64).mpr h2
  have hl_ge : ¬ bitsLen64 v ≤ 42 := fun h =>
    absurd ((bitsLen64_le_iff v 42 hv64).mp h) (by omega)
  have h56 : ¬ bitsLen64 v > 56 := by omega
  have hs : Size v = 7 := by rw [Size, if_neg h56]; omega
  have hn : (bitsLen64 v + 6) / 7 = 7 := by omega
  refine ⟨?_, hs⟩
  rw [Encode, if_neg h56, hs, hn]
  rw [show List.range 7 = [0, 1, 2, 3, 4, 5, 6] from rfl]
  simp only [List.map_cons, List.map_nil, shiftRight_eq_div]
  norm_num
  rw [show ((1 <<< 6 - 1) <<< 2 % 256 : Nat) = 252 from rfl]
  rw [Nat.mod_eq_of_lt (show v / 281474976710656 < 256 by omega)]
  rw [lor_eq_add 252 (v / 281474976710656) 2 (by norm_num) (by omega)]

theorem encode_frame8 (v : Nat) (h1 : 2 ^ 49 ≤ v) (h2 : v < 2 ^ 56) :
    Encode v = [254 + v / 72057594037927936, v / 281474976710656 % 256, v / 1099511627776 % 256, v / 4294967296 % 256, v / 16777216 % 256, v / 65536 % 256, v / 256 % 256, v % 256] ∧ Size v = 8 := by
  have hv64 : v < 2 ^ 64 := lt_trans h2 (by norm_num)
  have hl_le : bitsLen64 v ≤ 56 := (bitsLen64_le_iff v 56 hv64).mpr h2
  have hl_ge : ¬ bitsLen64 v ≤ 49 := fun h =>
    absurd ((bitsLen64_le_iff v 49 hv64).mp h) (by omega)
  have h56 : ¬ bitsLen64 v > 56 := by omega
  have hs : Size v = 8 := by rw [Size, if_neg h56]; omega
  have hn : (bitsLen64 v + 6) / 7 = 8 := by omega
  refine ⟨?_, hs⟩
  rw [Encode, if_neg h56, hs, hn]
  rw [show List.range 8 = [0, 1, 2, 3, 4, 5, 6, 7] from rfl]
  simp only [List.map_cons, List.map_nil, shiftRight_eq_div]
  norm_num
  rw [show ((1 <<< 7 - 1) <<< 1 % 256 : Nat) = 254 from rfl]
  rw [Nat.mod_eq_of_lt (show v / 72057594037927936 < 256 by omega)]
  rw [lor_eq_add 254 (v / 72057594037927936) 1 (by norm_num) (by omega)]

theorem encode_frame9 (v : Nat) (h1 : 2 ^ 56 ≤ v) (h2 : v < 2 ^ 64) :
    Encode v = 255 :: beBytes 8 v ∧ Size v = 9 := by
  have hl_ge : ¬ bitsLen64 v ≤ 56 := fun h =>
    absurd ((bitsLen64_le_iff v 56 h2).mp h) (by omega)
  have h56 : bitsLen64 v > 56 := by omega
  exact ⟨by rw [Encode, if_pos h56], by rw [Size, if_pos h56]⟩

end ordUvarint64

namespace ordUvarint64

theorem beVal_nil : beVal [] = 0 := rfl

/-- Every 64-bit value lies in exactly one band `s`; on that band `Size` is
`s`, the encoding has length `s`, all its bytes are bytes, its big-endian
value is the band constant plus the value, and its first byte lies in the
band's first-byte window. -/
theorem encode_specU (v : Nat) (hv : v < 2 ^ 64) :
    ∃ s, 1 ≤ s ∧ s ≤ 9 ∧ bandLo s ≤ v ∧ v < bandHi s ∧ Size v = s ∧
      (Encode v).length = s ∧ (∀ x ∈ Encode v, x < 256) ∧
      beVal (Encode v) = bandC s + v ∧
      ∃ fb rest, Encode v = fb :: rest ∧ fbLo s ≤ fb ∧ fb < fbHi s := by
  have hcase : v < 2 ^ 7 ∨ (2 ^ 7 ≤ v ∧ v < 2 ^ 14) ∨ (2 ^ 14 ≤ v ∧ v < 2 ^ 21) ∨
      (2 ^ 21 ≤ v ∧ v < 2 ^ 28) ∨ (2 ^ 28 ≤ v ∧ v < 2 ^ 35) ∨
      (2 ^ 35 ≤ v ∧ v < 2 ^ 42) ∨ (2 ^ 42 ≤ v ∧ v < 2 ^ 49) ∨
      (2 ^ 49 ≤ v ∧ v < 2 ^ 56) ∨ (2 ^ 56 ≤ v ∧ v < 2 ^ 64) := by omega
  rcases hcase with h | ⟨h1, h2⟩ | ⟨h1, h2⟩ | ⟨h1, h2⟩ | ⟨h1, h2⟩ | ⟨h1, h2⟩ |
    ⟨h1, h2⟩ | ⟨h1, h2⟩ | ⟨h1, h2⟩
  · obtain ⟨hE, hS⟩ := encode_frame1 v h
    refine ⟨1, by norm_num, by norm_num, by norm_num [bandLo], by norm_num [bandHi]; try omega,
      hS, by rw [hE]; rfl, ?_, ?_, v, [], hE, by norm_num [fbLo], by norm_num [fbHi]; try omega⟩
    · intro x hx
      rw [hE] at hx
      simp only [List.mem_cons, List.not_mem_nil, or_false] at hx
      omega
    · rw [hE, beVal_cons, beVal_nil]
      norm_num [bandC, fbLo]
  · obtain ⟨hE, hS⟩ := encode_frame2 v h1 h2
    refine ⟨2, by norm_num, by norm_num, by norm_num [bandLo]; try omega,
      by norm_num [bandHi]; try omega, hS, by rw [hE]; rfl, ?_, ?_,
      128 + v / 256, _, hE, by norm_num [fbLo]; try omega, by norm_num [fbHi]; try omega⟩
    · intro x hx
      rw [hE] at hx
      simp only [List.mem_cons, List.not_mem_nil, or_false] at hx
      rcases hx with h | h <;> omega
    · rw [hE]
      simp only [beVal_cons, beVal_nil, List.length_cons, List.length_nil]
      norm_num [bandC, fbLo]
      omega
  · obtain ⟨hE, hS⟩ := encode_frame3 v h1 h2
    refine ⟨3, by norm_num, by norm_num, by norm_num [bandLo]; try omega,
      by norm_num [bandHi]; try omega, hS, by rw [hE]; rfl, ?_, ?_,
      192 + v / 65536, _, hE, by norm_num [fbLo]; try omega, by norm_num [fbHi]; try omega⟩
    · intro x hx
      rw [hE] at hx
      simp only [List.mem_cons, List.not_mem_nil, or_false] at hx
      rcases hx with h | h | h <;> omega
    · rw [hE]
      simp only [beVal_cons, beVal_nil, List.length_cons, List.length_nil]
      norm_num [bandC, fbLo]
      omega
  · obtain ⟨hE, hS⟩ := encode_frame4 v h1 h2
    refine ⟨4, by norm_num, by norm_num, by norm_num [bandLo]; try omega,
      by norm_num [bandHi]; try omega, hS, by rw [hE]; rfl, ?_, ?_,
      224 + v / 16777216, _, hE, by norm_num [fbLo]; try omega, by norm_num [fbHi]; try omega⟩
    · intro x hx
      rw [hE] at hx
      simp only [List.mem_cons, List.not_mem_nil, or_false] at hx
      rcases hx with h | h | h | h <;> omega
    · rw [hE]
      simp only [beVal_cons, beVal_nil, List.length_cons, List.length_nil]
      norm_num [bandC, fbLo]
      omega
  · obtain ⟨hE, hS⟩ := encode_frame5 v h1 h2
    refine ⟨5, by norm_num, by norm_num, by norm_num [bandLo]; try omega,
      by norm_num [bandHi]; try omega, hS, by rw [hE]; rfl, ?_, ?_,
      240 + v / 4294967296, _, hE, by norm_num [fbLo]; try omega, by norm_num [fbHi]; try omega⟩
    · intro x hx
      rw [hE] at hx
      simp only [List.mem_cons, List.not_mem_nil, or_false] at hx
      rcases hx with h | h | h | h | h <;> omega
    · rw [hE]
      simp only [beVal_cons, beVal_nil, List.length_cons, List.length_nil]
      norm_num [bandC, fbLo]
      omega
  · obtain ⟨hE, hS⟩ := encode_frame6 v h1 h2
    refine ⟨6, by norm_num, by norm_num, by norm_num [bandLo]; try omega,
      by norm_num [bandHi]; try omega, hS, by rw [hE]; rfl, ?_, ?_,
      248 + v / 1099511627776, _, hE, by norm_num [fbLo]; try omega, by norm_num [fbHi]; try omega⟩
    · intro x hx
      rw [hE] at hx
      simp only [List.mem_cons, List.not_mem_nil, or_false] at hx
      rcases hx with h | h | h | h | h | h <;> omega
    · rw [hE]
      simp only [beVal_cons, beVal_nil, List.length_cons, List.length_nil]
      norm_num [bandC, fbLo]
      omega
  · obtain ⟨hE, hS⟩ := encode_frame7 v h1 h2
    refine ⟨7, by norm_num, by norm_num, by norm_num [bandLo]; try omega,
      by norm_num [bandHi]; try omega, hS, by rw [hE]; rfl, ?_, ?_,
      252 + v / 281474976710656, _, hE, by norm_num [fbLo]; try omega, by norm_num [fbHi]; try omega⟩
    · intro x hx
      rw [hE] at hx
      simp only [List.mem_cons, List.not_mem_nil, or_false] at hx
      rcases hx with h | h | h | h | h | h | h <;> omega
    · rw [hE]
      simp only [beVal_cons, beVal_nil, List.length_cons, List.length_nil]
      norm_num [bandC, fbLo]
      omega
  · obtain ⟨hE, hS⟩ := encode_frame8 v h1 h2
    refine ⟨8, by norm_num, by norm_num, by norm_num [bandLo]; try omega,
      by norm_num [bandHi]; try omega, hS, by rw [hE]; rfl, ?_, ?_,
      254 + v / 72057594037927936, _, hE, by norm_num [fbLo]; try omega, by norm_num [fbHi]; try omega⟩
    · intro x hx
      rw [hE] at hx
      simp only [List.mem_cons, List.not_mem_nil, or_false] at hx
      rcases hx with h | h | h | h | h | h | h | h <;> omega
    · rw [hE]
      simp only [beVal_cons, beVal_nil, List.length_cons, List.length_nil]
      norm_num [bandC, fbLo]
      omega
  · obtain ⟨hE, hS⟩ := encode_frame9 v h1 h2
    refine ⟨9, by norm_num, by norm_num, by norm_num [bandLo]; try omega,
      by norm_num [bandHi]; try omega, hS, ?_, ?_, ?_, 255, beBytes 8 v, hE,
      by norm_num [fbLo], by norm_num [fbHi]⟩
    · rw [hE]
      simp [beBytes_length]
    · intro x hx
      rw [hE] at hx
      rcases List.mem_cons.mp hx with h | h
      · omega
      · exact beBytes_bytes_lt 8 v x h
    · rw [hE, beVal_cons, beBytes_length, beVal_beBytes]
      norm_num [bandC, fbLo]
      omega

end ordUvarint64

namespace ordUvarint64

/-- Bands are ordered: a value in a lower band is below every value in a
higher band. -/
theorem band_orderedU : ∀ j, j < 10 → ∀ i, i < j → 1 ≤ i → bandHi i ≤ bandLo j := by decide

/-- First-byte windows of distinct bands are ordered and disjoint. -/
theorem fb_orderedU : ∀ j, j < 10 → ∀ i, i < j → 1 ≤ i → fbHi i ≤ fbLo j := by decide

end ordUvarint64

/-- C1: `OrdUvarint64` is order-preserving.  For every pair of `uint64`
values `a < b`, the byte string produced by `Encode` (into a buffer of
length `Size()`) for `a` is strictly less than the byte string produced for
`b` under lexicographic byte comparison. -/
theorem ordUvarint64_order_preserving (a b : Nat) (ha : a < 2 ^ 64) (hb : b < 2 ^ 64)
    (hab : a < b) : bytesLt (ordUvarint64.Encode a) (ordUvarint64.Encode b) := by
  obtain ⟨sa, hsa1, hsa9, hloa, hhia, _, hlena, hbytesa, hbeva, fba, ra, hEa, hfba1, hfba2⟩ :=
    ordUvarint64.encode_specU a ha
  obtain ⟨sb, hsb1, hsb9, hlob, hhib, _, hlenb, hbytesb, hbevb, fbb, rb, hEb, hfbb1, hfbb2⟩ :=
    ordUvarint64.encode_specU b hb
  have hsasb : sa ≤ sb := by
    by_contra hc
    push_neg at hc
    have := ordUvarint64.band_orderedU sa (by omega) sb (by omega) (by omega)
    omega
  rcases Nat.eq_or_lt_of_le hsasb with heq | hlt
  · subst heq
    apply bytesLt_of_beVal_lt _ _ (by rw [hlena, hlenb]) hbytesa hbytesb
    rw [hbeva, hbevb]
    omega
  · rw [hEa, hEb]
    have h1 := ordUvarint64.fb_orderedU sb (by omega) sa (by omega) (by omega)
    exact List.Lex.rel (by omega)

/-- Witness for C1 at the concrete pair `(3, 500)`. -/
theorem ordUvarint64_order_preserving_witness :
    (3 : Nat) < 2 ^ 64 ∧ (500 : Nat) < 2 ^ 64 ∧ (3 : Nat) < 500 ∧
      bytesLt (ordUvarint64.Encode 3) (ordUvarint64.Encode 500) :=
  ⟨by norm_num, by norm_num, by norm_num,
    ordUvarint64_order_preserving 3 500 (by norm_num) (by norm_num) (by norm_num)⟩

namespace ordUvarint64

set_option maxRecDepth 4000 in
theorem lz8_band : ∀ s, s < 9 → ∀ b, b < 256 → fbLo s ≤ b → b < fbHi s →
    leadingZeros8 (b ^^^ 255) = s - 1 := by decide

theorem decode_bandU1 (v : Nat) (h2 : v < 2 ^ 7) :
    Decode (Encode v) = .ok v := by
  obtain ⟨hE, _⟩ := encode_frame1 v h2
  rw [hE]
  have hfb : leadingZeros8 (v ^^^ 255) = 0 :=
    lz8_band 1 (by norm_num) v (by omega)
      (by norm_num [fbLo]; try omega) (by norm_num [fbHi]; try omega)
  simp only [Decode, List.length_cons, List.length_nil, List.getD_cons_zero, hfb]
  norm_num
  rw [show (List.range 1) = [0] from rfl]
  rw [show (List.foldl (fun acc i => acc ||| [v][i]?.getD 0) 0 [0]) = 0 ||| v from rfl]
  rw [Nat.zero_or]
  rw [show ((1 <<< 7 - 1 : Nat)) = 2 ^ 7 - 1 from rfl, land_two_pow_sub_one]
  omega

theorem decode_bandU2 (v : Nat) (h1 : 2 ^ 7 ≤ v) (h2 : v < 2 ^ 14) :
    Decode (Encode v) = .ok v := by
  obtain ⟨hE, _⟩ := encode_frame2 v h1 h2
  rw [hE]
  have hfb : leadingZeros8 ((128 + v / 256) ^^^ 255) = 1 :=
    lz8_band 2 (by norm_num) (128 + v / 256) (by omega)
      (by norm_num [fbLo]; try omega) (by norm_num [fbHi]; try omega)
  simp only [Decode, List.length_cons, List.length_nil, List.getD_cons_zero, hfb]
  norm_num
  rw [show (List.range 2) = [0, 1] from rfl]
  rw [show (List.foldl
      (fun acc i => acc ||| [128 + v / 256, v % 256][i]?.getD 0 <<< (16 - i * 8 - 8))
      0 [0, 1]) = ((0 ||| (128 + v / 256) <<< 8) ||| (v % 256) <<< 0) from rfl]
  rw [Nat.shiftLeft_zero]
  rw [orChain2 (128 + v / 256) (v % 256) (by omega)]
  rw [show ((1 <<< 14 - 1 : Nat)) = 2 ^ 14 - 1 from rfl, land_two_pow_sub_one]
  omega

theorem decode_bandU3 (v : Nat) (h1 : 2 ^ 14 ≤ v) (h2 : v < 2 ^ 21) :
    Decode (Encode v) = .ok v := by
  obtain ⟨hE, _⟩ := encode_frame3 v h1 h2
  rw [hE]
  have hfb : leadingZeros8 ((192 + v / 65536) ^^^ 255) = 2 :=
    lz8_band 3 (by norm_num) (192 + v / 65536) (by omega)
      (by norm_num [fbLo]; try omega) (by norm_num [fbHi]; try omega)
  simp only [Decode, List.length_cons, List.length_nil, List.getD_cons_zero, hfb]
  norm_num
  rw [show (List.range 3) = [0, 1, 2] from rfl]
  rw [show (List.foldl
      (fun acc i => acc ||| [192 + v / 65536, v / 256 % 256, v % 256][i]?.getD 0 <<< (24 - i * 8 - 8))
      0 [0, 1, 2]) = (((0 ||| (192 + v / 65536) <<< 16) ||| (v / 256 % 256) <<< 8) ||| (v % 256) <<< 0) from rfl]
  rw [Nat.shiftLeft_zero]
  rw [orChain3 (192 + v / 65536) (v / 256 % 256) (v % 256) (by omega) (by omega)]
  rw [show ((1 <<< 21 - 1 : Nat)) = 2 ^ 21 - 1 from rfl, land_two_pow_sub_one]
  omega

theorem decode_bandU4 (v : Nat) (h1 : 2 ^ 21 ≤ v) (h2 : v < 2 ^ 28) :
    Decode (Encode v) = .ok v := by
  obtain ⟨hE, _⟩ := encode_frame4 v h1 h2
  rw [hE]
  have hfb : leadingZeros8 ((224 + v / 16777216) ^^^ 255) = 3 :=
    lz8_band 4 (by norm_num) (224 + v / 16777216) (by omega)
      (by norm_num [fbLo]; try omega) (by norm_num [fbHi]; try omega)
  simp only [Decode, List.length_cons, List.length_nil, List.getD_cons_zero, hfb]
  norm_num
  rw [show (List.range 4) = [0, 1, 2, 3] from rfl]
  rw [show (List.foldl
      (fun acc i => acc ||| [224 + v / 16777216, v / 65536 % 256, v / 256 % 256, v % 256][i]?.getD 0 <<< (32 - i * 8 - 8))
      0 [0, 1, 2, 3]) = ((((0 ||| (224 + v / 16777216) <<< 24) ||| (v / 65536 % 256) <<< 16) ||| (v / 256 % 256) <<< 8) ||| (v % 256) <<< 0) from rfl]
  rw [Nat.shiftLeft_zero]
  rw [orChain4 (224 + v / 16777216) (v / 65536 % 256) (v / 256 % 256) (v % 256) (by omega) (by omega) (by omega)]
  rw [show ((1 <<< 28 - 1 : Nat)) = 2 ^ 28 - 1 from rfl, land_two_pow_sub_one]
  omega

theorem decode_bandU5 (v : Nat) (h1 : 2 ^ 28 ≤ v) (h2 : v < 2 ^ 35) :
    Decode (Encode v) = .ok v := by
  obtain ⟨hE, _⟩ := encode_frame5 v h1 h2
  rw [hE]
  have hfb : leadingZeros8 ((240 + v / 4294967296) ^^^ 255) = 4 :=
    lz8_band 5 (by norm_num) (240 + v / 4294967296) (by omega)
      (by norm_num [fbLo]; try omega) (by norm_num [fbHi]; try omega)
  simp only [Decode, List.length_cons, List.length_nil, List.getD_cons_zero, hfb]
  norm_num
  rw [show (List.range 5) = [0, 1, 2, 3, 4] from rfl]
  rw [show (List.foldl
      (fun acc i => acc ||| [240 + v / 4294967296, v / 16777216 % 256, v / 65536 % 256, v / 256 % 256, v % 256][i]?.getD 0 <<< (40 - i * 8 - 8))
      0 [0, 1, 2, 3, 4]) = (((((0 ||| (240 + v / 4294967296) <<< 32) ||| (v / 16777216 % 256) <<< 24) ||| (v / 65536 % 256) <<< 16) ||| (v / 256 % 256) <<< 8) ||| (v % 256) <<< 0) from rfl]
  rw [Nat.shiftLeft_zero]
  rw [orChain5 (240 + v / 4294967296) (v / 16777216 % 256) (v / 65536 % 256) (v / 256 % 256) (v % 256) (by omega) (by omega) (by omega) (by omega)]
  rw [show ((1 <<< 35 - 1 : Nat)) = 2 ^ 35 - 1 from rfl, land_two_pow_sub_one]
  omega

theorem decode_bandU6 (v : Nat) (h1 : 2 ^ 35 ≤ v) (h2 : v < 2 ^ 42) :
    Decode (Encode v) = .ok v := by
  obtain ⟨hE, _⟩ := encode_frame6 v h1 h2
  rw [hE]
  have hfb : leadingZeros8 ((248 + v / 1099511627776) ^^^ 255) = 5 :=
    lz8_band 6 (by norm_num) (248 + v / 1099511627776) (by omega)
      (by norm_num [fbLo]; try omega) (by norm_num [fbHi]; try omega)
  simp only [Decode, List.length_cons, List.length_nil, List.getD_cons_zero, hfb]
  norm_num
  rw [show (List.range 6) = [0, 1, 2, 3, 4, 5] from rfl]
  rw [show (List.foldl
      (fun acc i => acc ||| [248 + v / 1099511627776, v / 4294967296 % 256, v / 16777216 % 256, v / 65536 % 256, v / 256 % 256, v % 256][i]?.getD 0 <<< (48 - i * 8 - 8))
      0 [0, 1, 2, 3, 4, 5]) = ((((((0 ||| (248 + v / 1099511627776) <<< 40) ||| (v / 4294967296 % 256) <<< 32) ||| (v / 16777216 % 256) <<< 24) ||| (v / 65536 % 256) <<< 16) ||| (v / 256 % 256) <<< 8) ||| (v % 256) <<< 0) from rfl]
  rw [Nat.shiftLeft_zero]
  rw [orChain6 (248 + v / 1099511627776) (v / 4294967296 % 256) (v / 16777216 % 256) (v / 65536 % 256) (v / 256 % 256) (v % 256) (by omega) (by omega) (by omega) (by omega) (by omega)]
  rw [show ((1 <<< 42 - 1 : Nat)) = 2 ^ 42 - 1 from rfl, land_two_pow_sub_one]
  omega

theorem decode_bandU7 (v : Nat) (h1 : 2 ^ 42 ≤ v) (h2 : v < 2 ^ 49) :
    Decode (Encode v) = .ok v := by
  obtain ⟨hE, _⟩ := encode_frame7 v h1 h2
  rw [hE]
  have hfb : leadingZeros8 ((252 + v / 281474976710656) ^^^ 255) = 6 :=
    lz8_band 7 (by norm_num) (252 + v / 281474976710656) (by omega)
      (by norm_num [fbLo]; try omega) (by norm_num [fbHi]; try omega)
  simp only [Decode, List.length_cons, List.length_nil, List.getD_cons_zero, hfb]
  norm_num
  rw [show (List.range 7) = [0, 1, 2, 3, 4, 5, 6] from rfl]
  rw [show (List.foldl
      (fun acc i => acc ||| [252 + v / 281474976710656, v / 1099511627776 % 256, v / 4294967296 % 256, v / 16777216 % 256, v / 65536 % 256, v / 256 % 256, v % 256][i]?.getD 0 <<< (56 - i * 8 - 8))
      0 [0, 1, 2, 3, 4, 5, 6]) = (((((((0 ||| (252 + v / 281474976710656) <<< 48) ||| (v / 1099511627776 % 256) <<< 40) ||| (v / 4294967296 % 256) <<< 32) ||| (v / 16777216 % 256) <<< 24) ||| (v / 65536 % 256) <<< 16) ||| (v / 256 % 256) <<< 8) ||| (v % 256) <<< 0) from rfl]
  rw [Nat.shiftLeft_zero]
  rw [orChain7 (252 + v / 281474976710656) (v / 1099511627776 % 256) (v / 4294967296 % 256) (v / 16777216 % 256) (v / 65536 % 256) (v / 256 % 256) (v % 256) (by omega) (by omega) (by omega) (by omega) (by omega) (by omega)]
  rw [show ((1 <<< 49 - 1 : Nat)) = 2 ^ 49 - 1 from rfl, land_two_pow_sub_one]
  omega

theorem decode_bandU8 (v : Nat) (h1 : 2 ^ 49 ≤ v) (h2 : v < 2 ^ 56) :
    Decode (Encode v) = .ok v := by
  obtain ⟨hE, _⟩ := encode_frame8 v h1 h2
  rw [hE]
  have hfb : leadingZeros8 ((254 + v / 72057594037927936) ^^^ 255) = 7 :=
    lz8_band 8 (by norm_num) (254 + v / 72057594037927936) (by omega)
      (by norm_num [fbLo]; try omega) (by norm_num [fbHi]; try omega)
  simp only [Decode, List.length_cons, List.length_nil, List.getD_cons_zero, hfb]
  norm_num
  rw [show (List.range 8) = [0, 1, 2, 3, 4, 5, 6, 7] from rfl]
  rw [show (List.foldl
      (fun acc i => acc ||| [254 + v / 72057594037927936, v / 281474976710656 % 256, v / 1099511627776 % 256, v / 4294967296 % 256, v / 16777216 % 256, v / 65536 % 256, v / 256 % 256, v % 256][i]?.getD 0 <<< (64 - i * 8 - 8))
      0 [0, 1, 2, 3, 4, 5, 6, 7]) = ((((((((0 ||| (254 + v / 72057594037927936) <<< 56) ||| (v / 281474976710656 % 256) <<< 48) ||| (v / 1099511627776 % 256) <<< 40) ||| (v / 4294967296 % 256) <<< 32) ||| (v / 16777216 % 256) <<< 24) ||| (v / 65536 % 256) <<< 16) ||| (v / 256 % 256) <<< 8) ||| (v % 256) <<< 0) from rfl]
  rw [Nat.shiftLeft_zero]
  rw [orChain8 (254 + v / 72057594037927936) (v / 281474976710656 % 256) (v / 1099511627776 % 256) (v / 4294967296 % 256) (v / 16777216 % 256) (v / 65536 % 256) (v / 256 % 256) (v % 256) (by omega) (by omega) (by omega) (by omega) (by omega) (by omega) (by omega)]
  rw [show ((1 <<< 56 - 1 : Nat)) = 2 ^ 56 - 1 from rfl, land_two_pow_sub_one]
  omega

theorem decode_bandU9 (v : Nat) (h1 : 2 ^ 56 ≤ v) (h2 : v < 2 ^ 64) :
    Decode (Encode v) = .ok v := by
  obtain ⟨hE, _⟩ := encode_frame9 v h1 h2
  rw [hE]
  have hfb : leadingZeros8 ((255 : Nat) ^^^ 255) = 8 := rfl
  simp only [Decode, List.length_cons, beBytes_length, List.getD_cons_zero, hfb]
  norm_num
  rw [List.take_of_length_le (by simp [beBytes_length])]
  rw [beVal_beBytes]
  omega

/-- Round trip for `ordUvarint64`: decoding an encoding restores the value. -/
theorem decode_encodeU (v : Nat) (hv : v < 2 ^ 64) : Decode (Encode v) = .ok v := by
  have hcase : v < 2 ^ 7 ∨ (2 ^ 7 ≤ v ∧ v < 2 ^ 14) ∨ (2 ^ 14 ≤ v ∧ v < 2 ^ 21) ∨
      (2 ^ 21 ≤ v ∧ v < 2 ^ 28) ∨ (2 ^ 28 ≤ v ∧ v < 2 ^ 35) ∨
      (2 ^ 35 ≤ v ∧ v < 2 ^ 42) ∨ (2 ^ 42 ≤ v ∧ v < 2 ^ 49) ∨
      (2 ^ 49 ≤ v ∧ v < 2 ^ 56) ∨ (2 ^ 56 ≤ v ∧ v < 2 ^ 64) := by omega
  rcases hcase with h | ⟨h1, h2⟩ | ⟨h1, h2⟩ | ⟨h1, h2⟩ | ⟨h1, h2⟩ | ⟨h1, h2⟩ |
    ⟨h1, h2⟩ | ⟨h1, h2⟩ | ⟨h1, h2⟩
  · exact decode_bandU1 v h
  · exact decode_bandU2 v h1 h2
  · exact decode_bandU3 v h1 h2
  · exact decode_bandU4 v h1 h2
  · exact decode_bandU5 v h1 h2
  · exact decode_bandU6 v h1 h2
  · exact decode_bandU7 v h1 h2
  · exact decode_bandU8 v h1 h2
  · exact decode_bandU9 v h1 h2

/-- Encoded length always equals `Size`. -/
theorem encode_lengthU (v : Nat) (hv : v < 2 ^ 64) : (Encode v).length = Size v := by
  obtain ⟨s, _, _, _, _, hS, hlen, _⟩ := encode_specU v hv
  rw [hlen, hS]

end ordUvarint64

namespace ordVarint64

/-- Model of `ordVarint64.Encode` (src/encode.go lines 409-520): a switch
selecting the first matching band by arithmetic comparison on the `int64`
value, writing prefix-tagged big-endian bytes.  `byte(v >> (8*k))` is
`int64Byte v k`; the final (unreachable — the cases cover every `int64`)
fall-through leaves the buffer untouched and is modelled as `[]`. -/
def Encode (v : Int) : List Nat :=
  if v ≤ -(2 ^ 55) + 1 then
    [0x00, int64Byte v 7 &&& 0x7F, int64Byte v 6, int64Byte v 5, int64Byte v 4,
      int64Byte v 3, int64Byte v 2, int64Byte v 1, int64Byte v 0]
  else if -(2 ^ 55) ≤ v ∧ v ≤ -(2 ^ 48) + 1 then
    [0x00, 0x80 ||| int64Byte v 6, int64Byte v 5, int64Byte v 4, int64Byte v 3,
      int64Byte v 2, int64Byte v 1, int64Byte v 0]
  else if -(2 ^ 48) ≤ v ∧ v ≤ -(2 ^ 41) + 1 then
    [0x01, int64Byte v 5, int64Byte v 4, int64Byte v 3, int64Byte v 2,
      int64Byte v 1, int64Byte v 0]
  else if -(2 ^ 41) ≤ v ∧ v ≤ -(2 ^ 34) + 1 then
    [0x02 ||| (int64Byte v 5 &&& 0x01), int64Byte v 4, int64Byte v 3,
      int64Byte v 2, int64Byte v 1, int64Byte v 0]
  else if -(2 ^ 34) ≤ v ∧ v ≤ -(2 ^ 27) + 1 then
    [0x04 ||| (int64Byte v 4 &&& 0x03), int64Byte v 3, int64Byte v 2,
      int64Byte v 1, int64Byte v 0]
  else if -(2 ^ 27) ≤ v ∧ v ≤ -(2 ^ 20) + 1 then
    [0x08 ||| (int64Byte v 3 &&& 0x07), int64Byte v 2, int64Byte v 1, int64Byte v 0]
  else if -(2 ^ 20) ≤ v ∧ v ≤ -(2 ^ 13) + 1 then
    [0x10 ||| (int64Byte v 2 &&& 0x0F), int64Byte v 1, int64Byte v 0]
  else if -(2 ^ 13) ≤ v ∧ v ≤ -(2 ^ 6) + 1 then
    [0x20 ||| (int64Byte v 1 &&& 0x1F), int64Byte v 0]
  else if -(2 ^ 6) ≤ v ∧ v ≤ -1 then
    [0x40 ||| (int64Byte v 0 &&& 0x3F)]
  else if 0 ≤ v ∧ v ≤ 2 ^ 6 - 1 then
    [0x80 ||| int64Byte v 0]
  else if 2 ^ 6 ≤ v ∧ v ≤ 2 ^ 13 - 1 then
    [0xC0 ||| int64Byte v 1, int64Byte v 0]
  else if 2 ^ 13 ≤ v ∧ v ≤ 2 ^ 20 - 1 then
    [0xE0 ||| int64Byte v 2, int64Byte v 1, int64Byte v 0]
  else if 2 ^ 20 ≤ v ∧ v ≤ 2 ^ 27 - 1 then
    [0xF0 ||| int64Byte v 3, int64Byte v 2, int64Byte v 1, int64Byte v 0]
  else if 2 ^ 27 ≤ v ∧ v ≤ 2 ^ 34 - 1 then
    [0xF8 ||| int64Byte v 4, int64Byte v 3, int64Byte v 2, int64Byte v 1,
      int64Byte v 0]
  else if 2 ^ 34 ≤ v ∧ v ≤ 2 ^ 41 - 1 then
    [0xFC ||| int64Byte v 5, int64Byte v 4, int64Byte v 3, int64Byte v 2,
      int64Byte v 1, int64Byte v 0]
  else if 2 ^ 41 ≤ v ∧ v ≤ 2 ^ 48 - 1 then
    [0xFE ||| int64Byte v 6, int64Byte v 5, int64Byte v 4, int64Byte v 3,
      int64Byte v 2, int64Byte v 1, int64Byte v 0]
  else if 2 ^ 48 ≤ v ∧ v ≤ 2 ^ 55 - 1 then
    [0xFF, int64Byte v 6, int64Byte v 5, int64Byte v 4, int64Byte v 3,
      int64Byte v 2, int64Byte v 1, int64Byte v 0]
  else if 2 ^ 55 ≤ v then
    [0xFF, 0x80 ||| int64Byte v 7, int64Byte v 6, int64Byte v 5, int64Byte v 4,
      int64Byte v 3, int64Byte v 2, int64Byte v 1, int64Byte v 0]
  else []

/-- Model of `ordVarint64.Size` (src/encode.go lines 521-559): the same
switch, returning the byte count, with the unreachable fall-through `-1`. -/
def Size (v : Int) : Int :=
  if v ≤ -(2 ^ 55) + 1 then 9
  else if -(2 ^ 55) ≤ v ∧ v ≤ -(2 ^ 48) + 1 then 8
  else if -(2 ^ 48) ≤ v ∧ v ≤ -(2 ^ 41) + 1 then 7
  else if -(2 ^ 41) ≤ v ∧ v ≤ -(2 ^ 34) + 1 then 6
  else if -(2 ^ 34) ≤ v ∧ v ≤ -(2 ^ 27) + 1 then 5
  else if -(2 ^ 27) ≤ v ∧ v ≤ -(2 ^ 20) + 1 then 4
  else if -(2 ^ 20) ≤ v ∧ v ≤ -(2 ^ 13) + 1 then 3
  else if -(2 ^ 13) ≤ v ∧ v ≤ -(2 ^ 6) + 1 then 2
  else if -(2 ^ 6) ≤ v ∧ v ≤ -1 then 1
  else if 0 ≤ v ∧ v ≤ 2 ^ 6 - 1 then 1
  else if 2 ^ 6 ≤ v ∧ v ≤ 2 ^ 13 - 1 then 2
  else if 2 ^ 13 ≤ v ∧ v ≤ 2 ^ 20 - 1 then 3
  else if 2 ^ 20 ≤ v ∧ v ≤ 2 ^ 27 - 1 then 4
  else if 2 ^ 27 ≤ v ∧ v ≤ 2 ^ 34 - 1 then 5
  else if 2 ^ 34 ≤ v ∧ v ≤ 2 ^ 41 - 1 then 6
  else if 2 ^ 41 ≤ v ∧ v ≤ 2 ^ 48 - 1 then 7
  else if 2 ^ 48 ≤ v ∧ v ≤ 2 ^ 55 - 1 then 8
  else if 2 ^ 55 ≤ v then 9
  else -1

/-- Model of `ordVarint64.Decode` (src/encode.go lines 560-742): nested
switches on the first byte (and, for the 8/9-byte bands, the second byte's
top bit), building the `uint64` bit pattern and reinterpreting it as
`int64` via `ofUint64`.  Positive-band cases build the same pattern with
nonnegative `int64` arithmetic; both are the `uint64` value below `2^63`. -/
def Decode (buf : List Nat) : Except GoErr Int :=
  if buf.length < 1 then .error .unexpectedEOF else
  let b0 := buf.getD 0 0
  if b0 &&& 0x80 = 0 then
    if b0 = 0x00 then
      if buf.length < 8 then .error .unexpectedEOF
      else if (buf.getD 1 0) &&& 0x80 = 0 then
        if buf.length < 9 then .error .unexpectedEOF
        else .ok (ofUint64 (0x8000000000000000 |||
          ((buf.getD 1 0) <<< 56) ||| ((buf.getD 2 0) <<< 48) |||
          ((buf.getD 3 0) <<< 40) ||| ((buf.getD 4 0) <<< 32) |||
          ((buf.getD 5 0) <<< 24) ||| ((buf.getD 6 0) <<< 16) |||
          ((buf.getD 7 0) <<< 8) ||| (buf.getD 8 0)))
      else .ok (ofUint64 (0xFF00000000000000 |||
        ((buf.getD 1 0) <<< 48) ||| ((buf.getD 2 0) <<< 40) |||
        ((buf.getD 3 0) <<< 32) ||| ((buf.getD 4 0) <<< 24) |||
        ((buf.getD 5 0) <<< 16) ||| ((buf.getD 6 0) <<< 8) ||| (buf.getD 7 0)))
    else if b0 = 0x01 then
      if buf.length < 7 then .error .unexpectedEOF
      else .ok (ofUint64 (0xFFFF000000000000 |||
        ((buf.getD 1 0) <<< 40) ||| ((buf.getD 2 0) <<< 32) |||
        ((buf.getD 3 0) <<< 24) ||| ((buf.getD 4 0) <<< 16) |||
        ((buf.getD 5 0) <<< 8) ||| (buf.getD 6 0)))
    else if b0 &&& 0xFE = 0x02 then
      if buf.length < 6 then .error .unexpectedEOF
      else .ok (ofUint64 (0xFFFFFE0000000000 ||| ((b0 &&& 0x01) <<< 40) |||
        ((buf.getD 1 0) <<< 32) ||| ((buf.getD 2 0) <<< 24) |||
        ((buf.getD 3 0) <<< 16) ||| ((buf.getD 4 0) <<< 8) ||| (buf.getD 5 0)))
    else if b0 &&& 0xFC = 0x04 then
      if buf.length < 5 then .error .unexpectedEOF
      else .ok (ofUint64 (0xFFFFFFFC00000000 ||| ((b0 &&& 0x03) <<< 32) |||
        ((buf.getD 1 0) <<< 24) ||| ((buf.getD 2 0) <<< 16) |||
        ((buf.getD 3 0) <<< 8) ||| (buf.getD 4 0)))
    else if b0 &&& 0xF8 = 0x08 then
      if buf.length < 4 then .error .unexpectedEOF
      else .ok (ofUint64 (0xFFFFFFFFF8000000 ||| ((b0 &&& 0x07) <<< 24) |||
        ((buf.getD 1 0) <<< 16) ||| ((buf.getD 2 0) <<< 8) ||| (buf.getD 3 0)))
    else if b0 &&& 0xF0 = 0x10 then
      if buf.length < 3 then .error .unexpectedEOF
      else .ok (ofUint64 (0xFFFFFFFFFFF00000 ||| ((b0 &&& 0x0F) <<< 16) |||
        ((buf.getD 1 0) <<< 8) ||| (buf.getD 2 0)))
    else if b0 &&& 0xE0 = 0x20 then
      if buf.length < 2 then .error .unexpectedEOF
      else .ok (ofUint64 (0xFFFFFFFFFFFFE000 ||| ((b0 &&& 0x1F) <<< 8) |||
        (buf.getD 1 0)))
    else if b0 &&& 0xC0 = 0x40 then
      .ok (ofUint64 (0xFFFFFFFFFFFFFFC0 ||| (b0 &&& 0x3F)))
    else .error .invalidVarint
  else if b0 &&& 0x80 = 0x80 then
    if b0 &&& 0xC0 = 0x80 then
      .ok ((b0 &&& 0x3F : Nat) : Int)
    else if b0 &&& 0xE0 = 0xC0 then
      if buf.length < 2 then .error .unexpectedEOF
      else .ok ((((b0 &&& 0x1F) <<< 8) ||| (buf.getD 1 0) : Nat) : Int)
    else if b0 &&& 0xF0 = 0xE0 then
      if buf.length < 3 then .error .unexpectedEOF
      else .ok ((((b0 &&& 0x0F) <<< 16) ||| ((buf.getD 1 0) <<< 8) |||
        (buf.getD 2 0) : Nat) : Int)
    else if b0 &&& 0xF8 = 0xF0 then
      if buf.length < 4 then .error .unexpectedEOF
      else .ok ((((b0 &&& 0x07) <<< 24) ||| ((buf.getD 1 0) <<< 16) |||
        ((buf.getD 2 0) <<< 8) ||| (buf.getD 3 0) : Nat) : Int)
    else if b0 &&& 0xFC = 0xF8 then
      if buf.length < 5 then .error .unexpectedEOF
      else .ok ((((b0 &&& 0x03) <<< 32) ||| ((buf.getD 1 0) <<< 24) |||
        ((buf.getD 2 0) <<< 16) ||| ((buf.getD 3 0) <<< 8) ||| (buf.getD 4 0) : Nat) : Int)
    else if b0 &&& 0xFE = 0xFC then
      if buf.length < 6 then .error .unexpectedEOF
      else .ok ((((b0 &&& 0x01) <<< 40) ||| ((buf.getD 1 0) <<< 32) |||
        ((buf.getD 2 0) <<< 24) ||| ((buf.getD 3 0) <<< 16) |||
        ((buf.getD 4 0) <<< 8) ||| (buf.getD 5 0) : Nat) : Int)
    else if b0 = 0xFE then
      if buf.length < 7 then .error .unexpectedEOF
      else .ok ((((buf.getD 1 0) <<< 40) ||| ((buf.getD 2 0) <<< 32) |||
        ((buf.getD 3 0) <<< 24) ||| ((buf.getD 4 0) <<< 16) |||
        ((buf.getD 5 0) <<< 8) ||| (buf.getD 6 0) : Nat) : Int)
    else if b0 = 0xFF then
      if buf.length < 8 then .error .unexpectedEOF
      else if (buf.getD 1 0) &&& 0x80 = 0 then
        .ok ((((buf.getD 1 0) <<< 48) ||| ((buf.getD 2 0) <<< 40) |||
          ((buf.getD 3 0) <<< 32) ||| ((buf.getD 4 0) <<< 24) |||
          ((buf.getD 5 0) <<< 16) ||| ((buf.getD 6 0) <<< 8) ||| (buf.getD 7 0) : Nat) : Int)
      else
        if buf.length < 9 then .error .unexpectedEOF
        else .ok (((((buf.getD 1 0) &&& 0x7F) <<< 56) ||| ((buf.getD 2 0) <<< 48) |||
          ((buf.getD 3 0) <<< 40) ||| ((buf.getD 4 0) <<< 32) |||
          ((buf.getD 5 0) <<< 24) ||| ((buf.getD 6 0) <<< 16) |||
          ((buf.getD 7 0) <<< 8) ||| (buf.getD 8 0) : Nat) : Int)
    else .error .invalidVarint
  else .error .invalidVarint

end ordVarint64

set_option maxRecDepth 8000
set_option maxHeartbeats 1000000

namespace ordVarint64

/-- Byte-level helper: or-ing `0x80` into a byte that already has its top
bit set is the identity. -/
theorem byte_lor128 : ∀ x, x < 256 → 128 ≤ x → 128 ||| x = x := by decide

/-! Band-by-band closed forms of `Encode` and `Size` for `ordVarint64`,
with the bands exactly as the source's switch selects them (note the
negative band boundaries sit at `-(2^k)+1`, so e.g. `-64` and `-63` take
two bytes). -/

theorem frame1 (v : Int) (h1 : (-9223372036854775808) ≤ v) (h2 : v ≤ (-36028797018963967)) :
    Encode v = [0, toUint64 v / 72057594037927936 % 128, toUint64 v / 281474976710656 % 256, toUint64 v / 1099511627776 % 256, toUint64 v / 4294967296 % 256, toUint64 v / 16777216 % 256, toUint64 v / 65536 % 256, toUint64 v / 256 % 256, toUint64 v % 256] ∧ Size v = 9 := by
  have hN : ((toUint64 v : Nat) : Int) = v + 18446744073709551616 := by
    rw [toUint64, show v % (2 ^ 64 : Int) = v + 18446744073709551616 by omega,
      Int.toNat_of_nonneg (by omega)]
  have hlo : 9223372036854775808 ≤ toUint64 v := by omega
  have hhi : toUint64 v ≤ 18410715276690587649 := by omega
  refine ⟨?_, by rw [Size, if_pos (by omega)]⟩
  rw [Encode, if_pos (by omega)]
  simp only [int64Byte]
  norm_num
  rw [show (127 : Nat) = 2 ^ 7 - 1 from rfl, land_two_pow_sub_one]
  rw [show toUint64 v / 72057594037927936 % 256 % 2 ^ 7 = toUint64 v / 72057594037927936 % 128 by omega]

theorem frame2 (v : Int) (h1 : (-36028797018963966) ≤ v) (h2 : v ≤ (-281474976710655)) :
    Encode v = [0, toUint64 v / 281474976710656 % 256, toUint64 v / 1099511627776 % 256, toUint64 v / 4294967296 % 256, toUint64 v / 16777216 % 256, toUint64 v / 65536 % 256, toUint64 v / 256 % 256, toUint64 v % 256] ∧ Size v = 8 := by
  have hN : ((toUint64 v : Nat) : Int) = v + 18446744073709551616 := by
    rw [toUint64, show v % (2 ^ 64 : Int) = v + 18446744073709551616 by omega,
      Int.toNat_of_nonneg (by omega)]
  have hlo : 18410715276690587650 ≤ toUint64 v := by omega
  have hhi : toUint64 v ≤ 18446462598732840961 := by omega
  refine ⟨?_, by (rw [Size]; (repeat rw [if_neg (by omega)]); rw [if_pos (by omega)])⟩
  (rw [Encode]; (repeat rw [if_neg (by omega)]); rw [if_pos (by omega)])
  simp only [int64Byte]
  norm_num
  rw [byte_lor128 _ (by omega) (by omega)]

theorem frame3 (v : Int) (h1 : (-281474976710654) ≤ v) (h2 : v ≤ (-2199023255551)) :
    Encode v = [1, toUint64 v / 1099511627776 % 256, toUint64 v / 4294967296 % 256, toUint64 v / 16777216 % 256, toUint64 v / 65536 % 256, toUint64 v / 256 % 256, toUint64 v % 256] ∧ Size v = 7 := by
  have hN : ((toUint64 v : Nat) : Int) = v + 18446744073709551616 := by
    rw [toUint64, show v % (2 ^ 64 : Int) = v + 18446744073709551616 by omega,
      Int.toNat_of_nonneg (by omega)]
  have hlo : 18446462598732840962 ≤ toUint64 v := by omega
  have hhi : toUint64 v ≤ 18446741874686296065 := by omega
  refine ⟨?_, by (rw [Size]; (repeat rw [if_neg (by omega)]); rw [if_pos (by omega)])⟩
  (rw [Encode]; (repeat rw [if_neg (by omega)]); rw [if_pos (by omega)])
  simp only [int64Byte]
  norm_num

theorem frame4 (v : Int) (h1 : (-2199023255550) ≤ v) (h2 : v ≤ (-17179869183)) :
    Encode v = [2 + toUint64 v / 1099511627776 % 2, toUint64 v / 4294967296 % 256, toUint64 v / 16777216 % 256, toUint64 v / 65536 % 256, toUint64 v / 256 % 256, toUint64 v % 256] ∧ Size v = 6 := by
  have hN : ((toUint64 v : Nat) : Int) = v + 18446744073709551616 := by
    rw [toUint64, show v % (2 ^ 64 : Int) = v + 18446744073709551616 by omega,
      Int.toNat_of_nonneg (by omega)]
  have hlo : 18446741874686296066 ≤ toUint64 v := by omega
  have hhi : toUint64 v ≤ 18446744056529682433 := by omega
  refine ⟨?_, by (rw [Size]; (repeat rw [if_neg (by omega)]); rw [if_pos (by omega)])⟩
  (rw [Encode]; (repeat rw [if_neg (by omega)]); rw [if_pos (by omega)])
  simp only [int64Byte]
  norm_num
  rw [lor_eq_add 2 (toUint64 v / 1099511627776 % 2) 1 (by norm_num) (by omega)]

theorem frame5 (v : Int) (h1 : (-17179869182) ≤ v) (h2 : v ≤ (-134217727)) :
    Encode v = [4 + toUint64 v / 4294967296 % 4, toUint64 v / 16777216 % 256, toUint64 v / 65536 % 256, toUint64 v / 256 % 256, toUint64 v % 256] ∧ Size v = 5 := by
  have hN : ((toUint64 v : Nat) : Int) = v + 18446744073709551616 := by
    rw [toUint64, show v % (2 ^ 64 : Int) = v + 18446744073709551616 by omega,
      Int.toNat_of_nonneg (by omega)]
  have hlo : 18446744056529682434 ≤ toUint64 v := by omega
  have hhi : toUint64 v ≤ 18446744073575333889 := by omega
  refine ⟨?_, by (rw [Size]; (repeat rw [if_neg (by omega)]); rw [if_pos (by omega)])⟩
  (rw [Encode]; (repeat rw [if_neg (by omega)]); rw [if_pos (by omega)])
  simp only [int64Byte]
  norm_num
  rw [show (3 : Nat) = 2 ^ 2 - 1 from rfl, land_two_pow_sub_one]
  rw [show toUint64 v / 4294967296 % 256 % 2 ^ 2 = toUint64 v / 4294967296 % 4 by omega]
  rw [lor_eq_add 4 (toUint64 v / 4294967296 % 4) 2 (by norm_num) (by omega)]

theorem frame6 (v : Int) (h1 : (-134217726) ≤ v) (h2 : v ≤ (-1048575)) :
    Encode v = [8 + toUint64 v / 16777216 % 8, toUint64 v / 65536 % 256, toUint64 v / 256 % 256, toUint64 v % 256] ∧ Size v = 4 := by
  have hN : ((toUint64 v : Nat) : Int) = v + 18446744073709551616 := by
    rw [toUint64, show v % (2 ^ 64 : Int) = v + 18446744073709551616 by omega,
      Int.toNat_of_nonneg (by omega)]
  have hlo : 18446744073575333890 ≤ toUint64 v := by omega
  have hhi : toUint64 v ≤ 18446744073708503041 := by omega
  refine ⟨?_, by (rw [Size]; (repeat rw [if_neg (by omega)]); rw [if_pos (by omega)])⟩
  (rw [Encode]; (repeat rw [if_neg (by omega)]); rw [if_pos (by omega)])
  simp only [int64Byte]
  norm_num
  rw [show (7 : Nat) = 2 ^ 3 - 1 from rfl, land_two_pow_sub_one]
  rw [show toUint64 v / 16777216 % 256 % 2 ^ 3 = toUint64 v / 16777216 % 8 by omega]
  rw [lor_eq_add 8 (toUint64 v / 16777216 % 8) 3 (by norm_num) (by omega)]

theorem frame7 (v : Int) (h1 : (-1048574) ≤ v) (h2 : v ≤ (-8191)) :
    Encode v = [16 + toUint64 v / 65536 % 16, toUint64 v / 256 % 256, toUint64 v % 256] ∧ Size v = 3 := by
  have hN : ((toUint64 v : Nat) : Int) = v + 18446744073709551616 := by
    rw [toUint64, show v % (2 ^ 64 : Int) = v + 18446744073709551616 by omega,
      Int.toNat_of_nonneg (by omega)]
  have hlo : 18446744073708503042 ≤ toUint64 v := by omega
  have hhi : toUint64 v ≤ 18446744073709543425 := by omega
  refine ⟨?_, by (rw [Size]; (repeat rw [if_neg (by omega)]); rw [if_pos (by omega)])⟩
  (rw [Encode]; (repeat rw [if_neg (by omega)]); rw [if_pos (by omega)])
  simp only [int64Byte]
  norm_num
  rw [show (15 : Nat) = 2 ^ 4 - 1 from rfl, land_two_pow_sub_one]
  rw [show toUint64 v / 65536 % 256 % 2 ^ 4 = toUint64 v / 65536 % 16 by omega]
  rw [lor_eq_add 16 (toUint64 v / 65536 % 16) 4 (by norm_num) (by omega)]

theorem frame8 (v : Int) (h1 : (-8190) ≤ v) (h2 : v ≤ (-63)) :
    Encode v = [32 + toUint64 v / 256 % 32, toUint64 v % 256] ∧ Size v = 2 := by
  have hN : ((toUint64 v : Nat) : Int) = v + 18446744073709551616 := by
    rw [toUint64, show v % (2 ^ 64 : Int) = v + 18446744073709551616 by omega,
      Int.toNat_of_nonneg (by omega)]
  have hlo : 18446744073709543426 ≤ toUint64 v := by omega
  have hhi : toUint64 v ≤ 18446744073709551553 := by omega
  refine ⟨?_, by (rw [Size]; (repeat rw [if_neg (by omega)]); rw [if_pos (by omega)])⟩
  (rw [Encode]; (repeat rw [if_neg (by omega)]); rw [if_pos (by omega)])
  simp only [int64Byte]
  norm_num
  rw [show (31 : Nat) = 2 ^ 5 - 1 from rfl, land_two_pow_sub_one]
  rw [show toUint64 v / 256 % 256 % 2 ^ 5 = toUint64 v / 256 % 32 by omega]
  rw [lor_eq_add 32 (toUint64 v / 256 % 32) 5 (by norm_num) (by omega)]

theorem frame9 (v : Int) (h1 : (-62) ≤ v) (h2 : v ≤ (-1)) :
    Encode v = [64 + toUint64 v % 64] ∧ Size v = 1 := by
  have hN : ((toUint64 v : Nat) : Int) = v + 18446744073709551616 := by
    rw [toUint64, show v % (2 ^ 64 : Int) = v + 18446744073709551616 by omega,
      Int.toNat_of_nonneg (by omega)]
  have hlo : 18446744073709551554 ≤ toUint64 v := by omega
  have hhi : toUint64 v ≤ 18446744073709551615 := by omega
  refine ⟨?_, by (rw [Size]; (repeat rw [if_neg (by omega)]); rw [if_pos (by omega)])⟩
  (rw [Encode]; (repeat rw [if_neg (by omega)]); rw [if_pos (by omega)])
  simp only [int64Byte]
  norm_num
  rw [show (63 : Nat) = 2 ^ 6 - 1 from rfl, land_two_pow_sub_one]
  rw [show toUint64 v % 256 % 2 ^ 6 = toUint64 v % 64 by omega]
  rw [lor_eq_add 64 (toUint64 v % 64) 6 (by norm_num) (by omega)]

theorem frame10 (v : Int) (h1 : 0 ≤ v) (h2 : v ≤ 63) :
    Encode v = [128 + toUint64 v] ∧ Size v = 1 := by
  have hN : ((toUint64 v : Nat) : Int) = v := by
    rw [toUint64, show v % (2 ^ 64 : Int) = v by omega,
      Int.toNat_of_nonneg (by omega)]
  have hlo : 0 ≤ toUint64 v := by omega
  have hhi : toUint64 v ≤ 63 := by omega
  refine ⟨?_, by (rw [Size]; (repeat rw [if_neg (by omega)]); rw [if_pos (by omega)])⟩
  (rw [Encode]; (repeat rw [if_neg (by omega)]); rw [if_pos (by omega)])
  simp only [int64Byte]
  norm_num
  rw [show toUint64 v % 256 = toUint64 v by omega]
  rw [lor_eq_add 128 (toUint64 v) 7 (by norm_num) (by omega)]

theorem frame11 (v : Int) (h1 : 64 ≤ v) (h2 : v ≤ 8191) :
    Encode v = [192 + toUint64 v / 256, toUint64 v % 256] ∧ Size v = 2 := by
  have hN : ((toUint64 v : Nat) : Int) = v := by
    rw [toUint64, show v % (2 ^ 64 : Int) = v by omega,
      Int.toNat_of_nonneg (by omega)]
  have hlo : 64 ≤ toUint64 v := by omega
  have hhi : toUint64 v ≤ 8191 := by omega
  refine ⟨?_, by (rw [Size]; (repeat rw [if_neg (by omega)]); rw [if_pos (by omega)])⟩
  (rw [Encode]; (repeat rw [if_neg (by omega)]); rw [if_pos (by omega)])
  simp only [int64Byte]
  norm_num
  rw [show toUint64 v / 256 % 256 = toUint64 v / 256 by omega]
  rw [lor_eq_add 192 (toUint64 v / 256) 6 (by norm_num) (by omega)]

theorem frame12 (v : Int) (h1 : 8192 ≤ v) (h2 : v ≤ 1048575) :
    Encode v = [224 + toUint64 v / 65536, toUint64 v / 256 % 256, toUint64 v % 256] ∧ Size v = 3 := by
  have hN : ((toUint64 v : Nat) : Int) = v := by
    rw [toUint64, show v % (2 ^ 64 : Int) = v by omega,
      Int.toNat_of_nonneg (by omega)]
  have hlo : 8192 ≤ toUint64 v := by omega
  have hhi : toUint64 v ≤ 1048575 := by omega
  refine ⟨?_, by (rw [Size]; (repeat rw [if_neg (by omega)]); rw [if_pos (by omega)])⟩
  (rw [Encode]; (repeat rw [if_neg (by omega)]); rw [if_pos (by omega)])
  simp only [int64Byte]
  norm_num
  rw [show toUint64 v / 65536 % 256 = toUint64 v / 65536 by omega]
  rw [lor_eq_add 224 (toUint64 v / 65536) 5 (by norm_num) (by omega)]

theorem frame13 (v : Int) (h1 : 1048576 ≤ v) (h2 : v ≤ 134217727) :
    Encode v = [240 + toUint64 v / 16777216, toUint64 v / 65536 % 256, toUint64 v / 256 % 256, toUint64 v % 256] ∧ Size v = 4 := by
  have hN : ((toUint64 v : Nat) : Int) = v := by
    rw [toUint64, show v % (2 ^ 64 : Int) = v by omega,
      Int.toNat_of_nonneg (by omega)]
  have hlo : 1048576 ≤ toUint64 v := by omega
  have hhi : toUint64 v ≤ 134217727 := by omega
  refine ⟨?_, by (rw [Size]; (repeat rw [if_neg (by omega)]); rw [if_pos (by omega)])⟩
  (rw [Encode]; (repeat rw [if_neg (by omega)]); rw [if_pos (by omega)])
  simp only [int64Byte]
  norm_num
  rw [show toUint64 v / 16777216 % 256 = toUint64 v / 16777216 by omega]
  rw [lor_eq_add 240 (toUint64 v / 16777216) 4 (by norm_num) (by omega)]

theorem frame14 (v : Int) (h1 : 134217728 ≤ v) (h2 : v ≤ 17179869183) :
    Encode v = [248 + toUint64 v / 4294967296, toUint64 v / 16777216 % 256, toUint64 v / 65536 % 256, toUint64 v / 256 % 256, toUint64 v % 256] ∧ Size v = 5 := by
  have hN : ((toUint64 v : Nat) : Int) = v := by
    rw [toUint64, show v % (2 ^ 64 : Int) = v by omega,
      Int.toNat_of_nonneg (by omega)]
  have hlo : 134217728 ≤ toUint64 v := by omega
  have hhi : toUint64 v ≤ 17179869183 := by omega
  refine ⟨?_, by (rw [Size]; (repeat rw [if_neg (by omega)]); rw [if_pos (by omega)])⟩
  (rw [Encode]; (repeat rw [if_neg (by omega)]); rw [if_pos (by omega)])
  simp only [int64Byte]
  norm_num
  rw [show toUint64 v / 4294967296 % 256 = toUint64 v / 4294967296 by omega]
  rw [lor_eq_add 248 (toUint64 v / 4294967296) 3 (by norm_num) (by omega)]

theorem frame15 (v : Int) (h1 : 17179869184 ≤ v) (h2 : v ≤ 2199023255551) :
    Encode v = [252 + toUint64 v / 1099511627776, toUint64 v / 4294967296 % 256, toUint64 v / 16777216 % 256, toUint64 v / 65536 % 256, toUint64 v / 256 % 256, toUint64 v % 256] ∧ Size v = 6 := by
  have hN : ((toUint64 v : Nat) : Int) = v := by
    rw [toUint64, show v % (2 ^ 64 : Int) = v by omega,
      Int.toNat_of_nonneg (by omega)]
  have hlo : 17179869184 ≤ toUint64 v := by omega
  have hhi : toUint64 v ≤ 2199023255551 := by omega
  refine ⟨?_, by (rw [Size]; (repeat rw [if_neg (by omega)]); rw [if_pos (by omega)])⟩
  (rw [Encode]; (repeat rw [if_neg (by omega)]); rw [if_pos (by omega)])
  simp only [int64Byte]
  norm_num
  rw [show toUint64 v / 1099511627776 % 256 = toUint64 v / 1099511627776 by omega]
  rw [lor_eq_add 252 (toUint64 v / 1099511627776) 2 (by norm_num) (by omega)]

theorem frame16 (v : Int) (h1 : 2199023255552 ≤ v) (h2 : v ≤ 281474976710655) :
    Encode v = [254 + toUint64 v / 281474976710656, toUint64 v / 1099511627776 % 256, toUint64 v / 4294967296 % 256, toUint64 v / 16777216 % 256, toUint64 v / 65536 % 256, toUint64 v / 256 % 256, toUint64 v % 256] ∧ Size v = 7 := by
  have hN : ((toUint64 v : Nat) : Int) = v := by
    rw [toUint64, show v % (2 ^ 64 : Int) = v by omega,
      Int.toNat_of_nonneg (by omega)]
  have hlo : 2199023255552 ≤ toUint64 v := by omega
  have hhi : toUint64 v ≤ 281474976710655 := by omega
  refine ⟨?_, by (rw [Size]; (repeat rw [if_neg (by omega)]); rw [if_pos (by omega)])⟩
  (rw [Encode]; (repeat rw [if_neg (by omega)]); rw [if_pos (by omega)])
  simp only [int64Byte]
  norm_num
  rw [show toUint64 v / 281474976710656 % 256 = toUint64 v / 281474976710656 by omega]
  rw [lor_eq_add 254 (toUint64 v / 281474976710656) 1 (by norm_num) (by omega)]

theorem frame17 (v : Int) (h1 : 281474976710656 ≤ v) (h2 : v ≤ 36028797018963967) :
    Encode v = [255, toUint64 v / 281474976710656 % 256, toUint64 v / 1099511627776 % 256, toUint64 v / 4294967296 % 256, toUint64 v / 16777216 % 256, toUint64 v / 65536 % 256, toUint64 v / 256 % 256, toUint64 v % 256] ∧ Size v = 8 := by
  have hN : ((toUint64 v : Nat) : Int) = v := by
    rw [toUint64, show v % (2 ^ 64 : Int) = v by omega,
      Int.toNat_of_nonneg (by omega)]
  have hlo : 281474976710656 ≤ toUint64 v := by omega
  have hhi : toUint64 v ≤ 36028797018963967 := by omega
  refine ⟨?_, by (rw [Size]; (repeat rw [if_neg (by omega)]); rw [if_pos (by omega)])⟩
  (rw [Encode]; (repeat rw [if_neg (by omega)]); rw [if_pos (by omega)])
  simp only [int64Byte]
  norm_num

theorem frame18 (v : Int) (h1 : 36028797018963968 ≤ v) (h2 : v ≤ 9223372036854775807) :
    Encode v = [255, 128 + toUint64 v / 72057594037927936, toUint64 v / 281474976710656 % 256, toUint64 v / 1099511627776 % 256, toUint64 v / 4294967296 % 256, toUint64 v / 16777216 % 256, toUint64 v / 65536 % 256, toUint64 v / 256 % 256, toUint64 v % 256] ∧ Size v = 9 := by
  have hN : ((toUint64 v : Nat) : Int) = v := by
    rw [toUint64, show v % (2 ^ 64 : Int) = v by omega,
      Int.toNat_of_nonneg (by omega)]
  have hlo : 36028797018963968 ≤ toUint64 v := by omega
  have hhi : toUint64 v ≤ 9223372036854775807 := by omega
  refine ⟨?_, by (rw [Size]; (repeat rw [if_neg (by omega)]); rw [if_pos (by omega)])⟩
  (rw [Encode]; (repeat rw [if_neg (by omega)]); rw [if_pos (by omega)])
  simp only [int64Byte]
  norm_num
  rw [show toUint64 v / 72057594037927936 % 256 = toUint64 v / 72057594037927936 by omega]
  rw [lor_eq_add 128 (toUint64 v / 72057594037927936) 7 (by norm_num) (by omega)]

end ordVarint64

namespace ordVarint64

/-- Lower end (inclusive) of band `s` of `ordVarint64`, with bands numbered
1-18 in increasing value order exactly as the source's switch carves them
(first match wins, so e.g. band 8 starts at `-(2^13)+2`). -/
def bandLo : Nat → Int
  | 1 => -(2 ^ 63)
  | 2 => -(2 ^ 55) + 2
  | 3 => -(2 ^ 48) + 2
  | 4 => -(2 ^ 41) + 2
  | 5 => -(2 ^ 34) + 2
  | 6 => -(2 ^ 27) + 2
  | 7 => -(2 ^ 20) + 2
  | 8 => -(2 ^ 13) + 2
  | 9 => -(2 ^ 6) + 2
  | 10 => 0
  | 11 => 2 ^ 6
  | 12 => 2 ^ 13
  | 13 => 2 ^ 20
  | 14 => 2 ^ 27
  | 15 => 2 ^ 34
  | 16 => 2 ^ 41
  | 17 => 2 ^ 48
  | 18 => 2 ^ 55
  | _ => 0

/-- Upper end (exclusive) of band `s` of `ordVarint64`. -/
def bandHi (s : Nat) : Int := if s = 18 then 2 ^ 63 else bandLo (s + 1)

/-- Encoded length of band `s`. -/
def bandLen : Nat → Nat
  | 1 => 9 | 2 => 8 | 3 => 7 | 4 => 6 | 5 => 5 | 6 => 4 | 7 => 3 | 8 => 2
  | 9 => 1 | 10 => 1 | 11 => 2 | 12 => 3 | 13 => 4 | 14 => 5 | 15 => 6
  | 16 => 7 | 17 => 8 | 18 => 9 | _ => 0

/-- Smallest possible first byte of a band-`s` encoding. -/
def fbLo : Nat → Nat
  | 1 => 0 | 2 => 0 | 3 => 1 | 4 => 2 | 5 => 4 | 6 => 8 | 7 => 16 | 8 => 32
  | 9 => 64 | 10 => 128 | 11 => 192 | 12 => 224 | 13 => 240 | 14 => 248
  | 15 => 252 | 16 => 254 | 17 => 255 | 18 => 255 | _ => 0

/-- One past the largest possible first byte of a band-`s` encoding. -/
def fbHi : Nat → Nat
  | 1 => 1 | 2 => 1 | 3 => 2 | 4 => 4 | 5 => 8 | 6 => 16 | 7 => 32 | 8 => 64
  | 9 => 128 | 10 => 192 | 11 => 224 | 12 => 240 | 13 => 248 | 14 => 252
  | 15 => 254 | 16 => 255 | 17 => 256 | 18 => 256 | _ => 0

/-- Constant such that `beVal (Encode v) = v + bandC s` on band `s`. -/
def bandC : Nat → Int
  | 1 => 2 ^ 63 | 2 => 2 ^ 56 | 3 => 2 ^ 49 | 4 => 2 ^ 42 | 5 => 2 ^ 35
  | 6 => 2 ^ 28 | 7 => 2 ^ 21 | 8 => 2 ^ 14 | 9 => 2 ^ 7 | 10 => 2 ^ 7
  | 11 => 192 * 2 ^ 8 | 12 => 224 * 2 ^ 16 | 13 => 240 * 2 ^ 24
  | 14 => 248 * 2 ^ 32 | 15 => 252 * 2 ^ 40 | 16 => 254 * 2 ^ 48
  | 17 => 255 * 2 ^ 56 | 18 => 255 * 2 ^ 64 + 2 ^ 63 | _ => 0

end ordVarint64
namespace ordVarint64

theorem toUint64_int_neg (v : Int) (h1 : -(2 ^ 63) ≤ v) (h2 : v < 0) :
    ((toUint64 v : Nat) : Int) = v + 2 ^ 64 := by
  rw [toUint64, show v % (2 ^ 64 : Int) = v + 2 ^ 64 by omega,
    Int.toNat_of_nonneg (by omega)]

theorem toUint64_int_nonneg (v : Int) (h1 : 0 ≤ v) (h2 : v < 2 ^ 63) :
    ((toUint64 v : Nat) : Int) = v := by
  rw [toUint64, show v % (2 ^ 64 : Int) = v by omega,
    Int.toNat_of_nonneg (by omega)]

/-- Every `int64` value lies in exactly one of the 18 bands the switch
carves; on that band `Size` agrees with the band length, the encoding has
that length, its bytes are bytes, its big-endian value is the value plus the
band constant, its first byte lies in the band window, and in the four bands
sharing a first byte (`0x00` for the two most negative, `0xFF` for the two
most positive) the second byte's top bit separates them. -/
theorem encode_spec (v : Int) (hv1 : -(2 ^ 63) ≤ v) (hv2 : v < 2 ^ 63) :
    ∃ s, 1 ≤ s ∧ s ≤ 18 ∧ bandLo s ≤ v ∧ v < bandHi s ∧
      Size v = (bandLen s : Int) ∧ (Encode v).length = bandLen s ∧
      (∀ x ∈ Encode v, x < 256) ∧
      ((beVal (Encode v) : Nat) : Int) = v + bandC s ∧
      (∃ fb rest, Encode v = fb :: rest ∧ fbLo s ≤ fb ∧ fb < fbHi s) ∧
      ((s = 1 ∨ s = 17) → ∃ fb sb r, Encode v = fb :: sb :: r ∧ sb < 128) ∧
      ((s = 2 ∨ s = 18) → ∃ fb sb r, Encode v = fb :: sb :: r ∧ 128 ≤ sb) := by
  have hcase : ((-9223372036854775808 : Int) ≤ v ∧ v ≤ -36028797018963967) ∨
      ((-36028797018963966 : Int) ≤ v ∧ v ≤ -281474976710655) ∨
      ((-281474976710654 : Int) ≤ v ∧ v ≤ -2199023255551) ∨
      ((-2199023255550 : Int) ≤ v ∧ v ≤ -17179869183) ∨
      ((-17179869182 : Int) ≤ v ∧ v ≤ -134217727) ∨
      ((-134217726 : Int) ≤ v ∧ v ≤ -1048575) ∨
      ((-1048574 : Int) ≤ v ∧ v ≤ -8191) ∨
      ((-8190 : Int) ≤ v ∧ v ≤ -63) ∨
      ((-62 : Int) ≤ v ∧ v ≤ -1) ∨
      ((0 : Int) ≤ v ∧ v ≤ 63) ∨
      ((64 : Int) ≤ v ∧ v ≤ 8191) ∨
      ((8192 : Int) ≤ v ∧ v ≤ 1048575) ∨
      ((1048576 : Int) ≤ v ∧ v ≤ 134217727) ∨
      ((134217728 : Int) ≤ v ∧ v ≤ 17179869183) ∨
      ((17179869184 : Int) ≤ v ∧ v ≤ 2199023255551) ∨
      ((2199023255552 : Int) ≤ v ∧ v ≤ 281474976710655) ∨
      ((281474976710656 : Int) ≤ v ∧ v ≤ 36028797018963967) ∨
      ((36028797018963968 : Int) ≤ v ∧ v ≤ 9223372036854775807) := by omega
  rcases hcase with ⟨h1, h2⟩ | ⟨h1, h2⟩ | ⟨h1, h2⟩ | ⟨h1, h2⟩ | ⟨h1, h2⟩ | ⟨h1, h2⟩ | ⟨h1, h2⟩ | ⟨h1, h2⟩ | ⟨h1, h2⟩ | ⟨h1, h2⟩ | ⟨h1, h2⟩ | ⟨h1, h2⟩ | ⟨h1, h2⟩ | ⟨h1, h2⟩ | ⟨h1, h2⟩ | ⟨h1, h2⟩ | ⟨h1, h2⟩ | ⟨h1, h2⟩
  · obtain ⟨hE, hS⟩ := frame1 v (by omega) (by omega)
    have hN : ((toUint64 v : Nat) : Int) = v + 2 ^ 64 := toUint64_int_neg v (by omega) (by omega)
    have hlo : 9223372036854775808 ≤ toUint64 v := by omega
    have hhi : toUint64 v ≤ 18410715276690587649 := by omega
    refine ⟨1, by norm_num, by norm_num, by norm_num [bandLo]; try omega,
      by norm_num [bandHi, bandLo]; try omega,
      by rw [hS]; norm_num [bandLen], by rw [hE]; norm_num [bandLen],
      ?_, ?_, ?_, ?_, ?_⟩
    · intro x hx
      rw [hE] at hx
      simp only [List.mem_cons, List.not_mem_nil, or_false] at hx
      rcases hx with h | h | h | h | h | h | h | h | h <;> omega
    · rw [hE]
      simp only [beVal_cons, ordUvarint64.beVal_nil, List.length_cons, List.length_nil]
      push_cast
      norm_num [bandC]
      try omega
    · exact ⟨_, _, hE, by norm_num [fbLo]; try omega, by norm_num [fbHi]; try omega⟩
    · intro _
      exact ⟨_, _, _, hE, by omega⟩
    · intro hss
      rcases hss with hss | hss <;> omega
  · obtain ⟨hE, hS⟩ := frame2 v (by omega) (by omega)
    have hN : ((toUint64 v : Nat) : Int) = v + 2 ^ 64 := toUint64_int_neg v (by omega) (by omega)
    have hlo : 18410715276690587650 ≤ toUint64 v := by omega
    have hhi : toUint64 v ≤ 18446462598732840961 := by omega
    refine ⟨2, by norm_num, by norm_num, by norm_num [bandLo]; try omega,
      by norm_num [bandHi, bandLo]; try omega,
      by rw [hS]; norm_num [bandLen], by rw [hE]; norm_num [bandLen],
      ?_, ?_, ?_, ?_, ?_⟩
    · intro x hx
      rw [hE] at hx
      simp only [List.mem_cons, List.not_mem_nil, or_false] at hx
      rcases hx with h | h | h | h | h | h | h | h <;> omega
    · rw [hE]
      simp only [beVal_cons, ordUvarint64.beVal_nil, List.length_cons, List.length_nil]
      push_cast
      norm_num [bandC]
      try omega
    · exact ⟨_, _, hE, by norm_num [fbLo]; try omega, by norm_num [fbHi]; try omega⟩
    · intro hss
      rcases hss with hss | hss <;> omega
    · intro _
      exact ⟨_, _, _, hE, by omega⟩
  · obtain ⟨hE, hS⟩ := frame3 v (by omega) (by omega)
    have hN : ((toUint64 v : Nat) : Int) = v + 2 ^ 64 := toUint64_int_neg v (by omega) (by omega)
    have hlo : 18446462598732840962 ≤ toUint64 v := by omega
    have hhi : toUint64 v ≤ 18446741874686296065 := by omega
    refine ⟨3, by norm_num, by norm_num, by norm_num [bandLo]; try omega,
      by norm_num [bandHi, bandLo]; try omega,
      by rw [hS]; norm_num [bandLen], by rw [hE]; norm_num [bandLen],
      ?_, ?_, ?_, ?_, ?_⟩
    · intro x hx
      rw [hE] at hx
      simp only [List.mem_cons, List.not_mem_nil, or_false] at hx
      rcases hx with h | h | h | h | h | h | h <;> omega
    · rw [hE]
      simp only [beVal_cons, ordUvarint64.beVal_nil, List.length_cons, List.length_nil]
      push_cast
      norm_num [bandC]
      try omega
    · exact ⟨_, _, hE, by norm_num [fbLo]; try omega, by norm_num [fbHi]; try omega⟩
    · intro hss
      rcases hss with hss | hss <;> omega
    · intro hss
      rcases hss with hss | hss <;> omega
  · obtain ⟨hE, hS⟩ := frame4 v (by omega) (by omega)
    have hN : ((toUint64 v : Nat) : Int) = v + 2 ^ 64 := toUint64_int_neg v (by omega) (by omega)
    have hlo : 18446741874686296066 ≤ toUint64 v := by omega
    have hhi : toUint64 v ≤ 18446744056529682433 := by omega
    refine ⟨4, by norm_num, by norm_num, by norm_num [bandLo]; try omega,
      by norm_num [bandHi, bandLo]; try omega,
      by rw [hS]; norm_num [bandLen], by rw [hE]; norm_num [bandLen],
      ?_, ?_, ?_, ?_, ?_⟩
    · intro x hx
      rw [hE] at hx
      simp only [List.mem_cons, List.not_mem_nil, or_false] at hx
      rcases hx with h | h | h | h | h | h <;> omega
    · rw [hE]
      simp only [beVal_cons, ordUvarint64.beVal_nil, List.length_cons, List.length_nil]
      push_cast
      norm_num [bandC]
      try omega
    · exact ⟨_, _, hE, by norm_num [fbLo]; try omega, by norm_num [fbHi]; try omega⟩
    · intro hss
      rcases hss with hss | hss <;> omega
    · intro hss
      rcases hss with hss | hss <;> omega
  · obtain ⟨hE, hS⟩ := frame5 v (by omega) (by omega)
    have hN : ((toUint64 v : Nat) : Int) = v + 2 ^ 64 := toUint64_int_neg v (by omega) (by omega)
    have hlo : 18446744056529682434 ≤ toUint64 v := by omega
    have hhi : toUint64 v ≤ 18446744073575333889 := by omega
    refine ⟨5, by norm_num, by norm_num, by norm_num [bandLo]; try omega,
      by norm_num [bandHi, bandLo]; try omega,
      by rw [hS]; norm_num [bandLen], by rw [hE]; norm_num [bandLen],
      ?_, ?_, ?_, ?_, ?_⟩
    · intro x hx
      rw [hE] at hx
      simp only [List.mem_cons, List.not_mem_nil, or_false] at hx
      rcases hx with h | h | h | h | h <;> omega
    · rw [hE]
      simp only [beVal_cons, ordUvarint64.beVal_nil, List.length_cons, List.length_nil]
      push_cast
      norm_num [bandC]
      try omega
    · exact ⟨_, _, hE, by norm_num [fbLo]; try omega, by norm_num [fbHi]; try omega⟩
    · intro hss
      rcases hss with hss | hss <;> omega
    · intro hss
      rcases hss with hss | hss <;> omega
  · obtain ⟨hE, hS⟩ := frame6 v (by omega) (by omega)
    have hN : ((toUint64 v : Nat) : Int) = v + 2 ^ 64 := toUint64_int_neg v (by omega) (by omega)
    have hlo : 18446744073575333890 ≤ toUint64 v := by omega
    have hhi : toUint64 v ≤ 18446744073708503041 := by omega
    refine ⟨6, by norm_num, by norm_num, by norm_num [bandLo]; try omega,
      by norm_num [bandHi, bandLo]; try omega,
      by rw [hS]; norm_num [bandLen], by rw [hE]; norm_num [bandLen],
      ?_, ?_, ?_, ?_, ?_⟩
    · intro x hx
      rw [hE] at hx
      simp only [List.mem_cons, List.not_mem_nil, or_false] at hx
      rcases hx with h | h | h | h <;> omega
    · rw [hE]
      simp only [beVal_cons, ordUvarint64.beVal_nil, List.length_cons, List.length_nil]
      push_cast
      norm_num [bandC]
      try omega
    · exact ⟨_, _, hE, by norm_num [fbLo]; try omega, by norm_num [fbHi]; try omega⟩
    · intro hss
      rcases hss with hss | hss <;> omega
    · intro hss
      rcases hss with hss | hss <;> omega
  · obtain ⟨hE, hS⟩ := frame7 v (by omega) (by omega)
    have hN : ((toUint64 v : Nat) : Int) = v + 2 ^ 64 := toUint64_int_neg v (by omega) (by omega)
    have hlo : 18446744073708503042 ≤ toUint64 v := by omega
    have hhi : toUint64 v ≤ 18446744073709543425 := by omega
    refine ⟨7, by norm_num, by norm_num, by norm_num [bandLo]; try omega,
      by norm_num [bandHi, bandLo]; try omega,
      by rw [hS]; norm_num [bandLen], by rw [hE]; norm_num [bandLen],
      ?_, ?_, ?_, ?_, ?_⟩
    · intro x hx
      rw [hE] at hx
      simp only [List.mem_cons, List.not_mem_nil, or_false] at hx
      rcases hx with h | h | h <;> omega
    · rw [hE]
      simp only [beVal_cons, ordUvarint64.beVal_nil, List.length_cons, List.length_nil]
      push_cast
      norm_num [bandC]
      try omega
    · exact ⟨_, _, hE, by norm_num [fbLo]; try omega, by norm_num [fbHi]; try omega⟩
    · intro hss
      rcases hss with hss | hss <;> omega
    · intro hss
      rcases hss with hss | hss <;> omega
  · obtain ⟨hE, hS⟩ := frame8 v (by omega) (by omega)
    have hN : ((toUint64 v : Nat) : Int) = v + 2 ^ 64 := toUint64_int_neg v (by omega) (by omega)
    have hlo : 18446744073709543426 ≤ toUint64 v := by omega
    have hhi : toUint64 v ≤ 18446744073709551553 := by omega
    refine ⟨8, by norm_num, by norm_num, by norm_num [bandLo]; try omega,
      by norm_num [bandHi, bandLo]; try omega,
      by rw [hS]; norm_num [bandLen], by rw [hE]; norm_num [bandLen],
      ?_, ?_, ?_, ?_, ?_⟩
    · intro x hx
      rw [hE] at hx
      simp only [List.mem_cons, List.not_mem_nil, or_false] at hx
      rcases hx with h | h <;> omega
    · rw [hE]
      simp only [beVal_cons, ordUvarint64.beVal_nil, List.length_cons, List.length_nil]
      push_cast
      norm_num [bandC]
      try omega
    · exact ⟨_, _, hE, by norm_num [fbLo]; try omega, by norm_num [fbHi]; try omega⟩
    · intro hss
      rcases hss with hss | hss <;> omega
    · intro hss
      rcases hss with hss | hss <;> omega
  · obtain ⟨hE, hS⟩ := frame9 v (by omega) (by omega)
    have hN : ((toUint64 v : Nat) : Int) = v + 2 ^ 64 := toUint64_int_neg v (by omega) (by omega)
    have hlo : 18446744073709551554 ≤ toUint64 v := by omega
    have hhi : toUint64 v ≤ 18446744073709551615 := by omega
    refine ⟨9, by norm_num, by norm_num, by norm_num [bandLo]; try omega,
      by norm_num [bandHi, bandLo]; try omega,
      by rw [hS]; norm_num [bandLen], by rw [hE]; norm_num [bandLen],
      ?_, ?_, ?_, ?_, ?_⟩
    · intro x hx
      rw [hE] at hx
      simp only [List.mem_cons, List.not_mem_nil, or_false] at hx
      rcases hx with h <;> omega
    · rw [hE]
      simp only [beVal_cons, ordUvarint64.beVal_nil, List.length_cons, List.length_nil]
      push_cast
      norm_num [bandC]
      try omega
    · exact ⟨_, _, hE, by norm_num [fbLo]; try omega, by norm_num [fbHi]; try omega⟩
    · intro hss
      rcases hss with hss | hss <;> omega
    · intro hss
      rcases hss with hss | hss <;> omega
  · obtain ⟨hE, hS⟩ := frame10 v (by omega) (by omega)
    have hN : ((toUint64 v : Nat) : Int) = v := toUint64_int_nonneg v (by omega) (by omega)
    have hlo : 0 ≤ toUint64 v := by omega
    have hhi : toUint64 v ≤ 63 := by omega
    refine ⟨10, by norm_num, by norm_num, by norm_num [bandLo]; try omega,
      by norm_num [bandHi, bandLo]; try omega,
      by rw [hS]; norm_num [bandLen], by rw [hE]; norm_num [bandLen],
      ?_, ?_, ?_, ?_, ?_⟩
    · intro x hx
      rw [hE] at hx
      simp only [List.mem_cons, List.not_mem_nil, or_false] at hx
      rcases hx with h <;> omega
    · rw [hE]
      simp only [beVal_cons, ordUvarint64.beVal_nil, List.length_cons, List.length_nil]
      push_cast
      norm_num [bandC]
      try omega
    · exact ⟨_, _, hE, by norm_num [fbLo]; try omega, by norm_num [fbHi]; try omega⟩
    · intro hss
      rcases hss with hss | hss <;> omega
    · intro hss
      rcases hss with hss | hss <;> omega
  · obtain ⟨hE, hS⟩ := frame11 v (by omega) (by omega)
    have hN : ((toUint64 v : Nat) : Int) = v := toUint64_int_nonneg v (by omega) (by omega)
    have hlo : 64 ≤ toUint64 v := by omega
    have hhi : toUint64 v ≤ 8191 := by omega
    refine ⟨11, by norm_num, by norm_num, by norm_num [bandLo]; try omega,
      by norm_num [bandHi, bandLo]; try omega,
      by rw [hS]; norm_num [bandLen], by rw [hE]; norm_num [bandLen],
      ?_, ?_, ?_, ?_, ?_⟩
    · intro x hx
      rw [hE] at hx
      simp only [List.mem_cons, List.not_mem_nil, or_false] at hx
      rcases hx with h | h <;> omega
    · rw [hE]
      simp only [beVal_cons, ordUvarint64.beVal_nil, List.length_cons, List.length_nil]
      push_cast
      norm_num [bandC]
      try omega
    · exact ⟨_, _, hE, by norm_num [fbLo]; try omega, by norm_num [fbHi]; try omega⟩
    · intro hss
      rcases hss with hss | hss <;> omega
    · intro hss
      rcases hss with hss | hss <;> omega
  · obtain ⟨hE, hS⟩ := frame12 v (by omega) (by omega)
    have hN : ((toUint64 v : Nat) : Int) = v := toUint64_int_nonneg v (by omega) (by omega)
    have hlo : 8192 ≤ toUint64 v := by omega
    have hhi : toUint64 v ≤ 1048575 := by omega
    refine ⟨12, by norm_num, by norm_num, by norm_num [bandLo]; try omega,
      by norm_num [bandHi, bandLo]; try omega,
      by rw [hS]; norm_num [bandLen], by rw [hE]; norm_num [bandLen],
      ?_, ?_, ?_, ?_, ?_⟩
    · intro x hx
      rw [hE] at hx
      simp only [List.mem_cons, List.not_mem_nil, or_false] at hx
      rcases hx with h | h | h <;> omega
    · rw [hE]
      simp only [beVal_cons, ordUvarint64.beVal_nil, List.length_cons, List.length_nil]
      push_cast
      norm_num [bandC]
      try omega
    · exact ⟨_, _, hE, by norm_num [fbLo]; try omega, by norm_num [fbHi]; try omega⟩
    · intro hss
      rcases hss with hss | hss <;> omega
    · intro hss
      rcases hss with hss | hss <;> omega
  · obtain ⟨hE, hS⟩ := frame13 v (by omega) (by omega)
    have hN : ((toUint64 v : Nat) : Int) = v := toUint64_int_nonneg v (by omega) (by omega)
    have hlo : 1048576 ≤ toUint64 v := by omega
    have hhi : toUint64 v ≤ 134217727 := by omega
    refine ⟨13, by norm_num, by norm_num, by norm_num [bandLo]; try omega,
      by norm_num [bandHi, bandLo]; try omega,
      by rw [hS]; norm_num [bandLen], by rw [hE]; norm_num [bandLen],
      ?_, ?_, ?_, ?_, ?_⟩
    · intro x hx
      rw [hE] at hx
      simp only [List.mem_cons, List.not_mem_nil, or_false] at hx
      rcases hx with h | h | h | h <;> omega
    · rw [hE]
      simp only [beVal_cons, ordUvarint64.beVal_nil, List.length_cons, List.length_nil]
      push_cast
      norm_num [bandC]
      try omega
    · exact ⟨_, _, hE, by norm_num [fbLo]; try omega, by norm_num [fbHi]; try omega⟩
    · intro hss
      rcases hss with hss | hss <;> omega
    · intro hss
      rcases hss with hss | hss <;> omega
  · obtain ⟨hE, hS⟩ := frame14 v (by omega) (by omega)
    have hN : ((toUint64 v : Nat) : Int) = v := toUint64_int_nonneg v (by omega) (by omega)
    have hlo : 134217728 ≤ toUint64 v := by omega
    have hhi : toUint64 v ≤ 17179869183 := by omega
    refine ⟨14, by norm_num, by norm_num, by norm_num [bandLo]; try omega,
      by norm_num [bandHi, bandLo]; try omega,
      by rw [hS]; norm_num [bandLen], by rw [hE]; norm_num [bandLen],
      ?_, ?_, ?_, ?_, ?_⟩
    · intro x hx
      rw [hE] at hx
      simp only [List.mem_cons, List.not_mem_nil, or_false] at hx
      rcases hx with h | h | h | h | h <;> omega
    · rw [hE]
      simp only [beVal_cons, ordUvarint64.beVal_nil, List.length_cons, List.length_nil]
      push_cast
      norm_num [bandC]
      try omega
    · exact ⟨_, _, hE, by norm_num [fbLo]; try omega, by norm_num [fbHi]; try omega⟩
    · intro hss
      rcases hss with hss | hss <;> omega
    · intro hss
      rcases hss with hss | hss <;> omega
  · obtain ⟨hE, hS⟩ := frame15 v (by omega) (by omega)
    have hN : ((toUint64 v : Nat) : Int) = v := toUint64_int_nonneg v (by omega) (by omega)
    have hlo : 17179869184 ≤ toUint64 v := by omega
    have hhi : toUint64 v ≤ 2199023255551 := by omega
    refine ⟨15, by norm_num, by norm_num, by norm_num [bandLo]; try omega,
      by norm_num [bandHi, bandLo]; try omega,
      by rw [hS]; norm_num [bandLen], by rw [hE]; norm_num [bandLen],
      ?_, ?_, ?_, ?_, ?_⟩
    · intro x hx
      rw [hE] at hx
      simp only [List.mem_cons, List.not_mem_nil, or_false] at hx
      rcases hx with h | h | h | h | h | h <;> omega
    · rw [hE]
      simp only [beVal_cons, ordUvarint64.beVal_nil, List.length_cons, List.length_nil]
      push_cast
      norm_num [bandC]
      try omega
    · exact ⟨_, _, hE, by norm_num [fbLo]; try omega, by norm_num [fbHi]; try omega⟩
    · intro hss
      rcases hss with hss | hss <;> omega
    · intro hss
      rcases hss with hss | hss <;> omega
  · obtain ⟨hE, hS⟩ := frame16 v (by omega) (by omega)
    have hN : ((toUint64 v : Nat) : Int) = v := toUint64_int_nonneg v (by omega) (by omega)
    have hlo : 2199023255552 ≤ toUint64 v := by omega
    have hhi : toUint64 v ≤ 281474976710655 := by omega
    refine ⟨16, by norm_num, by norm_num, by norm_num [bandLo]; try omega,
      by norm_num [bandHi, bandLo]; try omega,
      by rw [hS]; norm_num [bandLen], by rw [hE]; norm_num [bandLen],
      ?_, ?_, ?_, ?_, ?_⟩
    · intro x hx
      rw [hE] at hx
      simp only [List.mem_cons, List.not_mem_nil, or_false] at hx
      rcases hx with h | h | h | h | h | h | h <;> omega
    · rw [hE]
      simp only [beVal_cons, ordUvarint64.beVal_nil, List.length_cons, List.length_nil]
      push_cast
      norm_num [bandC]
      try omega
    · exact ⟨_, _, hE, by norm_num [fbLo]; try omega, by norm_num [fbHi]; try omega⟩
    · intro hss
      rcases hss with hss | hss <;> omega
    · intro hss
      rcases hss with hss | hss <;> omega
  · obtain ⟨hE, hS⟩ := frame17 v (by omega) (by omega)
    have hN : ((toUint64 v : Nat) : Int) = v := toUint64_int_nonneg v (by omega) (by omega)
    have hlo : 281474976710656 ≤ toUint64 v := by omega
    have hhi : toUint64 v ≤ 36028797018963967 := by omega
    refine ⟨17, by norm_num, by norm_num, by norm_num [bandLo]; try omega,
      by norm_num [bandHi, bandLo]; try omega,
      by rw [hS]; norm_num [bandLen], by rw [hE]; norm_num [bandLen],
      ?_, ?_, ?_, ?_, ?_⟩
    · intro x hx
      rw [hE] at hx
      simp only [List.mem_cons, List.not_mem_nil, or_false] at hx
      rcases hx with h | h | h | h | h | h | h | h <;> omega
    · rw [hE]
      simp only [beVal_cons, ordUvarint64.beVal_nil, List.length_cons, List.length_nil]
      push_cast
      norm_num [bandC]
      try omega
    · exact ⟨_, _, hE, by norm_num [fbLo]; try omega, by norm_num [fbHi]; try omega⟩
    · intro _
      exact ⟨_, _, _, hE, by omega⟩
    · intro hss
      rcases hss with hss | hss <;> omega
  · obtain ⟨hE, hS⟩ := frame18 v (by omega) (by omega)
    have hN : ((toUint64 v : Nat) : Int) = v := toUint64_int_nonneg v (by omega) (by omega)
    have hlo : 36028797018963968 ≤ toUint64 v := by omega
    have hhi : toUint64 v ≤ 9223372036854775807 := by omega
    refine ⟨18, by norm_num, by norm_num, by norm_num [bandLo]; try omega,
      by norm_num [bandHi, bandLo]; try omega,
      by rw [hS]; norm_num [bandLen], by rw [hE]; norm_num [bandLen],
      ?_, ?_, ?_, ?_, ?_⟩
    · intro x hx
      rw [hE] at hx
      simp only [List.mem_cons, List.not_mem_nil, or_false] at hx
      rcases hx with h | h | h | h | h | h | h | h | h <;> omega
    · rw [hE]
      simp only [beVal_cons, ordUvarint64.beVal_nil, List.length_cons, List.length_nil]
      push_cast
      norm_num [bandC]
      try omega
    · exact ⟨_, _, hE, by norm_num [fbLo]; try omega, by norm_num [fbHi]; try omega⟩
    · intro hss
      rcases hss with hss | hss <;> omega
    · intro _
      exact ⟨_, _, _, hE, by omega⟩

end ordVarint64

namespace ordVarint64

/-- Bands of `ordVarint64` are ordered by value. -/
theorem band_ordered : ∀ j, j < 19 → ∀ i, i < j → 1 ≤ i → bandHi i ≤ bandLo j := by decide

/-- First-byte windows of distinct bands are ordered, except for the two
pairs that share a first byte (`1,2` share `0x00`; `17,18` share `0xFF`). -/
theorem fb_ordered : ∀ j, j < 19 → ∀ i, i < j → 1 ≤ i →
    ((i = 1 ∧ j = 2) ∨ (i = 17 ∧ j = 18) ∨ fbHi i ≤ fbLo j) := by decide

end ordVarint64

/-- C2: `OrdVarint64` is order-preserving.  For every pair of `int64` values
`a < b`, the byte string produced by `Encode` (into a buffer of length
`Size()`) for `a` is strictly less than the byte string produced for `b`
under lexicographic byte comparison; since negative values occupy the bands
whose first byte has top bit 0 and non-negative values the bands with top
bit 1, every negative value's encoding sorts before every non-negative
value's encoding. -/
theorem ordVarint64_order_preserving (a b : Int)
    (ha1 : -(2 ^ 63) ≤ a) (ha2 : a < 2 ^ 63)
    (hb1 : -(2 ^ 63) ≤ b) (hb2 : b < 2 ^ 63) (hab : a < b) :
    bytesLt (ordVarint64.Encode a) (ordVarint64.Encode b) := by
  obtain ⟨sa, hsa1, hsa18, hloa, hhia, _, hlena, hbytesa, hbeva,
    ⟨fba, ra, hEa, hfba1, hfba2⟩, hspa1, hspa2⟩ := ordVarint64.encode_spec a ha1 ha2
  obtain ⟨sb, hsb1, hsb18, hlob, hhib, _, hlenb, hbytesb, hbevb,
    ⟨fbb, rb, hEb, hfbb1, hfbb2⟩, hspb1, hspb2⟩ := ordVarint64.encode_spec b hb1 hb2
  have hso : sa ≤ sb := by
    by_contra hc
    push_neg at hc
    have := ordVarint64.band_ordered sa (by omega) sb (by omega) (by omega)
    omega
  rcases Nat.eq_or_lt_of_le hso with heq | hlt
  · subst heq
    apply bytesLt_of_beVal_lt _ _ (by rw [hlena, hlenb]) hbytesa hbytesb
    omega
  · by_cases hsp1 : sa = 1 ∧ sb = 2
    · obtain ⟨fa2, sba, r1, hEa2, hsba⟩ := hspa1 (Or.inl hsp1.1)
      obtain ⟨fb2, sbb, r2, hEb2, hsbb⟩ := hspb2 (Or.inl hsp1.2)
      have hfa : fba = fa2 := by
        rw [hEa] at hEa2
        exact (List.cons.injEq _ _ _ _ ▸ hEa2).1
      have hfb : fbb = fb2 := by
        rw [hEb] at hEb2
        exact (List.cons.injEq _ _ _ _ ▸ hEb2).1
      have hfa0 : fa2 = 0 := by
        have := hfba2
        rw [hsp1.1] at this
        norm_num [ordVarint64.fbHi] at this
        omega
      have hfb0 : fb2 = 0 := by
        have := hfbb2
        rw [hsp1.2] at this
        norm_num [ordVarint64.fbHi] at this
        omega
      rw [hEa2, hEb2, hfa0, hfb0]
      exact List.Lex.cons (List.Lex.rel (by omega))
    · by_cases hsp2 : sa = 17 ∧ sb = 18
      · obtain ⟨fa2, sba, r1, hEa2, hsba⟩ := hspa1 (Or.inr hsp2.1)
        obtain ⟨fb2, sbb, r2, hEb2, hsbb⟩ := hspb2 (Or.inr hsp2.2)
        have hfa : fba = fa2 := by
          rw [hEa] at hEa2
          exact (List.cons.injEq _ _ _ _ ▸ hEa2).1
        have hfb : fbb = fb2 := by
          rw [hEb] at hEb2
          exact (List.cons.injEq _ _ _ _ ▸ hEb2).1
        have hfa0 : fa2 = 255 := by
          have h2 := hfba2
          have h1 := hfba1
          rw [hsp2.1] at h1 h2
          norm_num [ordVarint64.fbHi, ordVarint64.fbLo] at h1 h2
          omega
        have hfb0 : fb2 = 255 := by
          have h2 := hfbb2
          have h1 := hfbb1
          rw [hsp2.2] at h1 h2
          norm_num [ordVarint64.fbHi, ordVarint64.fbLo] at h1 h2
          omega
        rw [hEa2, hEb2, hfa0, hfb0]
        exact List.Lex.cons (List.Lex.rel (by omega))
      · have hfbs := ordVarint64.fb_ordered sb (by omega) sa (by omega) (by omega)
        rcases hfbs with h | h | h
        · exact absurd ⟨h.1, h.2⟩ hsp1
        · exact absurd ⟨h.1, h.2⟩ hsp2
        · rw [hEa, hEb]
          exact List.Lex.rel (by omega)

/-- Witness for C2 at the concrete pair `(-70, 300)`. -/
theorem ordVarint64_order_preserving_witness :
    -(2 ^ 63) ≤ (-70 : Int) ∧ (-70 : Int) < 2 ^ 63 ∧
      -(2 ^ 63) ≤ (300 : Int) ∧ (300 : Int) < 2 ^ 63 ∧ (-70 : Int) < 300 ∧
      bytesLt (ordVarint64.Encode (-70)) (ordVarint64.Encode 300) :=
  ⟨by norm_num, by norm_num, by norm_num, by norm_num, by norm_num,
    ordVarint64_order_preserving (-70) 300 (by norm_num) (by norm_num)
      (by norm_num) (by norm_num) (by norm_num)⟩
namespace ordVarint64

/-! Byte-level branch-selection facts used by the decode proofs. -/

theorem and128_of_lt : ∀ x, x < 128 → x &&& 128 = 0 := by decide

theorem and128_of_ge : ∀ x, 128 ≤ x → x < 256 → x &&& 128 = 128 := by decide

theorem and127_of_ge : ∀ x, 128 ≤ x → x < 256 → x &&& 127 = x - 128 := by decide

theorem sel4 : ∀ x, 2 ≤ x → x < 4 → x &&& 128 = 0 ∧ x ≠ 0 ∧ x ≠ 1 ∧ x &&& 254 = 2 ∧ x &&& 1 = x - 2 := by decide

theorem sel5 : ∀ x, 4 ≤ x → x < 8 → x &&& 128 = 0 ∧ x ≠ 0 ∧ x ≠ 1 ∧ ¬(x &&& 254 = 2) ∧ x &&& 252 = 4 ∧ x &&& 3 = x - 4 := by decide

theorem sel6 : ∀ x, 8 ≤ x → x < 16 → x &&& 128 = 0 ∧ x ≠ 0 ∧ x ≠ 1 ∧ ¬(x &&& 254 = 2) ∧ ¬(x &&& 252 = 4) ∧ x &&& 248 = 8 ∧ x &&& 7 = x - 8 := by decide

theorem sel7 : ∀ x, 16 ≤ x → x < 32 → x &&& 128 = 0 ∧ x ≠ 0 ∧ x ≠ 1 ∧ ¬(x &&& 254 = 2) ∧ ¬(x &&& 252 = 4) ∧ ¬(x &&& 248 = 8) ∧ x &&& 240 = 16 ∧ x &&& 15 = x - 16 := by decide

theorem sel8 : ∀ x, 32 ≤ x → x < 64 → x &&& 128 = 0 ∧ x ≠ 0 ∧ x ≠ 1 ∧ ¬(x &&& 254 = 2) ∧ ¬(x &&& 252 = 4) ∧ ¬(x &&& 248 = 8) ∧ ¬(x &&& 240 = 16) ∧ x &&& 224 = 32 ∧ x &&& 31 = x - 32 := by decide

theorem sel9 : ∀ x, 64 ≤ x → x < 128 → x &&& 128 = 0 ∧ x ≠ 0 ∧ x ≠ 1 ∧ ¬(x &&& 254 = 2) ∧ ¬(x &&& 252 = 4) ∧ ¬(x &&& 248 = 8) ∧ ¬(x &&& 240 = 16) ∧ ¬(x &&& 224 = 32) ∧ x &&& 192 = 64 ∧ x &&& 63 = x - 64 := by decide

theorem sel10 : ∀ x, 128 ≤ x → x < 192 → ¬(x &&& 128 = 0) ∧ x &&& 128 = 128 ∧ x &&& 192 = 128 ∧ x &&& 63 = x - 128 := by decide

theorem sel11 : ∀ x, 192 ≤ x → x < 224 → ¬(x &&& 128 = 0) ∧ x &&& 128 = 128 ∧ ¬(x &&& 192 = 128) ∧ x &&& 224 = 192 ∧ x &&& 31 = x - 192 := by decide

theorem sel12 : ∀ x, 224 ≤ x → x < 240 → ¬(x &&& 128 = 0) ∧ x &&& 128 = 128 ∧ ¬(x &&& 192 = 128) ∧ ¬(x &&& 224 = 192) ∧ x &&& 240 = 224 ∧ x &&& 15 = x - 224 := by decide

theorem sel13 : ∀ x, 240 ≤ x → x < 248 → ¬(x &&& 128 = 0) ∧ x &&& 128 = 128 ∧ ¬(x &&& 192 = 128) ∧ ¬(x &&& 224 = 192) ∧ ¬(x &&& 240 = 224) ∧ x &&& 248 = 240 ∧ x &&& 7 = x - 240 := by decide

theorem sel14 : ∀ x, 248 ≤ x → x < 252 → ¬(x &&& 128 = 0) ∧ x &&& 128 = 128 ∧ ¬(x &&& 192 = 128) ∧ ¬(x &&& 224 = 192) ∧ ¬(x &&& 240 = 224) ∧ ¬(x &&& 248 = 240) ∧ x &&& 252 = 248 ∧ x &&& 3 = x - 248 := by decide

theorem sel15 : ∀ x, 252 ≤ x → x < 254 → ¬(x &&& 128 = 0) ∧ x &&& 128 = 128 ∧ ¬(x &&& 192 = 128) ∧ ¬(x &&& 224 = 192) ∧ ¬(x &&& 240 = 224) ∧ ¬(x &&& 248 = 240) ∧ ¬(x &&& 252 = 248) ∧ x &&& 254 = 252 ∧ x &&& 1 = x - 252 := by decide


theorem decode_band1 (v : Int) (h1 : (-9223372036854775808) ≤ v) (h2 : v ≤ (-36028797018963967)) :
    Decode (Encode v) = .ok v := by
  obtain ⟨hE, _⟩ := frame1 v h1 h2
  have hN : ((toUint64 v : Nat) : Int) = v + 2 ^ 64 := toUint64_int_neg v (by omega) (by omega)
  have hlo : 9223372036854775808 ≤ toUint64 v := by omega
  have hhi : toUint64 v ≤ 18410715276690587649 := by omega
  have hsb : (toUint64 v / 72057594037927936 % 128) &&& 128 = 0 := and128_of_lt _ (by omega)
  rw [hE]
  simp only [Decode, List.length_cons, List.length_nil, List.getD_cons_zero,
    List.getD_cons_succ, Nat.shiftLeft_eq, Except.ok.injEq, hsb]
  norm_num
  rw [lor_eq_add (9223372036854775808) (toUint64 v / 72057594037927936 % 128 * 72057594037927936) 63 (by omega) (by omega)]
  rw [lor_eq_add (9223372036854775808 + toUint64 v / 72057594037927936 % 128 * 72057594037927936) (toUint64 v / 281474976710656 % 256 * 281474976710656) 56 (by omega) (by omega)]
  rw [lor_eq_add (9223372036854775808 + toUint64 v / 72057594037927936 % 128 * 72057594037927936 + toUint64 v / 281474976710656 % 256 * 281474976710656) (toUint64 v / 1099511627776 % 256 * 1099511627776) 48 (by omega) (by omega)]
  rw [lor_eq_add (9223372036854775808 + toUint64 v / 72057594037927936 % 128 * 72057594037927936 + toUint64 v / 281474976710656 % 256 * 281474976710656 + toUint64 v / 1099511627776 % 256 * 1099511627776) (toUint64 v / 4294967296 % 256 * 4294967296) 40 (by omega) (by omega)]
  rw [lor_eq_add (9223372036854775808 + toUint64 v / 72057594037927936 % 128 * 72057594037927936 + toUint64 v / 281474976710656 % 256 * 281474976710656 + toUint64 v / 1099511627776 % 256 * 1099511627776 + toUint64 v / 4294967296 % 256 * 4294967296) (toUint64 v / 16777216 % 256 * 16777216) 32 (by omega) (by omega)]
  rw [lor_eq_add (9223372036854775808 + toUint64 v / 72057594037927936 % 128 * 72057594037927936 + toUint64 v / 281474976710656 % 256 * 281474976710656 + toUint64 v / 1099511627776 % 256 * 1099511627776 + toUint64 v / 4294967296 % 256 * 4294967296 + toUint64 v / 16777216 % 256 * 16777216) (toUint64 v / 65536 % 256 * 65536) 24 (by omega) (by omega)]
  rw [lor_eq_add (9223372036854775808 + toUint64 v / 72057594037927936 % 128 * 72057594037927936 + toUint64 v / 281474976710656 % 256 * 281474976710656 + toUint64 v / 1099511627776 % 256 * 1099511627776 + toUint64 v / 4294967296 % 256 * 4294967296 + toUint64 v / 16777216 % 256 * 16777216 + toUint64 v / 65536 % 256 * 65536) (toUint64 v / 256 % 256 * 256) 16 (by omega) (by omega)]
  rw [lor_eq_add (9223372036854775808 + toUint64 v / 72057594037927936 % 128 * 72057594037927936 + toUint64 v / 281474976710656 % 256 * 281474976710656 + toUint64 v / 1099511627776 % 256 * 1099511627776 + toUint64 v / 4294967296 % 256 * 4294967296 + toUint64 v / 16777216 % 256 * 16777216 + toUint64 v / 65536 % 256 * 65536 + toUint64 v / 256 % 256 * 256) (toUint64 v % 256) 8 (by omega) (by omega)]
  rw [ofUint64, if_neg (by omega)]
  omega

theorem decode_band2 (v : Int) (h1 : (-36028797018963966) ≤ v) (h2 : v ≤ (-281474976710655)) :
    Decode (Encode v) = .ok v := by
  obtain ⟨hE, _⟩ := frame2 v h1 h2
  have hN : ((toUint64 v : Nat) : Int) = v + 2 ^ 64 := toUint64_int_neg v (by omega) (by omega)
  have hlo : 18410715276690587650 ≤ toUint64 v := by omega
  have hhi : toUint64 v ≤ 18446462598732840961 := by omega
  have hsb : (toUint64 v / 281474976710656 % 256) &&& 128 = 128 := and128_of_ge _ (by omega) (by omega)
  rw [hE]
  simp only [Decode, List.length_cons, List.length_nil, List.getD_cons_zero,
    List.getD_cons_succ, Nat.shiftLeft_eq, Except.ok.injEq, hsb]
  norm_num
  rw [lor_eq_add (18374686479671623680) (toUint64 v / 281474976710656 % 256 * 281474976710656) 56 (by omega) (by omega)]
  rw [lor_eq_add (18374686479671623680 + toUint64 v / 281474976710656 % 256 * 281474976710656) (toUint64 v / 1099511627776 % 256 * 1099511627776) 48 (by omega) (by omega)]
  rw [lor_eq_add (18374686479671623680 + toUint64 v / 281474976710656 % 256 * 281474976710656 + toUint64 v / 1099511627776 % 256 * 1099511627776) (toUint64 v / 4294967296 % 256 * 4294967296) 40 (by omega) (by omega)]
  rw [lor_eq_add (18374686479671623680 + toUint64 v / 281474976710656 % 256 * 281474976710656 + toUint64 v / 1099511627776 % 256 * 1099511627776 + toUint64 v / 4294967296 % 256 * 4294967296) (toUint64 v / 16777216 % 256 * 16777216) 32 (by omega) (by omega)]
  rw [lor_eq_add (18374686479671623680 + toUint64 v / 281474976710656 % 256 * 281474976710656 + toUint64 v / 1099511627776 % 256 * 1099511627776 + toUint64 v / 4294967296 % 256 * 4294967296 + toUint64 v / 16777216 % 256 * 16777216) (toUint64 v / 65536 % 256 * 65536) 24 (by omega) (by omega)]
  rw [lor_eq_add (18374686479671623680 + toUint64 v / 281474976710656 % 256 * 281474976710656 + toUint64 v / 1099511627776 % 256 * 1099511627776 + toUint64 v / 4294967296 % 256 * 4294967296 + toUint64 v / 16777216 % 256 * 16777216 + toUint64 v / 65536 % 256 * 65536) (toUint64 v / 256 % 256 * 256) 16 (by omega) (by omega)]
  rw [lor_eq_add (18374686479671623680 + toUint64 v / 281474976710656 % 256 * 281474976710656 + toUint64 v / 1099511627776 % 256 * 1099511627776 + toUint64 v / 4294967296 % 256 * 4294967296 + toUint64 v / 16777216 % 256 * 16777216 + toUint64 v / 65536 % 256 * 65536 + toUint64 v / 256 % 256 * 256) (toUint64 v % 256) 8 (by omega) (by omega)]
  rw [ofUint64, if_neg (by omega)]
  omega

theorem decode_band3 (v : Int) (h1 : (-281474976710654) ≤ v) (h2 : v ≤ (-2199023255551)) :
    Decode (Encode v) = .ok v := by
  obtain ⟨hE, _⟩ := frame3 v h1 h2
  have hN : ((toUint64 v : Nat) : Int) = v + 2 ^ 64 := toUint64_int_neg v (by omega) (by omega)
  have hlo : 18446462598732840962 ≤ toUint64 v := by omega
  have hhi : toUint64 v ≤ 18446741874686296065 := by omega
  rw [hE]
  simp only [Decode, List.length_cons, List.length_nil, List.getD_cons_zero,
    List.getD_cons_succ, Nat.shiftLeft_eq, Except.ok.injEq]
  norm_num
  rw [lor_eq_add (18446462598732840960) (toUint64 v / 1099511627776 % 256 * 1099511627776) 48 (by omega) (by omega)]
  rw [lor_eq_add (18446462598732840960 + toUint64 v / 1099511627776 % 256 * 1099511627776) (toUint64 v / 4294967296 % 256 * 4294967296) 40 (by omega) (by omega)]
  rw [lor_eq_add (18446462598732840960 + toUint64 v / 1099511627776 % 256 * 1099511627776 + toUint64 v / 4294967296 % 256 * 4294967296) (toUint64 v / 16777216 % 256 * 16777216) 32 (by omega) (by omega)]
  rw [lor_eq_add (18446462598732840960 + toUint64 v / 1099511627776 % 256 * 1099511627776 + toUint64 v / 4294967296 % 256 * 4294967296 + toUint64 v / 16777216 % 256 * 16777216) (toUint64 v / 65536 % 256 * 65536) 24 (by omega) (by omega)]
  rw [lor_eq_add (18446462598732840960 + toUint64 v / 1099511627776 % 256 * 1099511627776 + toUint64 v / 4294967296 % 256 * 4294967296 + toUint64 v / 16777216 % 256 * 16777216 + toUint64 v / 65536 % 256 * 65536) (toUint64 v / 256 % 256 * 256) 16 (by omega) (by omega)]
  rw [lor_eq_add (18446462598732840960 + toUint64 v / 1099511627776 % 256 * 1099511627776 + toUint64 v / 4294967296 % 256 * 4294967296 + toUint64 v / 16777216 % 256 * 16777216 + toUint64 v / 65536 % 256 * 65536 + toUint64 v / 256 % 256 * 256) (toUint64 v % 256) 8 (by omega) (by omega)]
  rw [ofUint64, if_neg (by omega)]
  omega

theorem decode_band4 (v : Int) (h1 : (-2199023255550) ≤ v) (h2 : v ≤ (-17179869183)) :
    Decode (Encode v) = .ok v := by
  obtain ⟨hE, _⟩ := frame4 v h1 h2
  have hN : ((toUint64 v : Nat) : Int) = v + 2 ^ 64 := toUint64_int_neg v (by omega) (by omega)
  have hlo : 18446741874686296066 ≤ toUint64 v := by omega
  have hhi : toUint64 v ≤ 18446744056529682433 := by omega
  obtain ⟨hq0, hq1, hq2, hq3, hpay⟩ := sel4 (2 + toUint64 v / 1099511627776 % 2) (by omega) (by omega)
  have hpay2 : (2 + toUint64 v / 1099511627776 % 2) &&& 1 = toUint64 v / 1099511627776 % 2 := by omega
  rw [hE]
  simp only [Decode, List.length_cons, List.length_nil, List.getD_cons_zero,
    List.getD_cons_succ, Nat.shiftLeft_eq, Except.ok.injEq, hq0, hq1, hq2, hq3, hpay2]
  norm_num
  rw [lor_eq_add (18446741874686296064) (toUint64 v / 1099511627776 % 2 * 1099511627776) 41 (by omega) (by omega)]
  rw [lor_eq_add (18446741874686296064 + toUint64 v / 1099511627776 % 2 * 1099511627776) (toUint64 v / 4294967296 % 256 * 4294967296) 40 (by omega) (by omega)]
  rw [lor_eq_add (18446741874686296064 + toUint64 v / 1099511627776 % 2 * 1099511627776 + toUint64 v / 4294967296 % 256 * 4294967296) (toUint64 v / 16777216 % 256 * 16777216) 32 (by omega) (by omega)]
  rw [lor_eq_add (18446741874686296064 + toUint64 v / 1099511627776 % 2 * 1099511627776 + toUint64 v / 4294967296 % 256 * 4294967296 + toUint64 v / 16777216 % 256 * 16777216) (toUint64 v / 65536 % 256 * 65536) 24 (by omega) (by omega)]
  rw [lor_eq_add (18446741874686296064 + toUint64 v / 1099511627776 % 2 * 1099511627776 + toUint64 v / 4294967296 % 256 * 4294967296 + toUint64 v / 16777216 % 256 * 16777216 + toUint64 v / 65536 % 256 * 65536) (toUint64 v / 256 % 256 * 256) 16 (by omega) (by omega)]
  rw [lor_eq_add (18446741874686296064 + toUint64 v / 1099511627776 % 2 * 1099511627776 + toUint64 v / 4294967296 % 256 * 4294967296 + toUint64 v / 16777216 % 256 * 16777216 + toUint64 v / 65536 % 256 * 65536 + toUint64 v / 256 % 256 * 256) (toUint64 v % 256) 8 (by omega) (by omega)]
  rw [ofUint64, if_neg (by omega)]
  omega

theorem decode_band5 (v : Int) (h1 : (-17179869182) ≤ v) (h2 : v ≤ (-134217727)) :
    Decode (Encode v) = .ok v := by
  obtain ⟨hE, _⟩ := frame5 v h1 h2
  have hN : ((toUint64 v : Nat) : Int) = v + 2 ^ 64 := toUint64_int_neg v (by omega) (by omega)
  have hlo : 18446744056529682434 ≤ toUint64 v := by omega
  have hhi : toUint64 v ≤ 18446744073575333889 := by omega
  obtain ⟨hq0, hq1, hq2, hq3, hq4, hpay⟩ := sel5 (4 + toUint64 v / 4294967296 % 4) (by omega) (by omega)
  have hpay2 : (4 + toUint64 v / 4294967296 % 4) &&& 3 = toUint64 v / 4294967296 % 4 := by omega
  rw [hE]
  simp only [Decode, List.length_cons, List.length_nil, List.getD_cons_zero,
    List.getD_cons_succ, Nat.shiftLeft_eq, Except.ok.injEq, hq0, hq1, hq2, hq3, hq4, hpay2]
  norm_num
  rw [lor_eq_add (18446744056529682432) (toUint64 v / 4294967296 % 4 * 4294967296) 34 (by omega) (by omega)]
  rw [lor_eq_add (18446744056529682432 + toUint64 v / 4294967296 % 4 * 4294967296) (toUint64 v / 16777216 % 256 * 16777216) 32 (by omega) (by omega)]
  rw [lor_eq_add (18446744056529682432 + toUint64 v / 4294967296 % 4 * 4294967296 + toUint64 v / 16777216 % 256 * 16777216) (toUint64 v / 65536 % 256 * 65536) 24 (by omega) (by omega)]
  rw [lor_eq_add (18446744056529682432 + toUint64 v / 4294967296 % 4 * 4294967296 + toUint64 v / 16777216 % 256 * 16777216 + toUint64 v / 65536 % 256 * 65536) (toUint64 v / 256 % 256 * 256) 16 (by omega) (by omega)]
  rw [lor_eq_add (18446744056529682432 + toUint64 v / 4294967296 % 4 * 4294967296 + toUint64 v / 16777216 % 256 * 16777216 + toUint64 v / 65536 % 256 * 65536 + toUint64 v / 256 % 256 * 256) (toUint64 v % 256) 8 (by omega) (by omega)]
  rw [ofUint64, if_neg (by omega)]
  omega

theorem decode_band6 (v : Int) (h1 : (-134217726) ≤ v) (h2 : v ≤ (-1048575)) :
    Decode (Encode v) = .ok v := by
  obtain ⟨hE, _⟩ := frame6 v h1 h2
  have hN : ((toUint64 v : Nat) : Int) = v + 2 ^ 64 := toUint64_int_neg v (by omega) (by omega)
  have hlo : 18446744073575333890 ≤ toUint64 v := by omega
  have hhi : toUint64 v ≤ 18446744073708503041 := by omega
  obtain ⟨hq0, hq1, hq2, hq3, hq4, hq5, hpay⟩ := sel6 (8 + toUint64 v / 16777216 % 8) (by omega) (by omega)
  have hpay2 : (8 + toUint64 v / 16777216 % 8) &&& 7 = toUint64 v / 16777216 % 8 := by omega
  rw [hE]
  simp only [Decode, List.length_cons, List.length_nil, List.getD_cons_zero,
    List.getD_cons_succ, Nat.shiftLeft_eq, Except.ok.injEq, hq0, hq1, hq2, hq3, hq4, hq5, hpay2]
  norm_num
  rw [lor_eq_add (18446744073575333888) (toUint64 v / 16777216 % 8 * 16777216) 27 (by omega) (by omega)]
  rw [lor_eq_add (18446744073575333888 + toUint64 v / 16777216 % 8 * 16777216) (toUint64 v / 65536 % 256 * 65536) 24 (by omega) (by omega)]
  rw [lor_eq_add (18446744073575333888 + toUint64 v / 16777216 % 8 * 16777216 + toUint64 v / 65536 % 256 * 65536) (toUint64 v / 256 % 256 * 256) 16 (by omega) (by omega)]
  rw [lor_eq_add (18446744073575333888 + toUint64 v / 16777216 % 8 * 16777216 + toUint64 v / 65536 % 256 * 65536 + toUint64 v / 256 % 256 * 256) (toUint64 v % 256) 8 (by omega) (by omega)]
  rw [ofUint64, if_neg (by omega)]
  omega

theorem decode_band7 (v : Int) (h1 : (-1048574) ≤ v) (h2 : v ≤ (-8191)) :
    Decode (Encode v) = .ok v := by
  obtain ⟨hE, _⟩ := frame7 v h1 h2
  have hN : ((toUint64 v : Nat) : Int) = v + 2 ^ 64 := toUint64_int_neg v (by omega) (by omega)
  have hlo : 18446744073708503042 ≤ toUint64 v := by omega
  have hhi : toUint64 v ≤ 18446744073709543425 := by omega
  obtain ⟨hq0, hq1, hq2, hq3, hq4, hq5, hq6, hpay⟩ := sel7 (16 + toUint64 v / 65536 % 16) (by omega) (by omega)
  have hpay2 : (16 + toUint64 v / 65536 % 16) &&& 15 = toUint64 v / 65536 % 16 := by omega
  rw [hE]
  simp only [Decode, List.length_cons, List.length_nil, List.getD_cons_zero,
    List.getD_cons_succ, Nat.shiftLeft_eq, Except.ok.injEq, hq0, hq1, hq2, hq3, hq4, hq5, hq6, hpay2]
  norm_num
  rw [lor_eq_add (18446744073708503040) (toUint64 v / 65536 % 16 * 65536) 20 (by omega) (by omega)]
  rw [lor_eq_add (18446744073708503040 + toUint64 v / 65536 % 16 * 65536) (toUint64 v / 256 % 256 * 256) 16 (by omega) (by omega)]
  rw [lor_eq_add (18446744073708503040 + toUint64 v / 65536 % 16 * 65536 + toUint64 v / 256 % 256 * 256) (toUint64 v % 256) 8 (by omega) (by omega)]
  rw [ofUint64, if_neg (by omega)]
  omega

theorem decode_band8 (v : Int) (h1 : (-8190) ≤ v) (h2 : v ≤ (-63)) :
    Decode (Encode v) = .ok v := by
  obtain ⟨hE, _⟩ := frame8 v h1 h2
  have hN : ((toUint64 v : Nat) : Int) = v + 2 ^ 64 := toUint64_int_neg v (by omega) (by omega)
  have hlo : 18446744073709543426 ≤ toUint64 v := by omega
  have hhi : toUint64 v ≤ 18446744073709551553 := by omega
  obtain ⟨hq0, hq1, hq2, hq3, hq4, hq5, hq6, hq7, hpay⟩ := sel8 (32 + toUint64 v / 256 % 32) (by omega) (by omega)
  have hpay2 : (32 + toUint64 v / 256 % 32) &&& 31 = toUint64 v / 256 % 32 := by omega
  rw [hE]
  simp only [Decode, List.length_cons, List.length_nil, List.getD_cons_zero,
    List.getD_cons_succ, Nat.shiftLeft_eq, Except.ok.injEq, hq0, hq1, hq2, hq3, hq4, hq5, hq6, hq7, hpay2]
  norm_num
  rw [lor_eq_add (18446744073709543424) (toUint64 v / 256 % 32 * 256) 13 (by omega) (by omega)]
  rw [lor_eq_add (18446744073709543424 + toUint64 v / 256 % 32 * 256) (toUint64 v % 256) 8 (by omega) (by omega)]
  rw [ofUint64, if_neg (by omega)]
  omega

theorem decode_band9 (v : Int) (h1 : (-62) ≤ v) (h2 : v ≤ (-1)) :
    Decode (Encode v) = .ok v := by
  obtain ⟨hE, _⟩ := frame9 v h1 h2
  have hN : ((toUint64 v : Nat) : Int) = v + 2 ^ 64 := toUint64_int_neg v (by omega) (by omega)
  have hlo : 18446744073709551554 ≤ toUint64 v := by omega
  have hhi : toUint64 v ≤ 18446744073709551615 := by omega
  obtain ⟨hq0, hq1, hq2, hq3, hq4, hq5, hq6, hq7, hq8, hpay⟩ := sel9 (64 + toUint64 v % 64) (by omega) (by omega)
  have hpay2 : (64 + toUint64 v % 64) &&& 63 = toUint64 v % 64 := by omega
  rw [hE]
  simp only [Decode, List.length_cons, List.length_nil, List.getD_cons_zero,
    List.getD_cons_succ, Nat.shiftLeft_eq, Except.ok.injEq, hq0, hq1, hq2, hq3, hq4, hq5, hq6, hq7, hq8, hpay2]
  norm_num
  rw [lor_eq_add (18446744073709551552) (toUint64 v % 64) 6 (by omega) (by omega)]
  rw [ofUint64, if_neg (by omega)]
  omega

theorem decode_band10 (v : Int) (h1 : 0 ≤ v) (h2 : v ≤ 63) :
    Decode (Encode v) = .ok v := by
  obtain ⟨hE, _⟩ := frame10 v h1 h2
  have hN : ((toUint64 v : Nat) : Int) = v := toUint64_int_nonneg v (by omega) (by omega)
  have hlo : 0 ≤ toUint64 v := by omega
  have hhi : toUint64 v ≤ 63 := by omega
  obtain ⟨hq0, hq1, hq2, hpay⟩ := sel10 (128 + toUint64 v) (by omega) (by omega)
  have hpay2 : (128 + toUint64 v) &&& 63 = toUint64 v := by omega
  rw [hE]
  simp only [Decode, List.length_cons, List.length_nil, List.getD_cons_zero,
    List.getD_cons_succ, Nat.shiftLeft_eq, Except.ok.injEq, hq0, hq1, hq2, hpay2]
  norm_num
  try omega

theorem decode_band11 (v : Int) (h1 : 64 ≤ v) (h2 : v ≤ 8191) :
    Decode (Encode v) = .ok v := by
  obtain ⟨hE, _⟩ := frame11 v h1 h2
  have hN : ((toUint64 v : Nat) : Int) = v := toUint64_int_nonneg v (by omega) (by omega)
  have hlo : 64 ≤ toUint64 v := by omega
  have hhi : toUint64 v ≤ 8191 := by omega
  obtain ⟨hq0, hq1, hq2, hq3, hpay⟩ := sel11 (192 + toUint64 v / 256) (by omega) (by omega)
  have hpay2 : (192 + toUint64 v / 256) &&& 31 = toUint64 v / 256 := by omega
  rw [hE]
  simp only [Decode, List.length_cons, List.length_nil, List.getD_cons_zero,
    List.getD_cons_succ, Nat.shiftLeft_eq, Except.ok.injEq, hq0, hq1, hq2, hq3, hpay2]
  norm_num
  rw [lor_eq_add (toUint64 v / 256 * 256) (toUint64 v % 256) 8 (by omega) (by omega)]
  try omega

theorem decode_band12 (v : Int) (h1 : 8192 ≤ v) (h2 : v ≤ 1048575) :
    Decode (Encode v) = .ok v := by
  obtain ⟨hE, _⟩ := frame12 v h1 h2
  have hN : ((toUint64 v : Nat) : Int) = v := toUint64_int_nonneg v (by omega) (by omega)
  have hlo : 8192 ≤ toUint64 v := by omega
  have hhi : toUint64 v ≤ 1048575 := by omega
  obtain ⟨hq0, hq1, hq2, hq3, hq4, hpay⟩ := sel12 (224 + toUint64 v / 65536) (by omega) (by omega)
  have hpay2 : (224 + toUint64 v / 65536) &&& 15 = toUint64 v / 65536 := by omega
  rw [hE]
  simp only [Decode, List.length_cons, List.length_nil, List.getD_cons_zero,
    List.getD_cons_succ, Nat.shiftLeft_eq, Except.ok.injEq, hq0, hq1, hq2, hq3, hq4, hpay2]
  norm_num
  rw [lor_eq_add (toUint64 v / 65536 * 65536) (toUint64 v / 256 % 256 * 256) 16 (by omega) (by omega)]
  rw [lor_eq_add (toUint64 v / 65536 * 65536 + toUint64 v / 256 % 256 * 256) (toUint64 v % 256) 8 (by omega) (by omega)]
  try omega

theorem decode_band13 (v : Int) (h1 : 1048576 ≤ v) (h2 : v ≤ 134217727) :
    Decode (Encode v) = .ok v := by
  obtain ⟨hE, _⟩ := frame13 v h1 h2
  have hN : ((toUint64 v : Nat) : Int) = v := toUint64_int_nonneg v (by omega) (by omega)
  have hlo : 1048576 ≤ toUint64 v := by omega
  have hhi : toUint64 v ≤ 134217727 := by omega
  obtain ⟨hq0, hq1, hq2, hq3, hq4, hq5, hpay⟩ := sel13 (240 + toUint64 v / 16777216) (by omega) (by omega)
  have hpay2 : (240 + toUint64 v / 16777216) &&& 7 = toUint64 v / 16777216 := by omega
  rw [hE]
  simp only [Decode, List.length_cons, List.length_nil, List.getD_cons_zero,
    List.getD_cons_succ, Nat.shiftLeft_eq, Except.ok.injEq, hq0, hq1, hq2, hq3, hq4, hq5, hpay2]
  norm_num
  rw [lor_eq_add (toUint64 v / 16777216 * 16777216) (toUint64 v / 65536 % 256 * 65536) 24 (by omega) (by omega)]
  rw [lor_eq_add (toUint64 v / 16777216 * 16777216 + toUint64 v / 65536 % 256 * 65536) (toUint64 v / 256 % 256 * 256) 16 (by omega) (by omega)]
  rw [lor_eq_add (toUint64 v / 16777216 * 16777216 + toUint64 v / 65536 % 256 * 65536 + toUint64 v / 256 % 256 * 256) (toUint64 v % 256) 8 (by omega) (by omega)]
  try omega

theorem decode_band14 (v : Int) (h1 : 134217728 ≤ v) (h2 : v ≤ 17179869183) :
    Decode (Encode v) = .ok v := by
  obtain ⟨hE, _⟩ := frame14 v h1 h2
  have hN : ((toUint64 v : Nat) : Int) = v := toUint64_int_nonneg v (by omega) (by omega)
  have hlo : 134217728 ≤ toUint64 v := by omega
  have hhi : toUint64 v ≤ 17179869183 := by omega
  obtain ⟨hq0, hq1, hq2, hq3, hq4, hq5, hq6, hpay⟩ := sel14 (248 + toUint64 v / 4294967296) (by omega) (by omega)
  have hpay2 : (248 + toUint64 v / 4294967296) &&& 3 = toUint64 v / 4294967296 := by omega
  rw [hE]
  simp only [Decode, List.length_cons, List.length_nil, List.getD_cons_zero,
    List.getD_cons_succ, Nat.shiftLeft_eq, Except.ok.injEq, hq0, hq1, hq2, hq3, hq4, hq5, hq6, hpay2]
  norm_num
  rw [lor_eq_add (toUint64 v / 4294967296 * 4294967296) (toUint64 v / 16777216 % 256 * 16777216) 32 (by omega) (by omega)]
  rw [lor_eq_add (toUint64 v / 4294967296 * 4294967296 + toUint64 v / 16777216 % 256 * 16777216) (toUint64 v / 65536 % 256 * 65536) 24 (by omega) (by omega)]
  rw [lor_eq_add (toUint64 v / 4294967296 * 4294967296 + toUint64 v / 16777216 % 256 * 16777216 + toUint64 v / 65536 % 256 * 65536) (toUint64 v / 256 % 256 * 256) 16 (by omega) (by omega)]
  rw [lor_eq_add (toUint64 v / 4294967296 * 4294967296 + toUint64 v / 16777216 % 256 * 16777216 + toUint64 v / 65536 % 256 * 65536 + toUint64 v / 256 % 256 * 256) (toUint64 v % 256) 8 (by omega) (by omega)]
  try omega

theorem decode_band15 (v : Int) (h1 : 17179869184 ≤ v) (h2 : v ≤ 2199023255551) :
    Decode (Encode v) = .ok v := by
  obtain ⟨hE, _⟩ := frame15 v h1 h2
  have hN : ((toUint64 v : Nat) : Int) = v := toUint64_int_nonneg v (by omega) (by omega)
  have hlo : 17179869184 ≤ toUint64 v := by omega
  have hhi : toUint64 v ≤ 2199023255551 := by omega
  obtain ⟨hq0, hq1, hq2, hq3, hq4, hq5, hq6, hq7, hpay⟩ := sel15 (252 + toUint64 v / 1099511627776) (by omega) (by omega)
  have hpay2 : (252 + toUint64 v / 1099511627776) &&& 1 = toUint64 v / 1099511627776 := by omega
  rw [hE]
  simp only [Decode, List.length_cons, List.length_nil, List.getD_cons_zero,
    List.getD_cons_succ, Nat.shiftLeft_eq, Except.ok.injEq, hq0, hq1, hq2, hq3, hq4, hq5, hq6, hq7, hpay2]
  norm_num
  rw [lor_eq_add (toUint64 v / 1099511627776 * 1099511627776) (toUint64 v / 4294967296 % 256 * 4294967296) 40 (by omega) (by omega)]
  rw [lor_eq_add (toUint64 v / 1099511627776 * 1099511627776 + toUint64 v / 4294967296 % 256 * 4294967296) (toUint64 v / 16777216 % 256 * 16777216) 32 (by omega) (by omega)]
  rw [lor_eq_add (toUint64 v / 1099511627776 * 1099511627776 + toUint64 v / 4294967296 % 256 * 4294967296 + toUint64 v / 16777216 % 256 * 16777216) (toUint64 v / 65536 % 256 * 65536) 24 (by omega) (by omega)]
  rw [lor_eq_add (toUint64 v / 1099511627776 * 1099511627776 + toUint64 v / 4294967296 % 256 * 4294967296 + toUint64 v / 16777216 % 256 * 16777216 + toUint64 v / 65536 % 256 * 65536) (toUint64 v / 256 % 256 * 256) 16 (by omega) (by omega)]
  rw [lor_eq_add (toUint64 v / 1099511627776 * 1099511627776 + toUint64 v / 4294967296 % 256 * 4294967296 + toUint64 v / 16777216 % 256 * 16777216 + toUint64 v / 65536 % 256 * 65536 + toUint64 v / 256 % 256 * 256) (toUint64 v % 256) 8 (by omega) (by omega)]
  try omega

theorem decode_band16 (v : Int) (h1 : 2199023255552 ≤ v) (h2 : v ≤ 281474976710655) :
    Decode (Encode v) = .ok v := by
  obtain ⟨hE, _⟩ := frame16 v h1 h2
  have hN : ((toUint64 v : Nat) : Int) = v := toUint64_int_nonneg v (by omega) (by omega)
  have hlo : 2199023255552 ≤ toUint64 v := by omega
  have hhi : toUint64 v ≤ 281474976710655 := by omega
  rw [show (254 + toUint64 v / 281474976710656) = 254 by omega] at hE
  rw [hE]
  simp only [Decode, List.length_cons, List.length_nil, List.getD_cons_zero, List.getD_cons_succ]
  rw [if_neg (show ¬((0 : Nat) + 1 + 1 + 1 + 1 + 1 + 1 + 1 < 1) by decide)]
  rw [if_neg (show ¬((254 : Nat) &&& 128 = 0) by decide)]
  rw [if_pos (show ((254 : Nat) &&& 128 = 128) by decide)]
  rw [if_neg (show ¬((254 : Nat) &&& 192 = 128) by decide)]
  rw [if_neg (show ¬((254 : Nat) &&& 224 = 192) by decide)]
  rw [if_neg (show ¬((254 : Nat) &&& 240 = 224) by decide)]
  rw [if_neg (show ¬((254 : Nat) &&& 248 = 240) by decide)]
  rw [if_neg (show ¬((254 : Nat) &&& 252 = 248) by decide)]
  rw [if_neg (show ¬((254 : Nat) &&& 254 = 252) by decide)]
  rw [if_pos (show True from trivial)]
  rw [if_neg (show ¬((0 : Nat) + 1 + 1 + 1 + 1 + 1 + 1 + 1 < 7) by decide)]
  simp only [Nat.shiftLeft_eq, Except.ok.injEq]
  norm_num
  rw [lor_eq_add (toUint64 v / 1099511627776 % 256 * 1099511627776) (toUint64 v / 4294967296 % 256 * 4294967296) 40 (by omega) (by omega)]
  rw [lor_eq_add (toUint64 v / 1099511627776 % 256 * 1099511627776 + toUint64 v / 4294967296 % 256 * 4294967296) (toUint64 v / 16777216 % 256 * 16777216) 32 (by omega) (by omega)]
  rw [lor_eq_add (toUint64 v / 1099511627776 % 256 * 1099511627776 + toUint64 v / 4294967296 % 256 * 4294967296 + toUint64 v / 16777216 % 256 * 16777216) (toUint64 v / 65536 % 256 * 65536) 24 (by omega) (by omega)]
  rw [lor_eq_add (toUint64 v / 1099511627776 % 256 * 1099511627776 + toUint64 v / 4294967296 % 256 * 4294967296 + toUint64 v / 16777216 % 256 * 16777216 + toUint64 v / 65536 % 256 * 65536) (toUint64 v / 256 % 256 * 256) 16 (by omega) (by omega)]
  rw [lor_eq_add (toUint64 v / 1099511627776 % 256 * 1099511627776 + toUint64 v / 4294967296 % 256 * 4294967296 + toUint64 v / 16777216 % 256 * 16777216 + toUint64 v / 65536 % 256 * 65536 + toUint64 v / 256 % 256 * 256) (toUint64 v % 256) 8 (by omega) (by omega)]
  try omega

theorem decode_band17 (v : Int) (h1 : 281474976710656 ≤ v) (h2 : v ≤ 36028797018963967) :
    Decode (Encode v) = .ok v := by
  obtain ⟨hE, _⟩ := frame17 v h1 h2
  have hN : ((toUint64 v : Nat) : Int) = v := toUint64_int_nonneg v (by omega) (by omega)
  have hlo : 281474976710656 ≤ toUint64 v := by omega
  have hhi : toUint64 v ≤ 36028797018963967 := by omega
  have hsb : (toUint64 v / 281474976710656 % 256) &&& 128 = 0 := and128_of_lt _ (by omega)
  rw [hE]
  simp only [Decode, List.length_cons, List.length_nil, List.getD_cons_zero, List.getD_cons_succ]
  rw [if_neg (show ¬((0 : Nat) + 1 + 1 + 1 + 1 + 1 + 1 + 1 + 1 < 1) by decide)]
  rw [if_neg (show ¬((255 : Nat) &&& 128 = 0) by decide)]
  rw [if_pos (show ((255 : Nat) &&& 128 = 128) by decide)]
  rw [if_neg (show ¬((255 : Nat) &&& 192 = 128) by decide)]
  rw [if_neg (show ¬((255 : Nat) &&& 224 = 192) by decide)]
  rw [if_neg (show ¬((255 : Nat) &&& 240 = 224) by decide)]
  rw [if_neg (show ¬((255 : Nat) &&& 248 = 240) by decide)]
  rw [if_neg (show ¬((255 : Nat) &&& 252 = 248) by decide)]
  rw [if_neg (show ¬((255 : Nat) &&& 254 = 252) by decide)]
  rw [if_neg (show ¬((255 : Nat) = 254) by decide)]
  rw [if_pos (show True from trivial)]
  rw [if_neg (show ¬((0 : Nat) + 1 + 1 + 1 + 1 + 1 + 1 + 1 + 1 < 8) by decide)]
  rw [if_pos hsb]
  simp only [Nat.shiftLeft_eq, Except.ok.injEq]
  norm_num
  rw [lor_eq_add (toUint64 v / 281474976710656 % 256 * 281474976710656) (toUint64 v / 1099511627776 % 256 * 1099511627776) 48 (by omega) (by omega)]
  rw [lor_eq_add (toUint64 v / 281474976710656 % 256 * 281474976710656 + toUint64 v / 1099511627776 % 256 * 1099511627776) (toUint64 v / 4294967296 % 256 * 4294967296) 40 (by omega) (by omega)]
  rw [lor_eq_add (toUint64 v / 281474976710656 % 256 * 281474976710656 + toUint64 v / 1099511627776 % 256 * 1099511627776 + toUint64 v / 4294967296 % 256 * 4294967296) (toUint64 v / 16777216 % 256 * 16777216) 32 (by omega) (by omega)]
  rw [lor_eq_add (toUint64 v / 281474976710656 % 256 * 281474976710656 + toUint64 v / 1099511627776 % 256 * 1099511627776 + toUint64 v / 4294967296 % 256 * 4294967296 + toUint64 v / 16777216 % 256 * 16777216) (toUint64 v / 65536 % 256 * 65536) 24 (by omega) (by omega)]
  rw [lor_eq_add (toUint64 v / 281474976710656 % 256 * 281474976710656 + toUint64 v / 1099511627776 % 256 * 1099511627776 + toUint64 v / 4294967296 % 256 * 4294967296 + toUint64 v / 16777216 % 256 * 16777216 + toUint64 v / 65536 % 256 * 65536) (toUint64 v / 256 % 256 * 256) 16 (by omega) (by omega)]
  rw [lor_eq_add (toUint64 v / 281474976710656 % 256 * 281474976710656 + toUint64 v / 1099511627776 % 256 * 1099511627776 + toUint64 v / 4294967296 % 256 * 4294967296 + toUint64 v / 16777216 % 256 * 16777216 + toUint64 v / 65536 % 256 * 65536 + toUint64 v / 256 % 256 * 256) (toUint64 v % 256) 8 (by omega) (by omega)]
  try omega

theorem decode_band18 (v : Int) (h1 : 36028797018963968 ≤ v) (h2 : v ≤ 9223372036854775807) :
    Decode (Encode v) = .ok v := by
  obtain ⟨hE, _⟩ := frame18 v h1 h2
  have hN : ((toUint64 v : Nat) : Int) = v := toUint64_int_nonneg v (by omega) (by omega)
  have hlo : 36028797018963968 ≤ toUint64 v := by omega
  have hhi : toUint64 v ≤ 9223372036854775807 := by omega
  have hsb : (128 + toUint64 v / 72057594037927936) &&& 128 = 128 := and128_of_ge _ (by omega) (by omega)
  have hsb2 : (128 + toUint64 v / 72057594037927936) &&& 127 = toUint64 v / 72057594037927936 := by
    have := and127_of_ge (128 + toUint64 v / 72057594037927936) (by omega) (by omega)
    omega
  rw [hE]
  simp only [Decode, List.length_cons, List.length_nil, List.getD_cons_zero, List.getD_cons_succ]
  rw [if_neg (show ¬((0 : Nat) + 1 + 1 + 1 + 1 + 1 + 1 + 1 + 1 + 1 < 1) by decide)]
  rw [if_neg (show ¬((255 : Nat) &&& 128 = 0) by decide)]
  rw [if_pos (show ((255 : Nat) &&& 128 = 128) by decide)]
  rw [if_neg (show ¬((255 : Nat) &&& 192 = 128) by decide)]
  rw [if_neg (show ¬((255 : Nat) &&& 224 = 192) by decide)]
  rw [if_neg (show ¬((255 : Nat) &&& 240 = 224) by decide)]
  rw [if_neg (show ¬((255 : Nat) &&& 248 = 240) by decide)]
  rw [if_neg (show ¬((255 : Nat) &&& 252 = 248) by decide)]
  rw [if_neg (show ¬((255 : Nat) &&& 254 = 252) by decide)]
  rw [if_neg (show ¬((255 : Nat) = 254) by decide)]
  rw [if_pos (show True from trivial)]
  rw [if_neg (show ¬((0 : Nat) + 1 + 1 + 1 + 1 + 1 + 1 + 1 + 1 + 1 < 8) by decide)]
  rw [if_neg (show ¬((128 + toUint64 v / 72057594037927936) &&& 128 = 0) by omega)]
  rw [if_neg (show ¬((0 : Nat) + 1 + 1 + 1 + 1 + 1 + 1 + 1 + 1 + 1 < 9) by decide)]
  simp only [Nat.shiftLeft_eq, Except.ok.injEq, hsb2]
  norm_num
  rw [lor_eq_add (toUint64 v / 72057594037927936 * 72057594037927936) (toUint64 v / 281474976710656 % 256 * 281474976710656) 56 (by omega) (by omega)]
  rw [lor_eq_add (toUint64 v / 72057594037927936 * 72057594037927936 + toUint64 v / 281474976710656 % 256 * 281474976710656) (toUint64 v / 1099511627776 % 256 * 1099511627776) 48 (by omega) (by omega)]
  rw [lor_eq_add (toUint64 v / 72057594037927936 * 72057594037927936 + toUint64 v / 281474976710656 % 256 * 281474976710656 + toUint64 v / 1099511627776 % 256 * 1099511627776) (toUint64 v / 4294967296 % 256 * 4294967296) 40 (by omega) (by omega)]
  rw [lor_eq_add (toUint64 v / 72057594037927936 * 72057594037927936 + toUint64 v / 281474976710656 % 256 * 281474976710656 + toUint64 v / 1099511627776 % 256 * 1099511627776 + toUint64 v / 4294967296 % 256 * 4294967296) (toUint64 v / 16777216 % 256 * 16777216) 32 (by omega) (by omega)]
  rw [lor_eq_add (toUint64 v / 72057594037927936 * 72057594037927936 + toUint64 v / 281474976710656 % 256 * 281474976710656 + toUint64 v / 1099511627776 % 256 * 1099511627776 + toUint64 v / 4294967296 % 256 * 4294967296 + toUint64 v / 16777216 % 256 * 16777216) (toUint64 v / 65536 % 256 * 65536) 24 (by omega) (by omega)]
  rw [lor_eq_add (toUint64 v / 72057594037927936 * 72057594037927936 + toUint64 v / 281474976710656 % 256 * 281474976710656 + toUint64 v / 1099511627776 % 256 * 1099511627776 + toUint64 v / 4294967296 % 256 * 4294967296 + toUint64 v / 16777216 % 256 * 16777216 + toUint64 v / 65536 % 256 * 65536) (toUint64 v / 256 % 256 * 256) 16 (by omega) (by omega)]
  rw [lor_eq_add (toUint64 v / 72057594037927936 * 72057594037927936 + toUint64 v / 281474976710656 % 256 * 281474976710656 + toUint64 v / 1099511627776 % 256 * 1099511627776 + toUint64 v / 4294967296 % 256 * 4294967296 + toUint64 v / 16777216 % 256 * 16777216 + toUint64 v / 65536 % 256 * 65536 + toUint64 v / 256 % 256 * 256) (toUint64 v % 256) 8 (by omega) (by omega)]
  try omega

end ordVarint64

namespace ordVarint64

/-- Round trip for `ordVarint64`: decoding an encoding restores the value. -/
theorem decode_encode (v : Int) (hv1 : -(2 ^ 63) ≤ v) (hv2 : v < 2 ^ 63) :
    Decode (Encode v) = .ok v := by
  have hcase : v ≤ -(2 ^ 55) + 1 ∨ (-(2 ^ 55) + 2 ≤ v ∧ v ≤ -(2 ^ 48) + 1) ∨
      (-(2 ^ 48) + 2 ≤ v ∧ v ≤ -(2 ^ 41) + 1) ∨ (-(2 ^ 41) + 2 ≤ v ∧ v ≤ -(2 ^ 34) + 1) ∨
      (-(2 ^ 34) + 2 ≤ v ∧ v ≤ -(2 ^ 27) + 1) ∨ (-(2 ^ 27) + 2 ≤ v ∧ v ≤ -(2 ^ 20) + 1) ∨
      (-(2 ^ 20) + 2 ≤ v ∧ v ≤ -(2 ^ 13) + 1) ∨ (-(2 ^ 13) + 2 ≤ v ∧ v ≤ -(2 ^ 6) + 1) ∨
      (-(2 ^ 6) + 2 ≤ v ∧ v ≤ -1) ∨ (0 ≤ v ∧ v ≤ 2 ^ 6 - 1) ∨
      (2 ^ 6 ≤ v ∧ v ≤ 2 ^ 13 - 1) ∨ (2 ^ 13 ≤ v ∧ v ≤ 2 ^ 20 - 1) ∨
      (2 ^ 20 ≤ v ∧ v ≤ 2 ^ 27 - 1) ∨ (2 ^ 27 ≤ v ∧ v ≤ 2 ^ 34 - 1) ∨
      (2 ^ 34 ≤ v ∧ v ≤ 2 ^ 41 - 1) ∨ (2 ^ 41 ≤ v ∧ v ≤ 2 ^ 48 - 1) ∨
      (2 ^ 48 ≤ v ∧ v ≤ 2 ^ 55 - 1) ∨ (2 ^ 55 ≤ v ∧ v ≤ 2 ^ 63 - 1) := by omega
  rcases hcase with h | ⟨h1, h2⟩ | ⟨h1, h2⟩ | ⟨h1, h2⟩ | ⟨h1, h2⟩ | ⟨h1, h2⟩ | ⟨h1, h2⟩ |
    ⟨h1, h2⟩ | ⟨h1, h2⟩ | ⟨h1, h2⟩ | ⟨h1, h2⟩ | ⟨h1, h2⟩ | ⟨h1, h2⟩ | ⟨h1, h2⟩ | ⟨h1, h2⟩ |
    ⟨h1, h2⟩ | ⟨h1, h2⟩ | ⟨h1, h2⟩
  · exact decode_band1 v (by omega) h
  · exact decode_band2 v h1 h2
  · exact decode_band3 v h1 h2
  · exact decode_band4 v h1 h2
  · exact decode_band5 v h1 h2
  · exact decode_band6 v h1 h2
  · exact decode_band7 v h1 h2
  · exact decode_band8 v h1 h2
  · exact decode_band9 v h1 h2
  · exact decode_band10 v h1 h2
  · exact decode_band11 v h1 h2
  · exact decode_band12 v h1 h2
  · exact decode_band13 v h1 h2
  · exact decode_band14 v h1 h2
  · exact decode_band15 v h1 h2
  · exact decode_band16 v h1 h2
  · exact decode_band17 v h1 h2
  · exact decode_band18 v h1 h2

/-- Encoded length always equals `Size` (as an integer). -/
theorem encode_length (v : Int) (hv1 : -(2 ^ 63) ≤ v) (hv2 : v < 2 ^ 63) :
    Size v = ((Encode v).length : Int) := by
  obtain ⟨s, _, _, _, _, hS, hlen, _⟩ := encode_spec v hv1 hv2
  rw [hlen, hS]

end ordVarint64

/-- C3: round-trip for the order-preserving varints.  For every `uint64` `x`,
`OrdUvarint64`'s `Decode` applied to the output of `Encode x` (a buffer of
`Size()` bytes) succeeds and restores the value location to exactly `x`, and
likewise for every `int64` `x` with `OrdVarint64`; in both cases the number
of bytes written (and hence consumed — after decode the value, and therefore
its `Size()`, is exactly the encoded value's) equals the `Size()` at the
time of encode. -/
theorem ord_varint_roundtrip :
    (∀ x : Nat, x < 2 ^ 64 →
      ordUvarint64.Decode (ordUvarint64.Encode x) = .ok x ∧
        (ordUvarint64.Encode x).length = ordUvarint64.Size x) ∧
    (∀ x : Int, -(2 ^ 63) ≤ x → x < 2 ^ 63 →
      ordVarint64.Decode (ordVarint64.Encode x) = .ok x ∧
        ordVarint64.Size x = ((ordVarint64.Encode x).length : Int)) :=
  ⟨fun x hx => ⟨ordUvarint64.decode_encodeU x hx, ordUvarint64.encode_lengthU x hx⟩,
    fun x hx1 hx2 => ⟨ordVarint64.decode_encode x hx1 hx2,
      ordVarint64.encode_length x hx1 hx2⟩⟩

/-- Witness for C3 at `x = 300` (unsigned) and `x = -300` (signed). -/
theorem ord_varint_roundtrip_witness :
    (ordUvarint64.Decode (ordUvarint64.Encode 300) = .ok 300 ∧
      (ordUvarint64.Encode 300).length = ordUvarint64.Size 300) ∧
    (ordVarint64.Decode (ordVarint64.Encode (-300)) = .ok (-300) ∧
      ordVarint64.Size (-300) = ((ordVarint64.Encode (-300)).length : Int)) :=
  ⟨ord_varint_roundtrip.1 300 (by norm_num),
    ord_varint_roundtrip.2 (-300) (by norm_num) (by norm_num)⟩

/-- C4 (evaluation at the failing inputs): the source's negative band
boundaries sit one value off the documented table.  The table in the
source's comment and in the spec assigns 1 byte to every `v ∈ [-2^6, 2^6)`
and 8 bytes to `(-2^55, -2^48]`, but the switch's conditions
`v <= -(1<<k)+1` capture `-64` and `-63` into the 2-byte band (first byte
`001xxxxx`, i.e. `0x3F` for `-64`) and `-2^55+1` into the 9-byte band. -/
theorem ordVarint64_size_off_by_one :
    ordVarint64.Size (-64) = 2 ∧ ordVarint64.Size (-63) = 2 ∧
      ordVarint64.Encode (-64) = [0x3F, 0xC0] ∧
      ordVarint64.Size (-62) = 1 ∧ ordVarint64.Size (-65) = 2 ∧
      ordVarint64.Size (-(2 ^ 55) + 1) = 9 ∧
      ordVarint64.Size (-(2 ^ 55) + 2) = 8 := by
  refine ⟨by decide, by decide, ?_, by decide, by decide, by decide, by decide⟩
  decide
/-- C10: `ordVarint64.Decode` never returns the invalid-varint error — the
band cascade on the first byte covers all 256 byte values, so for every
buffer of bytes the decode either succeeds or reports an unexpected EOF
(the empty buffer, and buffers shorter than the length the first byte — and
for the 8/9-byte bands the second byte — indicates); the `ErrInvalidVarint`
default branches are unreachable. -/
theorem ordVarint64_decode_never_invalid (buf : List Nat) (hb : ∀ x ∈ buf, x < 256) :
    ordVarint64.Decode buf = .error .unexpectedEOF ∨
      ∃ v, ordVarint64.Decode buf = .ok v := by
  cases buf with
  | nil => left; rfl
  | cons b rest =>
    have hb0 : b < 256 := hb b (by simp)
    have hclass : b = 0 ∨ b = 1 ∨ (2 ≤ b ∧ b < 4) ∨ (4 ≤ b ∧ b < 8) ∨ (8 ≤ b ∧ b < 16) ∨
        (16 ≤ b ∧ b < 32) ∨ (32 ≤ b ∧ b < 64) ∨ (64 ≤ b ∧ b < 128) ∨
        (128 ≤ b ∧ b < 192) ∨ (192 ≤ b ∧ b < 224) ∨ (224 ≤ b ∧ b < 240) ∨
        (240 ≤ b ∧ b < 248) ∨ (248 ≤ b ∧ b < 252) ∨ (252 ≤ b ∧ b < 254) ∨
        b = 254 ∨ b = 255 := by omega
    rcases hclass with h | h | h | h | h | h | h | h | h | h | h | h | h | h | h | h
    · subst h
      have hf0 : ((0 : Nat) &&& 128 = 0) := by decide
      simp only [ordVarint64.Decode, List.getD_cons_zero]
      simp only [hf0, if_true, if_false]
      repeat' split
      all_goals first
        | (left; rfl)
        | (right; exact ⟨_, rfl⟩)
        | (exfalso; omega)
    · subst h
      have hf0 : ((1 : Nat) &&& 128 = 0) := by decide
      have hf1 : ¬((1 : Nat) = 0) := by decide
      simp only [ordVarint64.Decode, List.getD_cons_zero]
      simp only [hf0, hf1, if_true, if_false]
      repeat' split
      all_goals first
        | (left; rfl)
        | (right; exact ⟨_, rfl⟩)
        | (exfalso; omega)
    · obtain ⟨hq0, hq1, hq2, hq3, hq4⟩ := ordVarint64.sel4 b (by omega) (by omega)
      simp only [ordVarint64.Decode, List.getD_cons_zero]
      simp only [hq0, hq1, hq2, hq3, if_true, if_false]
      repeat' split
      all_goals first
        | (left; rfl)
        | (right; exact ⟨_, rfl⟩)
        | (exfalso; omega)
    · obtain ⟨hq0, hq1, hq2, hq3, hq4, hq5⟩ := ordVarint64.sel5 b (by omega) (by omega)
      simp only [ordVarint64.Decode, List.getD_cons_zero]
      simp only [hq0, hq1, hq2, hq3, hq4, if_true, if_false]
      repeat' split
      all_goals first
        | (left; rfl)
        | (right; exact ⟨_, rfl⟩)
        | (exfalso; omega)
    · obtain ⟨hq0, hq1, hq2, hq3, hq4, hq5, hq6⟩ := ordVarint64.sel6 b (by omega) (by omega)
      simp only [ordVarint64.Decode, List.getD_cons_zero]
      simp only [hq0, hq1, hq2, hq3, hq4, hq5, if_true, if_false]
      repeat' split
      all_goals first
        | (left; rfl)
        | (right; exact ⟨_, rfl⟩)
        | (exfalso; omega)
    · obtain ⟨hq0, hq1, hq2, hq3, hq4, hq5, hq6, hq7⟩ := ordVarint64.sel7 b (by omega) (by omega)
      simp only [ordVarint64.Decode, List.getD_cons_zero]
      simp only [hq0, hq1, hq2, hq3, hq4, hq5, hq6, if_true, if_false]
      repeat' split
      all_goals first
        | (left; rfl)
        | (right; exact ⟨_, rfl⟩)
        | (exfalso; omega)
    · obtain ⟨hq0, hq1, hq2, hq3, hq4, hq5, hq6, hq7, hq8⟩ := ordVarint64.sel8 b (by omega) (by omega)
      simp only [ordVarint64.Decode, List.getD_cons_zero]
      simp only [hq0, hq1, hq2, hq3, hq4, hq5, hq6, hq7, if_true, if_false]
      repeat' split
      all_goals first
        | (left; rfl)
        | (right; exact ⟨_, rfl⟩)
        | (exfalso; omega)
    · obtain ⟨hq0, hq1, hq2, hq3, hq4, hq5, hq6, hq7, hq8, hq9⟩ := ordVarint64.sel9 b (by omega) (by omega)
      simp only [ordVarint64.Decode, List.getD_cons_zero]
      simp only [hq0, hq1, hq2, hq3, hq4, hq5, hq6, hq7, hq8, if_true, if_false]
      repeat' split
      all_goals first
        | (left; rfl)
        | (right; exact ⟨_, rfl⟩)
        | (exfalso; omega)
    · obtain ⟨hq0, hq1, hq2, hq3⟩ := ordVarint64.sel10 b (by omega) (by omega)
      simp only [ordVarint64.Decode, List.getD_cons_zero]
      simp only [hq0, if_false]
      simp only [hq1, hq2, if_true, if_false]
      repeat' split
      all_goals first
        | (left; rfl)
        | (right; exact ⟨_, rfl⟩)
        | (exfalso; omega)
    · obtain ⟨hq0, hq1, hq2, hq3, hq4⟩ := ordVarint64.sel11 b (by omega) (by omega)
      simp only [ordVarint64.Decode, List.getD_cons_zero]
      simp only [hq0, if_false]
      simp only [hq1, hq2, hq3, if_true, if_false]
      repeat' split
      all_goals first
        | (left; rfl)
        | (right; exact ⟨_, rfl⟩)
        | (exfalso; omega)
    · obtain ⟨hq0, hq1, hq2, hq3, hq4, hq5⟩ := ordVarint64.sel12 b (by omega) (by omega)
      simp only [ordVarint64.Decode, List.getD_cons_zero]
      simp only [hq0, if_false]
      simp only [hq1, hq2, hq3, hq4, if_true, if_false]
      repeat' split
      all_goals first
        | (left; rfl)
        | (right; exact ⟨_, rfl⟩)
        | (exfalso; omega)
    · obtain ⟨hq0, hq1, hq2, hq3, hq4, hq5, hq6⟩ := ordVarint64.sel13 b (by omega) (by omega)
      simp only [ordVarint64.Decode, List.getD_cons_zero]
      simp only [hq0, if_false]
      simp only [hq1, hq2, hq3, hq4, hq5, if_true, if_false]
      repeat' split
      all_goals first
        | (left; rfl)
        | (right; exact ⟨_, rfl⟩)
        | (exfalso; omega)
    · obtain ⟨hq0, hq1, hq2, hq3, hq4, hq5, hq6, hq7⟩ := ordVarint64.sel14 b (by omega) (by omega)
      simp only [ordVarint64.Decode, List.getD_cons_zero]
      simp only [hq0, if_false]
      simp only [hq1, hq2, hq3, hq4, hq5, hq6, if_true, if_false]
      repeat' split
      all_goals first
        | (left; rfl)
        | (right; exact ⟨_, rfl⟩)
        | (exfalso; omega)
    · obtain ⟨hq0, hq1, hq2, hq3, hq4, hq5, hq6, hq7, hq8⟩ := ordVarint64.sel15 b (by omega) (by omega)
      simp only [ordVarint64.Decode, List.getD_cons_zero]
      simp only [hq0, if_false]
      simp only [hq1, hq2, hq3, hq4, hq5, hq6, hq7, if_true, if_false]
      repeat' split
      all_goals first
        | (left; rfl)
        | (right; exact ⟨_, rfl⟩)
        | (exfalso; omega)
    · subst h
      have hf0 : ¬((254 : Nat) &&& 128 = 0) := by decide
      have hf1 : ((254 : Nat) &&& 128 = 128) := by decide
      have hf2 : ¬((254 : Nat) &&& 192 = 128) := by decide
      have hf3 : ¬((254 : Nat) &&& 224 = 192) := by decide
      have hf4 : ¬((254 : Nat) &&& 240 = 224) := by decide
      have hf5 : ¬((254 : Nat) &&& 248 = 240) := by decide
      have hf6 : ¬((254 : Nat) &&& 252 = 248) := by decide
      have hf7 : ¬((254 : Nat) &&& 254 = 252) := by decide
      simp only [ordVarint64.Decode, List.getD_cons_zero]
      simp only [hf0, if_false]
      simp only [hf1, hf2, hf3, hf4, hf5, hf6, hf7, if_true, if_false]
      repeat' split
      all_goals first
        | (left; rfl)
        | (right; exact ⟨_, rfl⟩)
        | (exfalso; omega)
    · subst h
      have hf0 : ¬((255 : Nat) &&& 128 = 0) := by decide
      have hf1 : ((255 : Nat) &&& 128 = 128) := by decide
      have hf2 : ¬((255 : Nat) &&& 192 = 128) := by decide
      have hf3 : ¬((255 : Nat) &&& 224 = 192) := by decide
      have hf4 : ¬((255 : Nat) &&& 240 = 224) := by decide
      have hf5 : ¬((255 : Nat) &&& 248 = 240) := by decide
      have hf6 : ¬((255 : Nat) &&& 252 = 248) := by decide
      have hf7 : ¬((255 : Nat) &&& 254 = 252) := by decide
      have hf8 : ¬((255 : Nat) = 254) := by decide
      simp only [ordVarint64.Decode, List.getD_cons_zero]
      simp only [hf0, if_false]
      simp only [hf1, hf2, hf3, hf4, hf5, hf6, hf7, hf8, if_true, if_false]
      repeat' split
      all_goals first
        | (left; rfl)
        | (right; exact ⟨_, rfl⟩)
        | (exfalso; omega)

/-- Witness for C10 at the 1-byte buffer `[0x20]` (a 2-byte band prefix cut
short, so decode reports EOF). -/
theorem ordVarint64_decode_never_invalid_witness :
    (∀ x ∈ ([0x20] : List Nat), x < 256) ∧
      (ordVarint64.Decode [0x20] = .error .unexpectedEOF ∨
        ∃ v, ordVarint64.Decode [0x20] = .ok v) :=
  ⟨by decide, ordVarint64_decode_never_invalid [0x20] (by decide)⟩

/-- Model of Go's `binary.Uvarint` (protobuf base-128 varint decode): returns
the decoded value and the byte count `n`; `n = 0` means the buffer ran out
mid-varint (or was empty), `n < 0` means overflow (more than 10 bytes, or a
10th byte above 1).  `uint64` accumulation wraps mod `2^64`. -/
def goUvarint (buf : List Nat) : Nat × Int := goUvarintAux buf 0 0 0
where
  goUvarintAux : List Nat → Nat → Nat → Nat → Nat × Int
    | [], _, _, _ => (0, 0)
    | b :: rest, i, x, s =>
      if i = 10 then (0, -((i : Int) + 1))
      else if b < 128 then
        if i = 9 ∧ b > 1 then (0, -((i : Int) + 1))
        else (x ||| (b <<< s) % 2 ^ 64, (i : Int) + 1)
      else goUvarintAux rest (i + 1) (x ||| ((b &&& 0x7F) <<< s) % 2 ^ 64) (s + 7)

/-- Model of Go's `binary.PutUvarint`, as the list of bytes it writes
(`byte(x)|0x80` for each continuation byte, then `byte(x)`).  The fuel 10
covers every `uint64` (at most 10 bytes). -/
def putUvarint (x : Nat) : List Nat := putUvarintAux 10 x
where
  putUvarintAux : Nat → Nat → List Nat
    | 0, x => [x % 256]
    | f + 1, x => if x < 128 then [x] else ((x % 256) ||| 128) :: putUvarintAux f (x >>> 7)

/-- Model of `uvarintSize` (src/encode.go lines 845-848): the byte count
`binary.PutUvarint` reports. -/
def uvarintSize (x : Nat) : Nat := (putUvarint x).length

namespace uvarint32

/-- Model of `uvarint32.Decode` (src/encode.go lines 242-255): runs
`binary.Uvarint`, maps `n = 0` to EOF and `n < 0` to overflow, then checks
`n > math.MaxUint32` — note this compares the byte count `n`, not the
decoded value — and stores `uint32(l)`, i.e. the value truncated mod
`2^32`. -/
def Decode (buf : List Nat) : Except GoErr Nat :=
  let p := goUvarint buf
  if p.2 = 0 then .error .unexpectedEOF
  else if p.2 < 0 then .error .overflowVarint
  else if p.2 > 4294967295 then .error .overflowVarint
  else .ok (p.1 % 2 ^ 32)

end uvarint32

/-- C5 (evaluation at the failing input): the buffer `80 80 80 80 10` is the
protobuf uvarint of `2^32`, one past `MaxUint32`, decoded in 5 bytes.
`uvarint32.Decode` tests `n > math.MaxUint32` where `n = 5` is the byte
count, so the overflow is never caught and the value is silently truncated
to `uint32(2^32) = 0`. -/
theorem uvarint32_overflow_not_detected :
    goUvarint [0x80, 0x80, 0x80, 0x80, 0x10] = (2 ^ 32, 5) ∧
      uvarint32.Decode [0x80, 0x80, 0x80, 0x80, 0x10] = .ok 0 :=
  ⟨rfl, rfl⟩

/-- Model of Go's `copy(dst, src)`: the first `min (len dst) (len src)`
elements of `src`, then the rest of `dst` unchanged. -/
def goCopy (dst src : List Nat) : List Nat :=
  src.take dst.length ++ dst.drop (min src.length dst.length)

namespace lengthDelimBytes

/-- Model of `lengthDelimBytes.Size` (src/encode.go lines 755-757). -/
def Size (v : List Nat) : Nat := uvarintSize v.length + v.length

/-- Model of `lengthDelimBytes.Encode` (src/encode.go lines 751-754):

    n := binary.PutUvarint(buf, uint64(len(*e.v)))
    copy(buf, (*e.v)[n:])

`PutUvarint` writes its bytes at the start of `buf` (the first `goCopy`);
then the source copies `v[n:]` — the value with its first `n` bytes dropped
— to the start of `buf` again, over the length prefix. -/
def Encode (v : List Nat) (buf : List Nat) : List Nat :=
  let p := putUvarint v.length
  let buf1 := goCopy buf p
  goCopy buf1 (v.drop p.length)

end lengthDelimBytes

namespace lengthDelimString

/-- Model of `lengthDelimString.Size` (src/encode.go lines 785-787); the
string value is modelled as its byte list. -/
def Size (v : List Nat) : Nat := uvarintSize v.length + v.length

/-- Model of `lengthDelimString.Encode` (src/encode.go lines 781-784),
byte-for-byte the same routine as `lengthDelimBytes.Encode` with the string
read as bytes. -/
def Encode (v : List Nat) (buf : List Nat) : List Nat :=
  let p := putUvarint v.length
  let buf1 := goCopy buf p
  goCopy buf1 (v.drop p.length)

end lengthDelimString

/-- C6 (evaluation at the failing input): for the two-byte value `AA BB`,
`Size` is 3 and the claim expects the buffer `02 AA BB` (uvarint length,
then the payload).  The source's `copy(buf, v[n:])` instead copies `BB`
over the start of the buffer, leaving `BB 00 00` — the length prefix is
clobbered and the payload misplaced; the string variant behaves
identically. -/
theorem lengthDelim_encode_misplaced_payload :
    lengthDelimBytes.Size [0xAA, 0xBB] = 3 ∧
      lengthDelimBytes.Encode [0xAA, 0xBB] (List.replicate 3 0) = [0xBB, 0, 0] ∧
      lengthDelimString.Encode [0xAA, 0xBB] (List.replicate 3 0) = [0xBB, 0, 0] ∧
      putUvarint ([0xAA, 0xBB] : List Nat).length ++ [0xAA, 0xBB] = [0x02, 0xAA, 0xBB] ∧
      ([0xBB, 0, 0] : List Nat) ≠ [0x02, 0xAA, 0xBB] :=
  ⟨rfl, rfl, rfl, rfl, by decide⟩

/-- State of the bitBuffer (src/unnamed/part_001 lines 684-688): the backing
bytes and the current bit index. -/
structure BitBuf where
  b : List Nat
  i : Nat
deriving Repr, DecidableEq

/-- Semantics of Go's `x >> uint(s)` on a `uint64` with an `int` shift count:
a negative count converts to a huge unsigned count, and any count at or
beyond the width yields 0. -/
def goShrU64 (x : Nat) (s : Int) : Nat := if s < 0 then 0 else x >>> s.toNat

/-- Semantics of Go's `x << uint(s)` on a `uint64` with an `int` shift count:
negative counts convert to huge unsigned counts (result 0), and the result
wraps mod `2^64`. -/
def goShlU64 (x : Nat) (s : Int) : Nat := if s < 0 then 0 else (x <<< s.toNat) % 2 ^ 64

namespace bitBuffer

/-- Model of `bitBuffer.availInByte` (src/unnamed/part_001 lines 723-725). -/
def availInByte (st : BitBuf) : Nat := 8 - st.i % 8

/-- Model of `bitBuffer.lenBits` (src/unnamed/part_001 lines 727-729). -/
def lenBits (st : BitBuf) : Nat := st.b.length * 8

/-- Loop of `writeBits`: `b.b[b.i/8] |= byte(shiftedX >> uint(56-j*8))`,
advancing by `take = minInt(availInByte, n)` bits.  The fuel equals the
initial n; since every iteration consumes at least one bit it never runs
out before the `n > 0` condition fails. -/
def writeBitsLoop : Nat → BitBuf → Nat → Nat → Nat → BitBuf
  | 0, st, _, _, _ => st
  | fuel + 1, st, shiftedX, n, j =>
    if n = 0 then st
    else
      let take := min (availInByte st) n
      let st' : BitBuf :=
        ⟨st.b.set (st.i / 8)
            ((st.b.getD (st.i / 8) 0) ||| goShrU64 shiftedX (56 - (j : Int) * 8) % 256),
         st.i + take⟩
      writeBitsLoop fuel st' shiftedX (n - take) (j + 1)

/-- Model of `bitBuffer.writeBits` (src/unnamed/part_001 lines 691-703).
Overrun panics (`none`); otherwise
`shiftedX := x << uint(64-n) >> uint(b.i%8)` with Go's int-to-uint shift
conversions, then the byte loop. -/
def writeBits (st : BitBuf) (x : Nat) (n : Nat) : Option BitBuf :=
  if st.i + n > lenBits st then none
  else
    let shiftedX := goShrU64 (goShlU64 x (64 - (n : Int))) ((st.i % 8 : Nat) : Int)
    some (writeBitsLoop n st shiftedX n 0)

/-- Loop of `readBits`:
`result |= (uint64(b.b[b.i/8]) << uint(56-j*8)) & mask`, advancing by
`take` bits; fuel as in `writeBitsLoop`. -/
def readBitsLoop : Nat → BitBuf → Nat → Nat → Nat → Nat → Nat × BitBuf
  | 0, st, _, result, _, _ => (result, st)
  | fuel + 1, st, mask, result, n, j =>
    if n = 0 then (result, st)
    else
      let take := min (availInByte st) n
      let result' := result ||| (goShlU64 (st.b.getD (st.i / 8) 0) (56 - (j : Int) * 8) &&& mask)
      readBitsLoop fuel ⟨st.b, st.i + take⟩ mask result' (n - take) (j + 1)

/-- Model of `bitBuffer.readBits` (src/unnamed/part_001 lines 706-721).
Overrun returns `io.ErrUnexpectedEOF`; otherwise
`shift := uint(64 - n - b.i%8)` (an int conversion that can go negative),
`mask := ((uint64(1) << uint(n)) - 1) << shift` with `uint64` wrap-around,
the byte loop, and finally `result >> shift`. -/
def readBits (st : BitBuf) (n : Nat) : Except GoErr (Nat × BitBuf) :=
  if st.i + n > lenBits st then .error .unexpectedEOF
  else
    let shift : Int := 64 - (n : Int) - ((st.i % 8 : Nat) : Int)
    let mask := goShlU64 ((((1 <<< n) % 2 ^ 64) + 2 ^ 64 - 1) % 2 ^ 64) shift
    let p := readBitsLoop n st mask 0 n 0
    .ok (goShrU64 p.1 shift, p.2)

end bitBuffer

/-- Bitpack items (src/unnamed/part_001 lines 499-682), with the pointed-to
values inlined: `Bit`, `BitFlags`, `BitPadding`, and the `BitsN` families
(whose stored value has the Go field's width). -/
inductive BitpackItem where
  | bitItem (v : Bool)
  | bitFlags (vs : List Bool)
  | bitPadding (n : Nat)
  | bits8 (v : Nat) (n : Nat)
  | bits16 (v : Nat) (n : Nat)
  | bits32 (v : Nat) (n : Nat)
  | bits64 (v : Nat) (n : Nat)

/-- Model of the items' `size()` methods: 1 for a bit, the flag count for
BitFlags, and the constructor's n otherwise. -/
def BitpackItem.size : BitpackItem → Nat
  | .bitItem _ => 1
  | .bitFlags vs => vs.length
  | .bitPadding n => n
  | .bits8 _ n => n
  | .bits16 _ n => n
  | .bits32 _ n => n
  | .bits64 _ n => n

/-- Model of the items' `encode(b *bitBuffer)` methods: each writes via
`writeBits`; `uint64(*e.v)` keeps the field's width (mod `2^w`). -/
def BitpackItem.encode (it : BitpackItem) (st : BitBuf) : Option BitBuf :=
  match it with
  | .bitItem v => bitBuffer.writeBits st (if v then 1 else 0) 1
  | .bitFlags vs => vs.foldlM (fun st v => bitBuffer.writeBits st (if v then 1 else 0) 1) st
  | .bitPadding n => bitBuffer.writeBits st 0 n
  | .bits8 v n => bitBuffer.writeBits st (v % 2 ^ 8) n
  | .bits16 v n => bitBuffer.writeBits st (v % 2 ^ 16) n
  | .bits32 v n => bitBuffer.writeBits st (v % 2 ^ 32) n
  | .bits64 v n => bitBuffer.writeBits st (v % 2 ^ 64) n

namespace bitpacked

/-- Model of `bitpacked.sizeBits` (src/unnamed/part_001 lines 490-496). -/
def sizeBits (items : List BitpackItem) : Nat :=
  items.foldl (fun acc it => acc + it.size) 0

/-- Model of `bitpacked.Size` (src/unnamed/part_001 lines 487-489). -/
def Size (items : List BitpackItem) : Nat := (sizeBits items + 7) / 8

/-- Model of `bitpacked.Encode` (src/unnamed/part_001 lines 465-473): run
every item's `encode` on a fresh bit buffer over `buf` (a `writeBits`
overrun panic propagates as `none`), then panic unless exactly `sizeBits`
bits were written. -/
def Encode (items : List BitpackItem) (buf : List Nat) : Option (List Nat) :=
  (items.foldlM (fun st it => BitpackItem.encode it st) (⟨buf, 0⟩ : BitBuf)).bind
    fun st => if st.i = sizeBits items then some st.b else none

end bitpacked

/-- Item list of the worked Bitpacked example. -/
def c7items : List BitpackItem :=
  [.bits8 0x3 3, .bits8 0x2A 6, .bits8 0xD 4, .bitPadding 5,
   .bitFlags [true, false, true, true]]

/-- C7: the Bitpacked composite Bits8(0x3,3), Bits8(0x2A,6), Bits8(0xD,4),
BitPadding(5), BitFlags(true,false,true,true) occupies 22 bits, so `Size`
is 3 bytes, and encoding into a zeroed 3-byte buffer yields exactly
`0x75 0x68 0x2C`. -/
theorem bitpacked_example_encoding :
    bitpacked.sizeBits c7items = 22 ∧
      bitpacked.Size c7items = 3 ∧
      bitpacked.Encode c7items (List.replicate 3 0) = some [0x75, 0x68, 0x2C] :=
  ⟨rfl, rfl, rfl⟩

/-- Sequence of `writeBits` calls threaded through a bit buffer. -/
def runWrites (st : BitBuf) (ws : List (Nat × Nat)) : Option BitBuf :=
  ws.foldlM (fun st w => bitBuffer.writeBits st w.1 w.2) st

/-- Sequence of `readBits` calls threaded through a bit buffer, collecting
the values read. -/
def runReads : BitBuf → List Nat → Except GoErr (List Nat)
  | _, [] => .ok []
  | st, n :: rest =>
    (bitBuffer.readBits st n).bind fun p => (runReads p.2 rest).map fun vs => p.1 :: vs

/-- C8 (evaluation at the failing input): in a 9-byte (72-bit) buffer, write
1 bit of 0 and then 64 bits of 1 (65 bits total, within capacity, both
widths in [1,64]); reading back with widths 1, 64 returns `[0, 0]`, not the
written `[0, 1]`.  At bit offset 1, `writeBits` computes
`shiftedX = 1 << 0 >> 1 = 0` and drops the low bit entirely, and
`readBits` computes `shift = 64 - 64 - 1 = -1`, whose uint conversion
zeroes the mask. -/
theorem bitBuffer_unaligned_write64_loses_bits :
    (runWrites ⟨List.replicate 9 0, 0⟩ [(0, 1), (1, 64)]).map
        (fun st => runReads ⟨st.b, 0⟩ [1, 64]) = some (.ok [0, 0]) ∧
      ([0, 0] : List Nat) ≠ [0, 1] :=
  ⟨rfl, by decide⟩

/-- Model of a TupleItem (src/unnamed/part_000 lines 3-9) for encoding:
`sizeTuple last` is the item's `SizeTuple(last)` byte count and
`encodeTuple last` the bytes its `EncodeTuple(buf, last)` writes into its
slice (exactly `sizeTuple last` of them). -/
structure TupleItemM where
  sizeTuple : Bool → Nat
  encodeTuple : Bool → List Nat

/-- Placeholder item for out-of-range indexing (never reached when
`n ≤ items.length`). -/
def tupleItemDflt : TupleItemM := ⟨fun _ => 0, fun _ => []⟩

/-- Model of `Tuple.EncodePrefix` (src/unnamed/part_000 lines 21-36).  The
sizing loop over `i < n` passes `i == len(t.items)-1` to `SizeTuple` and
sums the results; `make([]byte, size)` zero-fills the buffer; the encode
loop passes `i == n-1`, hands item i the slice `buf[j : j+size_i]` with
`size_i = SizeTuple(i == n-1)`, and advances j.  Both Go comparisons are on
ints, hence the casts.  Slicing past the end of the buffer panics,
modelled as `none`; bytes after the final j keep their zero fill. -/
def tupleEncodeFirstN (items : List TupleItemM) (n : Nat) : Option (List Nat) :=
  let size := (List.range n).foldl
    (fun acc i =>
      acc + (items.getD i tupleItemDflt).sizeTuple
        (decide ((i : Int) = (items.length : Int) - 1))) 0
  let written := (List.range n).foldl
    (fun acc i =>
      let it := items.getD i tupleItemDflt
      let last := decide ((i : Int) = (n : Int) - 1)
      let sz := it.sizeTuple last
      acc ++ ((it.encodeTuple last).take sz
        ++ List.replicate (sz - (it.encodeTuple last).length) 0)) []
  if written.length ≤ size then some (written ++ List.replicate (size - written.length) 0) else none

/-- Two-item tuple member whose encoding depends on the `last` flag: one
byte `0xEE` when last, two bytes `0xAA 0xBB` otherwise. -/
def tupItC9 : TupleItemM :=
  ⟨fun last => if last then 1 else 2, fun last => if last then [0xEE] else [0xAA, 0xBB]⟩

/-- C9 (evaluation at the failing input): for a two-item tuple of `tupItC9`
and n = 1, the encode loop correctly passes `last = (i == n-1) = true` to
item 0 (which therefore writes its 1-byte form `0xEE`), but the sizing
loop passes `last = (i == len(items)-1) = false`, allocating
`SizeTuple(false) = 2` bytes.  The result is the 2-byte buffer `EE 00`
instead of the 1-byte `EE` that sizing with `i == n-1` (the claimed
semantics, and `SizeTuple(true) = 1`) would produce. -/
theorem tuple_sizing_uses_item_count_not_n :
    tupleEncodeFirstN [tupItC9, tupItC9] 1 = some [0xEE, 0] ∧
      tupItC9.sizeTuple true = 1 ∧
      (some [0xEE, 0] : Option (List Nat)) ≠ some [0xEE] :=
  ⟨rfl, rfl, by decide⟩
